import Mathlib

/-!
# OpenTomb: physics-world integration layer

A shallow embedding of the parts of `src/engine.cpp` and `src/hair.cpp` that couple
the Bullet physics world to the room graph and to the hair of a character: the
broadphase near callback, the internal tick callback, the gravity setter, the
flip-map / flip-state functions, room enabling, the entity movers, and the
construction and destruction of a `Hair`.

Conventions of the embedding.

* Scalars (`btScalar`, `lua_Number`) are exact rationals.
* A raw `EngineContainer*` is an address; the containers live in a heap
  `ContainerPtr → EngineContainer`, so pointer equality is address equality.
* A `std::shared_ptr<Room>` is `Option RoomPtr`, `none` being the null pointer.
* A Lua stack is the list of its slots, slot 1 first; each slot already holds the
  value that `lua_tointeger` / `lua_tonumber` returns for it.
* Functions that live outside these sources (`Room_IsInNearRoomsList`,
  `Room_FindPosCogerrence`, `World_GetEntityByID`, `World_GetModelByID`, Bullet's
  `btSqrt`) and constants of absent headers (`OBJECT_BULLET_MISC`, `TR_II`, `TR_III`,
  `AMASK_OP_OR`, `AMASK_OP_XOR`, `OBJECT_HAIR`, the collision groups) are parameters.
* Calls into the physics world are recorded as a list of operations, oldest first;
  the addresses of freshly allocated objects come from an allocator parameter.
-/

namespace OpenTomb

/-! ## Data model -/

/-- Identity of a room, the pointee of a `std::shared_ptr<Room>`. -/
abbrev RoomPtr := Nat

/-- Address of an `EngineContainer`. -/
abbrev ContainerPtr := Nat

/-- Bullet's `btVector3`, exact components. -/
structure btVector3 where
  x : ℚ
  y : ℚ
  z : ℚ
deriving DecidableEq, Repr

/-- Bullet's `btTransform`; only the origin is read by the code embedded here. -/
structure btTransform where
  m_origin : btVector3
deriving DecidableEq, Repr

/-- The fields of `EngineContainer` read or written by `engine.cpp`'s callbacks. -/
structure EngineContainer where
  object_type : Nat
  room : Option RoomPtr
deriving DecidableEq, Repr

/-- The container heap: what every `EngineContainer*` points at. -/
abbrev ContainerHeap := ContainerPtr → EngineContainer

/-- Bullet: `btCollisionObject::CF_STATIC_OBJECT`. -/
def CF_STATIC_OBJECT : Nat := 1

/-- Bullet: `btCollisionObject::CF_KINEMATIC_OBJECT`. -/
def CF_KINEMATIC_OBJECT : Nat := 2

/-- Bullet: `btCollisionObject::CO_RIGID_BODY`. -/
def CO_RIGID_BODY : Nat := 2

/-- Bullet's `btCollisionObject` (with the motion state slot of `btRigidBody`). -/
structure btCollisionObject where
  m_collisionFlags : Nat
  m_internalType : Nat
  m_userObjectPointer : Option ContainerPtr
  m_optionalMotionState : Option btTransform
deriving DecidableEq, Repr

/-- Bullet: `isStaticObject()`, `(m_collisionFlags & CF_STATIC_OBJECT) != 0`. -/
def btCollisionObject.isStaticObject (o : btCollisionObject) : Bool :=
  (o.m_collisionFlags &&& CF_STATIC_OBJECT) != 0

/-- Bullet: `isKinematicObject()`, `(m_collisionFlags & CF_KINEMATIC_OBJECT) != 0`. -/
def btCollisionObject.isKinematicObject (o : btCollisionObject) : Bool :=
  (o.m_collisionFlags &&& CF_KINEMATIC_OBJECT) != 0

/-- Bullet: `isStaticOrKinematicObject()`,
`(m_collisionFlags & (CF_KINEMATIC_OBJECT | CF_STATIC_OBJECT)) != 0`. -/
def btCollisionObject.isStaticOrKinematicObject (o : btCollisionObject) : Bool :=
  (o.m_collisionFlags &&& (CF_KINEMATIC_OBJECT ||| CF_STATIC_OBJECT)) != 0

/-- Bullet: `getUserPointer()`. -/
def btCollisionObject.getUserPointer (o : btCollisionObject) : Option ContainerPtr :=
  o.m_userObjectPointer

/-- Bullet: `btRigidBody::upcast`, the object itself when its internal type has the
rigid-body bit, otherwise null. -/
def btRigidBody.upcast (o : btCollisionObject) : Option btCollisionObject :=
  if (o.m_internalType &&& CO_RIGID_BODY) != 0 then some o else none

/-- Bullet: `btRigidBody::getMotionState()`. -/
def btCollisionObject.getMotionState (o : btCollisionObject) : Option btTransform :=
  o.m_optionalMotionState

/-- The expression `(c) ? (c->room) : (NULL)` of `Engine_RoomNearCallback`. -/
def containerRoom (heap : ContainerHeap) (c : Option ContainerPtr) : Option RoomPtr :=
  match c with
  | some p => (heap p).room
  | none => none

/-! ## Collision filtering: `Engine_RoomNearCallback` -/

/-- `Engine_RoomNearCallback` (engine.cpp 85-123) on the pair of client objects
`obj0`, `obj1` of the two proxies. The callback returns nothing and its only effect
is to call `dispatcher.defaultNearCallback` at most once; the result is `true` when
that call is made and `false` when the function returns without it. -/
def Engine_RoomNearCallback (Room_IsInNearRoomsList : RoomPtr → RoomPtr → Bool)
    (heap : ContainerHeap) (obj0 obj1 : btCollisionObject) : Bool :=
  let c0 := obj0.getUserPointer
  let r0 := containerRoom heap c0
  let c1 := obj1.getUserPointer
  let r1 := containerRoom heap c1
  if c1.isSome && c1 == c0 then
    if obj0.isStaticOrKinematicObject || obj1.isStaticOrKinematicObject then
      false
    else
      true
  else if r0.isNone && r1.isNone then
    true
  else
    match r0, r1 with
    | some a, some b => if Room_IsInNearRoomsList a b then true else false
    | _, _ => false

/-! ## Room re-resolution: `Engine_InternalTickCallback` -/

/-- Body of the loop of `Engine_InternalTickCallback` (engine.cpp 132-143) for one
collision object. -/
def tickObject (OBJECT_BULLET_MISC : Nat)
    (Room_FindPosCogerrence : btVector3 → Option RoomPtr → Option RoomPtr)
    (heap : ContainerHeap) (obj : btCollisionObject) : ContainerHeap :=
  match btRigidBody.upcast obj with
  | none => heap
  | some body =>
    if body.isStaticObject then heap
    else
      match body.getMotionState with
      | none => heap
      | some xform =>
        match body.getUserPointer with
        | none => heap
        | some cont =>
          if (heap cont).object_type = OBJECT_BULLET_MISC then
            fun p =>
              if p = cont then
                { heap cont with room := Room_FindPosCogerrence xform.m_origin (heap cont).room }
              else heap p
          else heap

/-- The loop `for(int i = n-1; i >= 0; i--)` of `Engine_InternalTickCallback`: the
argument `k` counts the objects still to visit, the next one visited has index
`k - 1`. -/
def tickLoop (OBJECT_BULLET_MISC : Nat)
    (Room_FindPosCogerrence : btVector3 → Option RoomPtr → Option RoomPtr)
    (objs : List btCollisionObject) : Nat → ContainerHeap → ContainerHeap
  | 0, heap => heap
  | k + 1, heap =>
    match objs[k]? with
    | some obj =>
      tickLoop OBJECT_BULLET_MISC Room_FindPosCogerrence objs k
        (tickObject OBJECT_BULLET_MISC Room_FindPosCogerrence heap obj)
    | none => tickLoop OBJECT_BULLET_MISC Room_FindPosCogerrence objs k heap

/-- `Engine_InternalTickCallback` (engine.cpp 128-145). `objs` is the collision
object array of `bt_engine_dynamicsWorld`, the world the callback is registered on
(engine.cpp 217), so `world->getNumCollisionObjects()` is its length. -/
def Engine_InternalTickCallback (OBJECT_BULLET_MISC : Nat)
    (Room_FindPosCogerrence : btVector3 → Option RoomPtr → Option RoomPtr)
    (objs : List btCollisionObject) (heap : ContainerHeap) : ContainerHeap :=
  tickLoop OBJECT_BULLET_MISC Room_FindPosCogerrence objs objs.length heap

/-! ## Gravity: `lua_SetGravity` -/

/-- `lua_SetGravity` (engine.cpp 512-545): the world gravity after the call, given
the Lua stack and the gravity before. Console output is not part of the state. -/
def lua_SetGravity (stack : List ℚ) (gravity : btVector3) : btVector3 :=
  match stack with
  | [] => gravity
  | [a1] => { x := 0, y := 0, z := a1 }
  | [a1, a2, a3] => { x := a1, y := a2, z := a3 }
  | _ => gravity

/-! ## Flipped (alternate) rooms: `lua_SetFlipState`, `lua_SetFlipMap` -/

/-- The cast `(uint32_t)` of a `lua_Integer`. -/
def toUint32 (v : Int) : Nat := (v % 4294967296).toNat

/-- The cast `(uint8_t)` of a `lua_Integer`. -/
def toUint8 (v : Int) : Nat := (v % 256).toNat

/-- The field of `Room` read by the flip functions. -/
structure Room where
  alternate_group : Nat
deriving DecidableEq, Repr

/-- Modelled from the spec: `Room_SwapToAlternate` and `Room_SwapToBase` are defined
outside these sources; by the spec a swap "exchanges the active geometry/collision
set for a room with its counterpart, relinking any sector `portal_to_room`
references and container lists". A call is therefore recorded, the room being named
by its position in `engine_world.rooms`; it changes neither the vector
`engine_world.rooms` nor any room's `alternate_group`. -/
inductive RoomSwap where
  | toAlternate (room : Nat)
  | toBase (room : Nat)
deriving DecidableEq, Repr

/-- The fields of `engine_world` used by the flip functions. `flip_map` and
`flip_state` are byte arrays with one entry per flip group. -/
structure world_s where
  version : Nat
  rooms : List Room
  flip_count : Nat
  flip_map : List Nat
  flip_state : List Nat
deriving DecidableEq, Repr

/-- The statement `if(state) Room_SwapToAlternate(room); else Room_SwapToBase(room);`. -/
def swapRoom (state : Nat) (room : Nat) : RoomSwap :=
  if state ≠ 0 then RoomSwap.toAlternate room else RoomSwap.toBase room

/-- The loop of engine.cpp 3567-3580 from the iterator position `i` on: `rooms` are
the rooms not yet visited; the result lists the swap calls in the order made. -/
def flipGroupRooms (group state : Nat) : List Room → Nat → List RoomSwap
  | [], _ => []
  | r :: rest, i =>
    if r.alternate_group = group then
      swapRoom state i :: flipGroupRooms group state rest (i + 1)
    else
      flipGroupRooms group state rest (i + 1)

/-- The loop of engine.cpp 3586-3596 from the iterator position `i` on. -/
def flipAllRooms (state : Nat) : List Room → Nat → List RoomSwap
  | [], _ => []
  | _ :: rest, i => swapRoom state i :: flipAllRooms state rest (i + 1)

/-- `lua_SetFlipState` (engine.cpp 3543-3603): the world after the call and the swap
calls made, in order. `TR_III` is the engine version constant of `vt_level.h`. -/
def lua_SetFlipState (TR_III : Nat) (w : world_s) (stack : List Int) :
    world_s × List RoomSwap :=
  match stack with
  | [a1, a2] =>
    let group := toUint32 a1
    let state := toUint32 a2
    let state := if state > 1 then 1 else state
    if group ≥ w.flip_count then
      (w, [])
    else if w.flip_map.getD group 0 = 0x1F then
      if w.version > TR_III then
        ({ w with flip_state := w.flip_state.set group state },
          flipGroupRooms group state w.rooms 0)
      else
        ({ w with flip_state := w.flip_state.set 0 state },
          flipAllRooms state w.rooms 0)
    else
      (w, [])
  | _ => (w, [])

set_option linter.unusedVariables false in
/-- `lua_SetFlipMap` (engine.cpp 3605-3634): the world after the call.
`AMASK_OP_OR` and `AMASK_OP_XOR` are the operation codes of an absent header. -/
def lua_SetFlipMap (AMASK_OP_OR AMASK_OP_XOR : Nat) (w : world_s) (stack : List Int) :
    world_s :=
  match stack with
  | [a1, a2, a3] =>
    let group := toUint32 a1
    let mask := toUint8 a2
    let op := toUint8 a3
    let op := if mask > AMASK_OP_XOR then AMASK_OP_XOR else AMASK_OP_OR
    if group ≥ w.flip_count then
      w
    else if op = AMASK_OP_XOR then
      { w with flip_map := w.flip_map.set group ((w.flip_map.getD group 0 ^^^ mask) % 256) }
    else
      { w with flip_map := w.flip_map.set group ((w.flip_map.getD group 0 ||| mask) % 256) }
  | _ => w

/-- `lua_GetFlipMap` (engine.cpp 3636-3656): the values pushed on the Lua stack. -/
def lua_GetFlipMap (w : world_s) (stack : List Int) : List Nat :=
  match stack with
  | [a1] =>
    let group := toUint32 a1
    if group ≥ w.flip_count then [] else [w.flip_map.getD group 0]
  | _ => []

/-- `lua_GetFlipState` (engine.cpp 3658-3678): the values pushed on the Lua stack. -/
def lua_GetFlipState (w : world_s) (stack : List Int) : List Nat :=
  match stack with
  | [a1] =>
    let group := toUint32 a1
    if group ≥ w.flip_count then [] else [w.flip_state.getD group 0]
  | _ => []

/-! ## Room enabling: `lua_SetRoomEnabled` -/

/-- Modelled from the spec: `Room_Enable` and `Room_Disable` are defined outside
these sources; by the spec they toggle "whether a room's bodies participate in the
physics world". A call is recorded, the room being named by its position in
`engine_world.rooms`. -/
inductive RoomToggle where
  | enable (room : Nat)
  | disable (room : Nat)
deriving DecidableEq, Repr

/-- `lua_SetRoomEnabled` (engine.cpp 304-329): the calls of `Room_Enable` and
`Room_Disable` made, for `engine_world.rooms.size()` rooms. -/
def lua_SetRoomEnabled (rooms_size : Nat) (stack : List Int) : List RoomToggle :=
  match stack with
  | a1 :: a2 :: _ =>
    let id := toUint32 a1
    if id ≥ rooms_size then
      []
    else if a2 = 0 then
      [RoomToggle.disable id]
    else
      [RoomToggle.enable id]
  | _ => []

/-! ## Moving entities: `lua_MoveEntityToEntity`, `lua_MoveEntityToSink` -/

/-- Bullet: `btVector3::operator-`. -/
def btVector3.sub (a b : btVector3) : btVector3 :=
  { x := a.x - b.x, y := a.y - b.y, z := a.z - b.z }

/-- Bullet: `btVector3::operator/` by a scalar. Bullet requires the scalar to be
non-zero (`btFullAssert(s != btScalar(0.0))`) and a quotient by zero is no number:
the result is `none` for the scalar 0. -/
def btVector3.divScalar (a : btVector3) (s : ℚ) : Option btVector3 :=
  if s = 0 then none else some { x := a.x / s, y := a.y / s, z := a.z / s }

/-- Bullet: `btVector3::operator*` by a scalar. -/
def btVector3.mulScalar (a : btVector3) (s : ℚ) : btVector3 :=
  { x := a.x * s, y := a.y * s, z := a.z * s }

/-- Bullet: `btVector3::operator+`. -/
def btVector3.add (a b : btVector3) : btVector3 :=
  { x := a.x + b.x, y := a.y + b.y, z := a.z + b.z }

/-- Bullet: `btVector3::length2`, the dot product of the vector with itself. -/
def btVector3.length2 (a : btVector3) : ℚ := a.x * a.x + a.y * a.y + a.z * a.z

/-- Bullet: `btDistance(v1, v2)`, `(v2 - v1).length()`, the square root `btSqrt`
being a parameter. -/
def btDistance (btSqrt : ℚ → ℚ) (v1 v2 : btVector3) : ℚ :=
  btSqrt (v2.sub v1).length2

/-- The statement `if(dist == 0.0) dist = 1.0;` of engine.cpp 1728 and 1762: the
divisor used for the direction vector. -/
def moveDivisor (dist : ℚ) : ℚ := if dist = 0 then 1 else dist

/-- Address of an `Entity`. -/
abbrev EntityPtr := Nat

/-- A slot of a Lua stack read both as an integer and as a number. -/
structure LuaSlot where
  tointeger : Int
  tonumber : ℚ
deriving DecidableEq, Repr

/-- The fields of `StatCameraSink` read by `lua_MoveEntityToSink`. -/
structure StatCameraSink where
  x : ℚ
  y : ℚ
  z : ℚ
  room_or_strength : ℚ
deriving DecidableEq, Repr

/-- `lua_MoveEntityToSink` (engine.cpp 1696-1739): the entity origins after the call.
`TR_II` is the engine version constant of `vt_level.h`. The result is `none` when
`cameras_sinks[sink_index]` lies outside the vector, a null entity pointer is
dereferenced or the direction vector is divided by zero. `updateRigidBody` acts
outside the origins and is left out. -/
def lua_MoveEntityToSink (TR_II : Nat) (btSqrt : ℚ → ℚ)
    (World_GetEntityByID : Int → Option EntityPtr) (version : Nat)
    (cameras_sinks : List StatCameraSink)
    (origins : EntityPtr → btVector3) (stack : List LuaSlot) :
    Option (EntityPtr → btVector3) :=
  match stack with
  | a1 :: a2 :: _ =>
    let sink_index := toUint32 a2.tointeger
    if sink_index > cameras_sinks.length then
      some origins
    else
      match cameras_sinks[sink_index]?, World_GetEntityByID a1.tointeger with
      | some sink, some ent =>
        let ent_pos := origins ent
        let sink_pos : btVector3 :=
          { x := sink.x, y := sink.y,
            z := if version < TR_II then ent_pos.z else sink.z + 256 }
        let dist := btDistance btSqrt ent_pos sink_pos
        let dist := moveDivisor dist
        match (sink_pos.sub ent_pos).divScalar dist with
        | none => none
        | some direction =>
          let speed := direction.mulScalar (sink.room_or_strength * (3 / 2))
          some (fun e =>
            if e = ent then
              { x := (origins ent).x + speed.x, y := (origins ent).y + speed.y,
                z := (origins ent).z + speed.z * 16 }
            else origins e)
      | _, _ => none
  | _ => some origins

/-- A computable square root on the rationals, rounded down to a multiple of the
inverse denominator: `⌊√(num · den)⌋ / den`. -/
def sqrtFloor (v : ℚ) : ℚ := (Nat.sqrt (v.num.toNat * v.den) : ℚ) / v.den

/-! ## Hair: data -/

/-- Address of a `btRigidBody`. -/
abbrev BodyPtr := Nat

/-- Address of a `btGeneric6DofConstraint`. -/
abbrev JointPtr := Nat

/-- The cast `(int8_t)` of an `int`. -/
def toInt8 (v : Int) : Int := (v + 128) % 256 - 128

/-- A vertex of a mesh; of its attributes the position is kept. -/
structure vertex_s where
  position : btVector3
deriving DecidableEq, Repr

/-- The fields of `base_mesh_s` used by `hair.cpp`. The buffer `matrix_indices` is
kept as the number of `int8_t` entries allocated for it and the list of the writes
`matrix_indices[index] = value` made into it, oldest first. -/
structure base_mesh_s where
  vertices : List vertex_s
  num_texture_pages : Nat
  element_count_per_texture : List Nat
  elements : List Nat
  matrix_indices_size : Nat
  matrix_indices : List (Nat × Int)
  bb_min : btVector3
  bb_max : btVector3
deriving DecidableEq, Repr

/-- An entry of `mesh_tree`: a part of a skeletal model. -/
structure mesh_tree_tag_s where
  mesh_base : base_mesh_s
  offset : btVector3
deriving DecidableEq, Repr

/-- The fields of `skeletal_model_s` used by `hair.cpp`; `mesh_tree` holds
`mesh_count` entries. -/
structure skeletal_model_s where
  mesh_count : Nat
  mesh_tree : List mesh_tree_tag_s
deriving DecidableEq, Repr

/-- The fields of `HairSetup` read by `Hair::create`; `m_rootAngle` enters only the
rotation of the root joint frame, which is not kept. -/
structure HairSetup where
  m_model : Nat
  m_linkBody : Nat
  m_rootWeight : ℚ
  m_tailWeight : ℚ
  m_hairInertia : ℚ
  m_hairRestitution : ℚ
  m_hairFriction : ℚ
  m_hairDamping : ℚ × ℚ
  m_jointOverlap : ℚ
  m_jointCfm : ℚ
  m_jointErp : ℚ
  m_headOffset : btVector3
deriving DecidableEq, Repr

/-- The fields of `Entity` read by `Hair::create`: `m_bf.bone_tag_count`, the body
pointers `m_bt.bt_body` (`none` for a null pointer) and `m_self->room`. -/
structure Entity where
  bone_tag_count : Nat
  bt_body : List (Option BodyPtr)
  self_room : Option RoomPtr
deriving DecidableEq, Repr

/-- The pointer `m_bt.bt_body[index]`. -/
def Entity.body (e : Entity) (index : Nat) : Option BodyPtr :=
  e.bt_body.getD index none

/-- A rigid body as `Hair::create` sets it up: its address, the mass given to the
constructor, the mass given to `calculateLocalInertia` for its local inertia, and
the properties set afterwards. -/
structure btRigidBody where
  address : BodyPtr
  mass : ℚ
  inertiaMass : ℚ
  linearDamping : ℚ
  angularDamping : ℚ
  restitution : ℚ
  friction : ℚ
  activationState : Nat
  userPointer : Option ContainerPtr
deriving DecidableEq, Repr

/-- A 6-DOF constraint as `Hair::create` sets it up: its address, the two bodies it
links (`none` for a null pointer), the origins of its two frames, the CFM and ERP
stop parameters and the solver iteration override. Frame rotations and angular
limits are multiples of pi and are not kept. -/
structure btGeneric6DofConstraint where
  address : JointPtr
  rbA : Option BodyPtr
  rbB : Option BodyPtr
  frameInA : btVector3
  frameInB : btVector3
  stopCfm : ℚ
  stopErp : ℚ
  overrideNumSolverIterations : Option Nat
deriving DecidableEq, Repr

/-- An element of a hair: mesh, rigid body and resting position. The collision shape
is determined by the mesh and is not kept. -/
structure HairElement where
  mesh : Option base_mesh_s
  body : Option btRigidBody
  position : btVector3
deriving DecidableEq, Repr

/-- A value-initialised `HairElement`. -/
def HairElement.empty : HairElement :=
  { mesh := none, body := none, position := { x := 0, y := 0, z := 0 } }

/-- The state of a `Hair` instance. -/
structure Hair where
  m_container : Option EngineContainer
  m_ownerChar : Option Entity
  m_ownerBody : Nat
  m_ownerBodyHairRoot : btVector3
  m_rootIndex : Nat
  m_tailIndex : Nat
  m_elements : List HairElement
  m_joints : List (Option btGeneric6DofConstraint)
  m_mesh : Option base_mesh_s
deriving DecidableEq, Repr

/-- An operation on the physics world or on a body registered in it. -/
inductive PhysicsOp where
  | addRigidBody (body : BodyPtr) (group mask : Nat)
  | addConstraint (joint : JointPtr) (disableCollisionsBetweenLinkedBodies : Bool)
  | removeConstraint (joint : JointPtr)
  | setUserPointer (body : BodyPtr) (pointer : Option ContainerPtr)
  | removeRigidBody (body : BodyPtr)
deriving DecidableEq, Repr

/-- Constants of absent headers used by `Hair::create`. -/
structure HairConsts where
  OBJECT_HAIR : Nat
  COLLISION_GROUP_CHARACTERS : Nat
  COLLISION_GROUP_KINEMATIC : Nat
deriving DecidableEq, Repr

/-- The addresses returned by the allocations of `Hair::create`: the container of
hair.cpp 24, the rigid body of element `i` (hair.cpp 82) and the constraint of joint
`i` (hair.cpp 171). -/
structure HairAlloc where
  container : ContainerPtr
  body : Nat → BodyPtr
  joint : Nat → JointPtr

/-- Bullet: `DISABLE_DEACTIVATION`. -/
def DISABLE_DEACTIVATION : Nat := 4

/-- The call `std::vector::resize(n)`: keep the first `n` entries, fill up with
value-initialised ones. -/
def vectorResize {α : Type} (v : List α) (n : Nat) (fill : α) : List α :=
  v.take n ++ List.replicate (n - v.length) fill

/-! ## Hair: `Hair::createHairMesh` -/

/-- The loop of hair.cpp 236-239 from page `j` on, `k` pages to go: the element
counts of the part are added to those of the combined mesh and to the total. -/
def gatherPages (original : base_mesh_s) : Nat → Nat → List Nat → Nat → List Nat × Nat
  | 0, _, counts, totalElements => (counts, totalElements)
  | k + 1, j, counts, totalElements =>
    let c := original.element_count_per_texture.getD j 0
    gatherPages original k (j + 1) (counts.set j (counts.getD j 0 + c)) (totalElements + c)

/-- The loop of hair.cpp 231-240 from part `i` on, `k` parts to go; the state is
`num_texture_pages`, `element_count_per_texture` and `totalElements`. -/
def gatherSizes (model : skeletal_model_s) :
    Nat → Nat → Nat → List Nat → Nat → Nat × List Nat × Nat
  | 0, _, pages, counts, totalElements => (pages, counts, totalElements)
  | k + 1, i, pages, counts, totalElements =>
    match model.mesh_tree[i]? with
    | none => gatherSizes model k (i + 1) pages counts totalElements
    | some part =>
      let original := part.mesh_base
      let r := gatherPages original original.num_texture_pages 0 counts totalElements
      gatherSizes model k (i + 1) (max pages original.num_texture_pages) r.1 r.2

/-- The call `memcpy(&dst[target], &src[start], sizeof(uint32_t) * n)`, entry `t`
onwards, `k` entries to go. -/
def memcpyElements (src : List Nat) (start target : Nat) :
    Nat → Nat → List Nat → List Nat
  | 0, _, dst => dst
  | k + 1, t, dst =>
    memcpyElements src start target k (t + 1)
      (dst.set (target + t) (src.getD (start + t) 0))

/-- The loop of hair.cpp 266-270, `k` elements to go; the state is the element array
of the combined mesh, `elementsStartPerTexture` and `originalElementsStart`. -/
def rebaseElements (original : base_mesh_s) (verticesStart page : Nat) :
    Nat → List Nat × List Nat × Nat → List Nat × List Nat × Nat
  | 0, st => st
  | k + 1, (elements, elementsStartPerTexture, originalElementsStart) =>
    let at_ := elementsStartPerTexture.getD page 0
    rebaseElements original verticesStart page k
      (elements.set at_ (verticesStart + original.elements.getD originalElementsStart 0),
        elementsStartPerTexture.set page (at_ + 1), originalElementsStart + 1)

/-- The loop of hair.cpp 261-271 from page `page` on, `k` pages to go. -/
def copyPages (original : base_mesh_s) (verticesStart : Nat) :
    Nat → Nat → List Nat × List Nat × Nat → List Nat × List Nat × Nat
  | 0, _, st => st
  | k + 1, page, (elements, elementsStartPerTexture, originalElementsStart) =>
    let count := original.element_count_per_texture.getD page 0
    let elements := memcpyElements original.elements originalElementsStart
      (elementsStartPerTexture.getD page 0) count 0 elements
    copyPages original verticesStart k (page + 1)
      (rebaseElements original verticesStart page count
        (elements, elementsStartPerTexture, originalElementsStart))

/-- The matrix index writes of hair.cpp 290-299 for vertex `j` of part `i`. -/
def matrixIndexWrites (original : base_mesh_s) (mesh_count i verticesStart j : Nat) :
    List (Nat × Int) :=
  if (original.vertices.getD j { position := { x := 0, y := 0, z := 0 } }).position.y ≤ 0 then
    [((verticesStart + j) * 2 + 0, toInt8 i), ((verticesStart + j) * 2 + 1, toInt8 (i + 1))]
  else
    [((verticesStart + j) * 2 + 0, toInt8 (i + 1)),
      ((verticesStart + j) * 2 + 1, min (toInt8 (i + 2)) (toInt8 mesh_count))]

/-- The loop of hair.cpp 289-311 from vertex `j` on, `k` vertices to go; the state is
the vertices of the combined mesh and the matrix index writes. Normals are not
kept. -/
def placeVertices (original : base_mesh_s) (mesh_count i verticesStart : Nat)
    (position : btVector3) :
    Nat → Nat → List vertex_s × List (Nat × Int) → List vertex_s × List (Nat × Int)
  | 0, _, st => st
  | k + 1, j, (vertices, writes) =>
    let v := vertices.getD (verticesStart + j) { position := { x := 0, y := 0, z := 0 } }
    placeVertices original mesh_count i verticesStart position k (j + 1)
      (vertices.set (verticesStart + j) { v with position := v.position.add position },
        writes ++ matrixIndexWrites original mesh_count i verticesStart j)

/-- The state of the copy loop of `Hair::createHairMesh`. -/
structure HairMeshCopy where
  vertices : List vertex_s
  elements : List Nat
  matrix_indices : List (Nat × Int)
  elementsStartPerTexture : List Nat
  m_elements : List HairElement
deriving DecidableEq, Repr

/-- The loop of hair.cpp 251-312 from part `i` on, `k` parts to go. -/
def copyParts (model : skeletal_model_s) : Nat → Nat → HairMeshCopy → HairMeshCopy
  | 0, _, st => st
  | k + 1, i, st =>
    match model.mesh_tree[i]? with
    | none => copyParts model k (i + 1) st
    | some part =>
      let original := part.mesh_base
      let verticesStart := st.vertices.length
      let vertices := st.vertices ++ original.vertices
      let pages := copyPages original verticesStart original.num_texture_pages 0
        (st.elements, st.elementsStartPerTexture, 0)
      let position :=
        if i > 0 then part.offset.add (st.m_elements.getD (i - 1) HairElement.empty).position
        else part.offset
      let m_elements := st.m_elements.set i
        { st.m_elements.getD i HairElement.empty with position := position }
      let placed := placeVertices original model.mesh_count i verticesStart position
        original.vertices.length 0 (vertices, st.matrix_indices)
      copyParts model k (i + 1)
        { vertices := placed.1, elements := pages.1, matrix_indices := placed.2,
          elementsStartPerTexture := pages.2.1, m_elements := m_elements }

/-- `Hair::createHairMesh` (hair.cpp 224-315) for `engine_world.tex_count` texture
pages. The new mesh starts value-initialised; `matrix_indices` is allocated with two
entries per vertex the new mesh has at that point (hair.cpp 246). `Mesh_GenVBO` acts
outside the hair and is left out. -/
def Hair.createHairMesh (tex_count : Nat) (self : Hair) (model : skeletal_model_s) : Hair :=
  let m_mesh_vertices : List vertex_s := []
  let sizes := gatherSizes model model.mesh_count 0 0 (List.replicate tex_count 0) 0
  let elements := List.replicate sizes.2.2 0
  let matrix_indices_size := 2 * m_mesh_vertices.length
  let elementsStartPerTexture := List.replicate sizes.1 0
  let copied := copyParts model model.mesh_count 0
    { vertices := [], elements := elements, matrix_indices := [],
      elementsStartPerTexture := elementsStartPerTexture, m_elements := self.m_elements }
  { self with
    m_elements := copied.m_elements
    m_mesh := some
      { vertices := copied.vertices, num_texture_pages := sizes.1,
        element_count_per_texture := sizes.2.1, elements := copied.elements,
        matrix_indices_size := matrix_indices_size, matrix_indices := copied.matrix_indices,
        bb_min := { x := 0, y := 0, z := 0 }, bb_max := { x := 0, y := 0, z := 0 } } }

/-! ## Hair: `Hair::create` and the destructor -/

/-- The loop of hair.cpp 55-106 from element `i` on, `k` elements to go: the elements
and the world operations made. -/
def createElements (consts : HairConsts) (alloc : HairAlloc) (setup : HairSetup)
    (model : skeletal_model_s) (weight_step : ℚ) :
    Nat → Nat → ℚ → List HairElement → List HairElement × List PhysicsOp
  | 0, _, _, m_elements => (m_elements, [])
  | k + 1, i, current_weight, m_elements =>
    let mesh := (model.mesh_tree[i]?).map (fun part => part.mesh_base)
    let inertiaMass := current_weight * setup.m_hairInertia
    let current_weight := current_weight - weight_step
    let body : btRigidBody :=
      { address := alloc.body i, mass := current_weight, inertiaMass := inertiaMass,
        linearDamping := setup.m_hairDamping.1, angularDamping := setup.m_hairDamping.2,
        restitution := setup.m_hairRestitution, friction := setup.m_hairFriction,
        activationState := DISABLE_DEACTIVATION, userPointer := some alloc.container }
    let m_elements := m_elements.set i
      { m_elements.getD i HairElement.empty with mesh := mesh, body := some body }
    let rest := createElements consts alloc setup model weight_step k (i + 1) current_weight
      m_elements
    (rest.1,
      PhysicsOp.addRigidBody body.address consts.COLLISION_GROUP_CHARACTERS
        consts.COLLISION_GROUP_KINEMATIC :: rest.2)

/-- The address held by `m_elements[i].body`. -/
def elementBody (m_elements : List HairElement) (i : Nat) : Option BodyPtr :=
  ((m_elements.getD i HairElement.empty).body).map (fun b => b.address)

/-- The constraint built by one pass of the loop of hair.cpp 122-214 for joint `i`;
`parent_body` is `parent_entity->m_bt.bt_body[m_ownerBody]`. -/
def makeJoint (alloc : HairAlloc) (setup : HairSetup) (parent_body : Option BodyPtr)
    (m_elements : List HairElement) (i : Nat) : btGeneric6DofConstraint :=
  if i = 0 then
    { address := alloc.joint i, rbA := parent_body, rbB := elementBody m_elements i,
      frameInA := setup.m_headOffset.add { x := 0, y := 0, z := 0 },
      frameInB := { x := 0, y := 0, z := 0 },
      stopCfm := setup.m_jointCfm, stopErp := setup.m_jointErp,
      overrideNumSolverIterations := some 100 }
  else
    let prev := (m_elements.getD (i - 1) HairElement.empty).mesh
    let body_length :=
      |(prev.map (fun m => m.bb_max.y)).getD 0 - (prev.map (fun m => m.bb_min.y)).getD 0| *
        setup.m_jointOverlap
    { address := alloc.joint i, rbA := elementBody m_elements (i - 1),
      rbB := elementBody m_elements i,
      frameInA := { x := 0, y := body_length, z := 0 },
      frameInB := { x := 0, y := 0, z := 0 },
      stopCfm := setup.m_jointCfm, stopErp := setup.m_jointErp,
      overrideNumSolverIterations := none }

/-- The loop of hair.cpp 122-214 from joint `i` on, `k` joints to go (`curr_joint`
equals `i` throughout): the joints and the world operations made. -/
def createJoints (alloc : HairAlloc) (setup : HairSetup) (parent_body : Option BodyPtr)
    (m_elements : List HairElement) :
    Nat → Nat → List (Option btGeneric6DofConstraint) →
      List (Option btGeneric6DofConstraint) × List PhysicsOp
  | 0, _, m_joints => (m_joints, [])
  | k + 1, i, m_joints =>
    let joint := makeJoint alloc setup parent_body m_elements i
    let rest := createJoints alloc setup parent_body m_elements k (i + 1)
      (m_joints.set i (some joint))
    (rest.1, PhysicsOp.addConstraint joint.address true :: rest.2)

/-- `Hair::create` (hair.cpp 8-219): the value returned, the hair after the call and
the world operations made, in order. `World_GetModelByID` yields `none` for the null
pointer; `tex_count` is `engine_world.tex_count`. The transform of the owner body
enters only the motion states of the new bodies, which are not kept. -/
def Hair.create (consts : HairConsts) (alloc : HairAlloc)
    (World_GetModelByID : Nat → Option skeletal_model_s) (tex_count : Nat)
    (self : Hair) (setup : Option HairSetup) (parent_entity : Option Entity) :
    Bool × Hair × List PhysicsOp :=
  match parent_entity, setup with
  | some parent, some setup =>
    if setup.m_linkBody ≥ parent.bone_tag_count ∨ parent.body setup.m_linkBody = none then
      (false, self, [])
    else
      match World_GetModelByID setup.m_model with
      | none => (false, self, [])
      | some model =>
        if model.mesh_count = 0 then
          (false, self, [])
        else
          let m_container : EngineContainer :=
            { object_type := consts.OBJECT_HAIR, room := parent.self_room }
          let m_ownerBody := setup.m_linkBody
          let m_elements : List HairElement :=
            vectorResize [] model.mesh_count HairElement.empty
          let m_tailIndex := m_elements.length - 1
          let weight_step := (setup.m_rootWeight - setup.m_tailWeight) / m_elements.length
          let bodies := createElements consts alloc setup model weight_step m_elements.length 0
            setup.m_rootWeight m_elements
          let m_elements := bodies.1
          let m_joints := vectorResize self.m_joints m_elements.length none
          let joints := createJoints alloc setup (parent.body m_ownerBody) m_elements
            m_elements.length 0 m_joints
          let built : Hair :=
            { self with
              m_container := some m_container
              m_ownerChar := some parent
              m_ownerBody := m_ownerBody
              m_ownerBodyHairRoot := setup.m_headOffset.add { x := 0, y := 0, z := 0 }
              m_rootIndex := 0
              m_tailIndex := m_tailIndex
              m_elements := m_elements
              m_joints := joints.1 }
          (true, built.createHairMesh tex_count model, bodies.2 ++ joints.2)
  | _, _ => (false, self, [])

/-- The loop of hair.cpp 391-394: the constraints removed from the world. -/
def removeJoints : List (Option btGeneric6DofConstraint) → List PhysicsOp
  | [] => []
  | none :: rest => removeJoints rest
  | some joint :: rest => PhysicsOp.removeConstraint joint.address :: removeJoints rest

/-- The loop of hair.cpp 396-401: the user pointers cleared and the bodies removed
from the world. -/
def removeBodies : List HairElement → List PhysicsOp
  | [] => []
  | element :: rest =>
    match element.body with
    | none => removeBodies rest
    | some body =>
      PhysicsOp.setUserPointer body.address none ::
        PhysicsOp.removeRigidBody body.address :: removeBodies rest

/-- The destructor `Hair::~Hair` (hair.cpp 389-402): the operations made, in order. -/
def Hair.destroy (self : Hair) : List PhysicsOp :=
  removeJoints self.m_joints ++ removeBodies self.m_elements

/-- The body an operation adds to the world, if it adds one. -/
def PhysicsOp.addedBody : PhysicsOp → Option BodyPtr
  | PhysicsOp.addRigidBody body _ _ => some body
  | _ => none

/-- The constraint an operation adds to the world, if it adds one. -/
def PhysicsOp.addedJoint : PhysicsOp → Option JointPtr
  | PhysicsOp.addConstraint joint _ => some joint
  | _ => none

/-- The body an operation removes from the world, if it removes one. -/
def PhysicsOp.removedBody : PhysicsOp → Option BodyPtr
  | PhysicsOp.removeRigidBody body => some body
  | _ => none

/-- The constraint an operation removes from the world, if it removes one. -/
def PhysicsOp.removedJoint : PhysicsOp → Option JointPtr
  | PhysicsOp.removeConstraint joint => some joint
  | _ => none

/-! ## Hair attachment: `lua_AddCharacterHair` -/

/-- The cast `(int)` of a `lua_Integer`. -/
def toInt32 (v : Int) : Int := (v + 2147483648) % 4294967296 - 2147483648

/-- The call `p->create(setup, parent_entity)` through the `std::shared_ptr<Hair>`
`p`, `none` being the null pointer: the value returned, the object behind the
pointer after the call and the world operations made. Through a null pointer the
tests of hair.cpp 12-14 and 20 still run, as they read the arguments only, and
return false; past them hair.cpp 24 resets `m_container` of an object that is not
there, and the call has no outcome (`none`). -/
def Hair.createThrough (consts : HairConsts) (alloc : HairAlloc)
    (World_GetModelByID : Nat → Option skeletal_model_s) (tex_count : Nat)
    (p : Option Hair) (setup : Option HairSetup) (parent_entity : Option Entity) :
    Option (Bool × Option Hair × List PhysicsOp) :=
  match p with
  | some self =>
    let created := Hair.create consts alloc World_GetModelByID tex_count self setup
      parent_entity
    some (created.1, some created.2.1, created.2.2)
  | none =>
    match parent_entity, setup with
    | some parent, some setup =>
      if setup.m_linkBody ≥ parent.bone_tag_count ∨ parent.body setup.m_linkBody = none then
        some (false, none, [])
      else
        match World_GetModelByID setup.m_model with
        | none => some (false, none, [])
        | some model =>
          if model.mesh_count = 0 then
            some (false, none, [])
          else
            none
    | _, _ => some (false, none, [])

/-- `lua_AddCharacterHair` (engine.cpp 774-812): the hair lists of the characters after
the call and the world operations made, or `none` when the call has no outcome.
`m_hairs ent` is `ent->m_character->m_hairs`, a vector of `std::shared_ptr<Hair>`
(`m_hairs.back()->create`, and `Hair::create` takes `shared_from_this()`), `none`
being the null pointer; `emplace_back()` without arguments appends a
value-initialised, that is null, pointer, and `create` is called through the last
entry. `IsCharacter`, an absent macro, is false for the null pointer;
`getSetup index` is the value returned by `hair_setup.getSetup(index)` on the current
Lua state together with the setup it filled in. -/
def lua_AddCharacterHair (consts : HairConsts) (alloc : HairAlloc)
    (World_GetModelByID : Nat → Option skeletal_model_s) (tex_count : Nat)
    (World_GetEntityByID : Int → Option EntityPtr) (IsCharacter : EntityPtr → Bool)
    (entities : EntityPtr → Entity) (getSetup : Nat → Bool × HairSetup)
    (m_hairs : EntityPtr → List (Option Hair)) (stack : List Int) :
    Option ((EntityPtr → List (Option Hair)) × List PhysicsOp) :=
  match stack with
  | [a1, a2] =>
    let ent_id := toInt32 a1
    let setup_index := toInt32 a2
    match World_GetEntityByID ent_id with
    | none => some (m_hairs, [])
    | some ent =>
      if IsCharacter ent then
        let loaded := getSetup (toUint32 setup_index)
        if !loaded.1 then
          some (m_hairs, [])
        else
          let hairs := m_hairs ent ++ [none]
          match Hair.createThrough consts alloc World_GetModelByID tex_count
              (hairs.getLastD none) (some loaded.2) (some (entities ent)) with
          | none => none
          | some created =>
            some (fun e => if e = ent then hairs.set (hairs.length - 1) created.2.1
              else m_hairs e, created.2.2)
      else
        some (m_hairs, [])
  | _ => some (m_hairs, [])

/-! ## Level names: `Engine_GetLevelName` -/

/-- The terminating character of a C string. -/
def NUL : Char := Char.ofNat 0

/-- The loop `for(i=len;i>=0;i--)` of engine.cpp 4291-4302; the first argument is
`i + 1` for the index `i` examined next, the second is `ext`; the result is `start`
and `ext` after the loop. `path` holds the characters before the terminating NUL,
which is what `path[len]` reads. -/
def levelPathScan (path : List Char) : Nat → Nat → Nat × Nat
  | 0, ext => (0, ext)
  | i + 1, ext =>
    let c := path.getD i NUL
    let ext := if c = '.' then i else ext
    if c = '\\' ∨ c = '/' then (i + 1, ext) else levelPathScan path i ext

/-- The loop of engine.cpp 4304-4307 from index `i` on, with `fuel` passes allowed:
the characters written to `name`, in order. -/
def levelNameCopy (LEVEL_NAME_MAX_LEN : Nat) (path : List Char) (start ext : Nat) :
    Nat → Nat → List Char
  | 0, _ => []
  | fuel + 1, i =>
    if i < ext ∧ (i : Int) - (start : Int) < (LEVEL_NAME_MAX_LEN : Int) - 1 then
      path.getD i NUL :: levelNameCopy LEVEL_NAME_MAX_LEN path start ext fuel (i + 1)
    else
      []

/-- `Engine_GetLevelName` (engine.cpp 4278-4309): the characters of `name` before its
terminating NUL; `path` is `none` for the null pointer and otherwise the characters
before the terminating NUL. `LEVEL_NAME_MAX_LEN` is a constant of an absent
header. -/
def Engine_GetLevelName (LEVEL_NAME_MAX_LEN : Nat) (path : Option (List Char)) : List Char :=
  match path with
  | none => []
  | some [] => []
  | some (c :: rest) =>
    let len := (c :: rest).length
    let scanned := levelPathScan (c :: rest) (len + 1) len
    levelNameCopy LEVEL_NAME_MAX_LEN (c :: rest) scanned.1 scanned.2 len scanned.1

/-- The characters that separate the directories of a path. -/
def isPathSeparator (c : Char) : Bool := c == '\\' || c == '/'

/-- The segment of a path after its last separator, the whole path when it has
none. -/
def lastPathSegment (path : List Char) : List Char :=
  (path.reverse.takeWhile (fun c => !isPathSeparator c)).reverse

/-- The level name in the words of the specification: empty for a null or empty path,
otherwise the last segment of the path up to its first dot, cut to
`LEVEL_NAME_MAX_LEN - 1` characters. -/
def levelNameSpec (LEVEL_NAME_MAX_LEN : Nat) (path : Option (List Char)) : List Char :=
  match path with
  | none => []
  | some p =>
    ((lastPathSegment p).takeWhile (fun c => c != '.')).take (LEVEL_NAME_MAX_LEN - 1)

/-! ## A three-room level -/

/-- Near-room relation of a level with rooms 0, 1, 2 in which 0-1 and 1-2 are near
and 0-2 are not (every room is near itself). -/
def nearRooms012 (a b : RoomPtr) : Bool :=
  a == b || (a == 0 && b == 1) || (a == 1 && b == 0) || (a == 1 && b == 2) || (a == 2 && b == 1)

/-- Containers of three bodies: the container at address `p` is in room `p`. -/
def heap012 : ContainerHeap := fun p => { object_type := 0, room := some p }

/-- A dynamic rigid body whose user pointer is the container at address `p`. -/
def dynamicBody (p : ContainerPtr) : btCollisionObject :=
  { m_collisionFlags := 0, m_internalType := CO_RIGID_BODY, m_userObjectPointer := some p,
    m_optionalMotionState := some { m_origin := { x := 0, y := 0, z := 0 } } }

/-- Containers none of which has an owning room. -/
def heapNoRoom : ContainerHeap := fun _ => { object_type := 0, room := none }

/-- A static rigid body whose user pointer is the container at address `p`. -/
def staticBody (p : ContainerPtr) : btCollisionObject :=
  { m_collisionFlags := CF_STATIC_OBJECT, m_internalType := CO_RIGID_BODY,
    m_userObjectPointer := some p, m_optionalMotionState := none }

/-- A dynamic rigid body without a container (null user pointer). -/
def looseBody : btCollisionObject :=
  { m_collisionFlags := 0, m_internalType := CO_RIGID_BODY, m_userObjectPointer := none,
    m_optionalMotionState := some { m_origin := { x := 0, y := 0, z := 0 } } }

/-- A container heap for the tick callback: the container at address `p` is in room
`p`; the container at address 2 is tagged 3, every other one 0x7FFF. -/
def heapTagged : ContainerHeap :=
  fun p => { object_type := if p = 2 then 3 else 0x7FFF, room := some p }

/-- A stand-in for `Room_FindPosCogerrence`: the room ten ids after the previous one. -/
def findRoomShift (_pos : btVector3) (r : Option RoomPtr) : Option RoomPtr :=
  r.map (fun n => n + 10)

/-- A world of three collision objects carrying the containers 0, 1 and 2. -/
def objs012 : List btCollisionObject := [dynamicBody 0, staticBody 1, dynamicBody 2]

/-- A level of four rooms in flip groups 0, 1, 0, 2 with three flip groups, of which
groups 0 and 1 have the full mask 0x1F and group 2 has not; engine version 6. -/
def worldNew : world_s :=
  { version := 6,
    rooms := [{ alternate_group := 0 }, { alternate_group := 1 }, { alternate_group := 0 },
      { alternate_group := 2 }],
    flip_count := 3, flip_map := [0x1F, 0x1F, 0x0F], flip_state := [0, 0, 0] }

/-- The same level under engine version 3. -/
def worldOld : world_s := { worldNew with version := 3 }

/-- A world with one flip group whose flip map is 1. -/
def worldOneGroup : world_s :=
  { version := 6, rooms := [], flip_count := 1, flip_map := [1], flip_state := [0] }

/-! ## A hair of two parts -/

/-- Values for the constants of absent headers. -/
def hairConsts : HairConsts :=
  { OBJECT_HAIR := 4, COLLISION_GROUP_CHARACTERS := 4, COLLISION_GROUP_KINEMATIC := 8 }

/-- An allocator: the container at 500, body `i` at `100 + i`, joint `i` at `200 + i`. -/
def hairAlloc : HairAlloc :=
  { container := 500, body := fun i => 100 + i, joint := fun i => 200 + i }

/-- A mesh of one texture page with two vertices, at heights -1 and 1, and the
elements 0, 1. -/
def strandMesh : base_mesh_s :=
  { vertices := [{ position := { x := 0, y := -1, z := 0 } },
      { position := { x := 0, y := 1, z := 0 } }],
    num_texture_pages := 1, element_count_per_texture := [2], elements := [0, 1],
    matrix_indices_size := 0, matrix_indices := [],
    bb_min := { x := 0, y := -1, z := 0 }, bb_max := { x := 0, y := 1, z := 0 } }

/-- A hair model of two parts, each offset by 2 along y. -/
def hairModel : skeletal_model_s :=
  { mesh_count := 2,
    mesh_tree := [{ mesh_base := strandMesh, offset := { x := 0, y := 2, z := 0 } },
      { mesh_base := strandMesh, offset := { x := 0, y := 2, z := 0 } }] }

/-- A model table: model 7 is the hair model, model 8 a model without meshes. -/
def hairModels (id : Nat) : Option skeletal_model_s :=
  if id = 7 then some hairModel
  else if id = 8 then some { mesh_count := 0, mesh_tree := [] }
  else none

/-- A character with three bones, of which bones 0 and 1 have a rigid body. -/
def hairOwner : Entity :=
  { bone_tag_count := 3, bt_body := [some 10, some 11, none], self_room := some 0 }

/-- A hair setup: model 7 linked to bone 1, root weight 10, tail weight 4. -/
def hairSetup : HairSetup :=
  { m_model := 7, m_linkBody := 1, m_rootWeight := 10, m_tailWeight := 4,
    m_hairInertia := 1, m_hairRestitution := 0, m_hairFriction := 0,
    m_hairDamping := (0, 0), m_jointOverlap := 1, m_jointCfm := 0, m_jointErp := 0,
    m_headOffset := { x := 0, y := 0, z := 0 } }

/-- A freshly constructed `Hair`. -/
def Hair.fresh : Hair :=
  { m_container := none, m_ownerChar := none, m_ownerBody := 0,
    m_ownerBodyHairRoot := { x := 0, y := 0, z := 0 }, m_rootIndex := 0, m_tailIndex := 0,
    m_elements := [], m_joints := [], m_mesh := none }

/-- The four-room level after flip group 0 was set to state 1. -/
def worldFlipped : world_s := { worldNew with flip_state := [1, 0, 0] }

/-- An entity table: the ids 1 and 2 name the entities at the addresses 1 and 2. -/
def entityTable (id : Int) : Option EntityPtr :=
  if id = 1 then some 1 else if id = 2 then some 2 else none

/-- Entity origins: every entity stands at (3, 4, 5). -/
def originsSame (_e : EntityPtr) : btVector3 := { x := 3, y := 4, z := 5 }

/-- A sink at (3, 4, -251) of strength 6: under a version from `TR_II` on its target
height is 5. -/
def sinkBelow : StatCameraSink := { x := 3, y := 4, z := -251, room_or_strength := 6 }

/-- A kinematic rigid body with a motion state, whose user pointer is the container
at address `p`. -/
def kinematicBody (p : ContainerPtr) : btCollisionObject :=
  { m_collisionFlags := CF_KINEMATIC_OBJECT, m_internalType := CO_RIGID_BODY,
    m_userObjectPointer := some p,
    m_optionalMotionState := some { m_origin := { x := 0, y := 0, z := 0 } } }

/-- A mesh of two texture pages with one element each (the elements 0 and 1) and two
vertices, at heights -1 and 1. -/
def twoPageMesh : base_mesh_s :=
  { vertices := [{ position := { x := 0, y := -1, z := 0 } },
      { position := { x := 0, y := 1, z := 0 } }],
    num_texture_pages := 2, element_count_per_texture := [1, 1], elements := [0, 1],
    matrix_indices_size := 0, matrix_indices := [],
    bb_min := { x := 0, y := -1, z := 0 }, bb_max := { x := 0, y := 1, z := 0 } }

/-- A hair model of two parts with two texture pages each. -/
def twoPageModel : skeletal_model_s :=
  { mesh_count := 2,
    mesh_tree := [{ mesh_base := twoPageMesh, offset := { x := 0, y := 2, z := 0 } },
      { mesh_base := twoPageMesh, offset := { x := 1, y := 2, z := 0 } }] }

/-- A hair with two unbuilt elements. -/
def hairTwoElements : Hair :=
  { Hair.fresh with m_elements := [HairElement.empty, HairElement.empty] }

/-- A hair setup whose link body index 5 lies outside the three bones of the owner. -/
def hairSetupBadLink : HairSetup := { hairSetup with m_linkBody := 5 }

/-! ## Descriptions used in the statements about the combined hair mesh -/

/-- The number of vertices of the parts before part `i`: the index, in the combined
mesh, of the first vertex of part `i`. -/
def verticesBefore (model : skeletal_model_s) (i : Nat) : Nat :=
  ((model.mesh_tree.take i).map (fun part => part.mesh_base.vertices.length)).sum

/-- The pair of skinning-matrix indices in the words of the specification, for a
vertex of part `i` at local height `y` in a model of `N` parts. -/
def skinningPair (N i : Nat) (y : ℚ) : Int × Int :=
  if y ≤ 0 then ((i : Int), (i : Int) + 1) else ((i : Int) + 1, min ((i : Int) + 2) (N : Int))

/-! ## Theorems -/

/-! ### Collision filtering -/

/-- C1, as the code has it: a pair whose first body is static and whose two bodies
share one container without a room is rejected, although neither body has an owning
room. -/
theorem roomless_self_pair_rejected :
    containerRoom heapNoRoom (staticBody 0).getUserPointer = none ∧
    containerRoom heapNoRoom (dynamicBody 0).getUserPointer = none ∧
    Engine_RoomNearCallback nearRooms012 heapNoRoom (staticBody 0) (dynamicBody 0) = false := by
  refine ⟨rfl, rfl, ?_⟩
  decide

/-- C1, amended: when neither body has an owning room, the default near callback is
invoked, except for a pair whose two bodies carry the same non-null container and
one of which is static or kinematic; that pair is rejected by the self-collision
rule, which is applied first. -/
theorem roomless_pair_dispatch (near : RoomPtr → RoomPtr → Bool) (heap : ContainerHeap)
    (obj0 obj1 : btCollisionObject)
    (hr0 : containerRoom heap obj0.getUserPointer = none)
    (hr1 : containerRoom heap obj1.getUserPointer = none) :
    Engine_RoomNearCallback near heap obj0 obj1 =
      !((obj1.getUserPointer.isSome && obj1.getUserPointer == obj0.getUserPointer) &&
        (obj0.isStaticOrKinematicObject || obj1.isStaticOrKinematicObject)) := by
  unfold Engine_RoomNearCallback
  simp only [hr0, hr1]
  cases hs : (obj1.getUserPointer.isSome && obj1.getUserPointer == obj0.getUserPointer) <;>
    cases hk : (obj0.isStaticOrKinematicObject || obj1.isStaticOrKinematicObject) <;> simp

/-- Witness for C1 amended: two roomless bodies with different containers are
dispatched. -/
theorem roomless_pair_dispatch_witness :
    containerRoom heapNoRoom (staticBody 0).getUserPointer = none ∧
    containerRoom heapNoRoom looseBody.getUserPointer = none ∧
    Engine_RoomNearCallback nearRooms012 heapNoRoom (staticBody 0) looseBody = true :=
  ⟨rfl, rfl, roomless_pair_dispatch nearRooms012 heapNoRoom (staticBody 0) looseBody rfl rfl⟩

/-- C2: for two bodies with distinct containers, each with an owning room, the
default near callback is invoked exactly when `Room_IsInNearRoomsList r0 r1` holds;
otherwise the pair is rejected. -/
theorem near_rooms_filter (near : RoomPtr → RoomPtr → Bool) (heap : ContainerHeap)
    (obj0 obj1 : btCollisionObject) (r0 r1 : RoomPtr)
    (hc : obj0.getUserPointer ≠ obj1.getUserPointer)
    (hr0 : containerRoom heap obj0.getUserPointer = some r0)
    (hr1 : containerRoom heap obj1.getUserPointer = some r1) :
    Engine_RoomNearCallback near heap obj0 obj1 = near r0 r1 := by
  unfold Engine_RoomNearCallback
  have hne : (obj1.getUserPointer == obj0.getUserPointer) = false := by
    simpa using fun h => hc h.symm
  simp only [hr0, hr1, hne, Bool.and_false]
  cases near r0 r1 <;> simp

/-- Witness for C2, the three-room level: bodies in rooms 0 and 1 and in rooms 1 and 2
are dispatched, bodies in rooms 0 and 2 are rejected. -/
theorem near_rooms_filter_witness :
    Engine_RoomNearCallback nearRooms012 heap012 (dynamicBody 0) (dynamicBody 1) = true ∧
    Engine_RoomNearCallback nearRooms012 heap012 (dynamicBody 1) (dynamicBody 2) = true ∧
    Engine_RoomNearCallback nearRooms012 heap012 (dynamicBody 0) (dynamicBody 2) = false :=
  ⟨near_rooms_filter nearRooms012 heap012 (dynamicBody 0) (dynamicBody 1) 0 1
      (by decide) rfl rfl,
    near_rooms_filter nearRooms012 heap012 (dynamicBody 1) (dynamicBody 2) 1 2
      (by decide) rfl rfl,
    near_rooms_filter nearRooms012 heap012 (dynamicBody 0) (dynamicBody 2) 0 2
      (by decide) rfl rfl⟩

/-- C3, as the code has it: a body in room 0 and a body without a container (hence
without a room) have distinct containers, exactly one of them has an owning room,
and the pair is rejected in either order: neither `if` of engine.cpp 105-122 is
entered and the function ends without a call of the default near callback. -/
theorem mixed_pair_rejected :
    (dynamicBody 0).getUserPointer ≠ looseBody.getUserPointer ∧
    containerRoom heap012 (dynamicBody 0).getUserPointer = some 0 ∧
    containerRoom heap012 looseBody.getUserPointer = none ∧
    Engine_RoomNearCallback nearRooms012 heap012 (dynamicBody 0) looseBody = false ∧
    Engine_RoomNearCallback nearRooms012 heap012 looseBody (dynamicBody 0) = false := by
  refine ⟨by decide, rfl, rfl, ?_, ?_⟩ <;> decide

/-- A pair with distinct containers in which exactly one body has an owning room is
never dispatched. -/
theorem mixed_pair_no_dispatch (near : RoomPtr → RoomPtr → Bool) (heap : ContainerHeap)
    (obj0 obj1 : btCollisionObject)
    (hc : obj0.getUserPointer ≠ obj1.getUserPointer)
    (hmixed : (containerRoom heap obj0.getUserPointer).isSome ≠
      (containerRoom heap obj1.getUserPointer).isSome) :
    Engine_RoomNearCallback near heap obj0 obj1 = false := by
  unfold Engine_RoomNearCallback
  have hne : (obj1.getUserPointer == obj0.getUserPointer) = false := by
    simpa using fun h => hc h.symm
  simp only [hne, Bool.and_false]
  cases h0 : containerRoom heap obj0.getUserPointer <;>
    cases h1 : containerRoom heap obj1.getUserPointer <;> simp_all

/-- C4: when both bodies carry the same non-null container, the pair is rejected if
either body is static or kinematic and dispatched otherwise, whatever the heap (the
container's room) and the near-room relation are. -/
theorem self_collision_rule (near : RoomPtr → RoomPtr → Bool) (heap : ContainerHeap)
    (obj0 obj1 : btCollisionObject) (p : ContainerPtr)
    (h0 : obj0.getUserPointer = some p) (h1 : obj1.getUserPointer = some p) :
    Engine_RoomNearCallback near heap obj0 obj1 =
      !(obj0.isStaticOrKinematicObject || obj1.isStaticOrKinematicObject) := by
  unfold Engine_RoomNearCallback
  simp only [h0, h1]
  cases hk : (obj0.isStaticOrKinematicObject || obj1.isStaticOrKinematicObject) <;> simp

/-- Witness for C4: with one shared container, two dynamic bodies are dispatched and
a static body with a dynamic one is rejected. -/
theorem self_collision_rule_witness :
    (dynamicBody 1).getUserPointer = some 1 ∧ (staticBody 1).getUserPointer = some 1 ∧
    Engine_RoomNearCallback nearRooms012 heap012 (dynamicBody 1) (dynamicBody 1) = true ∧
    Engine_RoomNearCallback nearRooms012 heap012 (staticBody 1) (dynamicBody 1) = false :=
  ⟨rfl, rfl,
    self_collision_rule nearRooms012 heap012 (dynamicBody 1) (dynamicBody 1) 1 rfl rfl,
    self_collision_rule nearRooms012 heap012 (staticBody 1) (dynamicBody 1) 1 rfl rfl⟩

/-! ### Tick callback -/

/-- One loop body leaves alone every container the visited object does not carry. -/
theorem tickObject_other (M : Nat) (F : btVector3 → Option RoomPtr → Option RoomPtr)
    (heap : ContainerHeap) (obj : btCollisionObject) (p : ContainerPtr)
    (hp : obj.getUserPointer ≠ some p) :
    tickObject M F heap obj p = heap p := by
  unfold tickObject btRigidBody.upcast
  by_cases hrb : ((obj.m_internalType &&& CO_RIGID_BODY) != 0) = true
  · simp only [hrb, if_true]
    cases hst : obj.isStaticObject with
    | true => simp
    | false =>
      cases hms : obj.getMotionState with
      | none => simp
      | some t =>
        cases hup : obj.getUserPointer with
        | none => simp
        | some cont =>
          have hne : p ≠ cont := fun h => hp (h ▸ hup)
          by_cases hty : (heap cont).object_type = M
          · simp [hty, hne]
          · simp [hty]
  · simp [hrb]

/-- The loop leaves alone every container that none of the visited objects carries. -/
theorem tickLoop_other (M : Nat) (F : btVector3 → Option RoomPtr → Option RoomPtr)
    (objs : List btCollisionObject) (p : ContainerPtr) (k : Nat) :
    ∀ heap : ContainerHeap,
      (∀ j o, j < k → objs[j]? = some o → o.getUserPointer ≠ some p) →
      tickLoop M F objs k heap p = heap p := by
  induction k with
  | zero => intro heap _; rfl
  | succ k ih =>
    intro heap h
    have hrest : ∀ j o, j < k → objs[j]? = some o → o.getUserPointer ≠ some p :=
      fun j o hj ho => h j o (Nat.lt_succ_of_lt hj) ho
    unfold tickLoop
    cases hk : objs[k]? with
    | none => simpa using ih heap hrest
    | some obj =>
      simp only []
      rw [ih _ hrest]
      exact tickObject_other M F heap obj p (h k obj (Nat.lt_succ_self k) hk)

/-- What one loop body does to the container carried by the visited object. -/
theorem tickObject_self (M : Nat) (F : btVector3 → Option RoomPtr → Option RoomPtr)
    (heap : ContainerHeap) (obj : btCollisionObject) (p : ContainerPtr)
    (hp : obj.getUserPointer = some p) :
    (∀ t, (btRigidBody.upcast obj).isSome = true → obj.isStaticObject = false →
        obj.getMotionState = some t → (heap p).object_type = M →
        (tickObject M F heap obj p).room = F t.m_origin (heap p).room) ∧
    (((btRigidBody.upcast obj).isSome = false ∨ obj.isStaticObject = true ∨
        obj.getMotionState = none ∨ (heap p).object_type ≠ M) →
        tickObject M F heap obj p = heap p) := by
  unfold tickObject btRigidBody.upcast
  by_cases hrb : ((obj.m_internalType &&& CO_RIGID_BODY) != 0) = true
  · simp only [hrb, if_true, Option.isSome_some]
    cases hst : obj.isStaticObject with
    | true => simp
    | false =>
      cases hms : obj.getMotionState with
      | none => simp
      | some t =>
        simp only [hp]
        by_cases hty : (heap p).object_type = M
        · simp [hty]
        · simp [hty]
  · simp [hrb]

/-- One loop body reads the heap only at the container of the visited object. -/
theorem tickObject_congr (M : Nat) (F : btVector3 → Option RoomPtr → Option RoomPtr)
    (heap heap1 : ContainerHeap) (obj : btCollisionObject) (p : ContainerPtr)
    (hp : obj.getUserPointer = some p) (hh : heap1 p = heap p) :
    tickObject M F heap1 obj p = tickObject M F heap obj p := by
  unfold tickObject
  cases hrb : btRigidBody.upcast obj with
  | none => simpa using hh
  | some body =>
    have hbody : body = obj := by
      unfold btRigidBody.upcast at hrb
      split at hrb
      · exact (Option.some.inj hrb).symm
      · cases hrb
    subst hbody
    cases hst : body.isStaticObject with
    | true => simpa [hst] using hh
    | false =>
      cases hms : body.getMotionState with
      | none => simpa [hst, hms] using hh
      | some t =>
        by_cases hty : (heap p).object_type = M
        · simp [hst, hms, hp, hh, hty]
        · simp [hst, hms, hp, hh, hty]

/-- With the container at `p` carried by the object at index `i` only, the whole
loop does to that container what the loop body of object `i` does to it. -/
theorem tickLoop_at (M : Nat) (F : btVector3 → Option RoomPtr → Option RoomPtr)
    (objs : List btCollisionObject) (i : Nat) (obj : btCollisionObject) (p : ContainerPtr)
    (hi : objs[i]? = some obj) (hp : obj.getUserPointer = some p)
    (huniq : ∀ j o, j ≠ i → objs[j]? = some o → o.getUserPointer ≠ some p) (k : Nat) :
    ∀ heap : ContainerHeap, i < k →
      tickLoop M F objs k heap p = tickObject M F heap obj p := by
  induction k with
  | zero => intro heap h; exact absurd h (Nat.not_lt_zero i)
  | succ k ih =>
    intro heap hik
    unfold tickLoop
    by_cases hk : k = i
    · subst hk
      simp only [hi]
      exact tickLoop_other M F objs p k _
        (fun j o hj ho => huniq j o (Nat.ne_of_lt hj) ho)
    · have hik2 : i < k := Nat.lt_of_le_of_ne (Nat.le_of_lt_succ hik) (Ne.symm hk)
      cases hok : objs[k]? with
      | none => simpa using ih heap hik2
      | some o =>
        simp only []
        rw [ih _ hik2]
        exact tickObject_congr M F heap _ obj p hp
          (tickObject_other M F heap o p (huniq k o hk hok))

/-- C5: let the container at `p` be the user pointer of the collision object at index
`i` and of no other object of the world. If that object is a rigid body, not static,
with a motion state, and the container is tagged `OBJECT_BULLET_MISC`, then after
`Engine_InternalTickCallback` the container's room is
`Room_FindPosCogerrence origin previousRoom`; if the object is not a rigid body, is
static, has no motion state, or the container has another tag, the container is
unchanged. -/
theorem tick_postcondition (M : Nat) (F : btVector3 → Option RoomPtr → Option RoomPtr)
    (objs : List btCollisionObject) (heap : ContainerHeap) (i : Nat)
    (obj : btCollisionObject) (p : ContainerPtr)
    (hi : objs[i]? = some obj) (hp : obj.getUserPointer = some p)
    (huniq : ∀ j o, j ≠ i → objs[j]? = some o → o.getUserPointer ≠ some p) :
    (∀ t, (btRigidBody.upcast obj).isSome = true → obj.isStaticObject = false →
        obj.getMotionState = some t → (heap p).object_type = M →
        (Engine_InternalTickCallback M F objs heap p).room = F t.m_origin (heap p).room) ∧
    (((btRigidBody.upcast obj).isSome = false ∨ obj.isStaticObject = true ∨
        obj.getMotionState = none ∨ (heap p).object_type ≠ M) →
        Engine_InternalTickCallback M F objs heap p = heap p) := by
  have hlt : i < objs.length := by
    rcases Nat.lt_or_ge i objs.length with h | h
    · exact h
    · rw [List.getElem?_eq_none h] at hi
      cases hi
  have hloop : Engine_InternalTickCallback M F objs heap p = tickObject M F heap obj p :=
    tickLoop_at M F objs i obj p hi hp huniq objs.length heap hlt
  rw [hloop]
  exact tickObject_self M F heap obj p hp

/-- Witness for C5: in a world of a dynamic body tagged 0x7FFF, a static body and a
dynamic body tagged otherwise, the tick moves the first container from room 0 to
room 10 and leaves the other two containers as they were. -/
theorem tick_postcondition_witness :
    (Engine_InternalTickCallback 0x7FFF findRoomShift objs012 heapTagged 0).room = some 10 ∧
    Engine_InternalTickCallback 0x7FFF findRoomShift objs012 heapTagged 1 = heapTagged 1 ∧
    Engine_InternalTickCallback 0x7FFF findRoomShift objs012 heapTagged 2 = heapTagged 2 := by
  refine ⟨?_, ?_, ?_⟩
  · refine (tick_postcondition 0x7FFF findRoomShift objs012 heapTagged 0 (dynamicBody 0) 0
      rfl rfl ?_).1 _ rfl rfl rfl rfl
    intro j o hj ho
    match j, hj, ho with
    | 0, hj, _ => exact absurd rfl hj
    | 1, _, ho => simp [objs012] at ho; subst ho; decide
    | 2, _, ho => simp [objs012] at ho; subst ho; decide
    | j + 3, _, ho => simp [objs012] at ho
  · refine (tick_postcondition 0x7FFF findRoomShift objs012 heapTagged 1 (staticBody 1) 1
      rfl rfl ?_).2 (Or.inr (Or.inl rfl))
    intro j o hj ho
    match j, hj, ho with
    | 0, _, ho => simp [objs012] at ho; subst ho; decide
    | 1, hj, _ => exact absurd rfl hj
    | 2, _, ho => simp [objs012] at ho; subst ho; decide
    | j + 3, _, ho => simp [objs012] at ho
  · refine (tick_postcondition 0x7FFF findRoomShift objs012 heapTagged 2 (dynamicBody 2) 2
      rfl rfl ?_).2 (Or.inr (Or.inr (Or.inr (by decide))))
    intro j o hj ho
    match j, hj, ho with
    | 0, _, ho => simp [objs012] at ho; subst ho; decide
    | 1, _, ho => simp [objs012] at ho; subst ho; decide
    | 2, hj, _ => exact absurd rfl hj
    | j + 3, _, ho => simp [objs012] at ho

/-! ### Gravity -/

/-- C6: called with one argument `z`, `lua_SetGravity` sets the world gravity to
`(0, 0, z)`; called with three arguments `x`, `y`, `z`, it sets the world gravity to
`(x, y, z)`; in both cases whatever the gravity was before. -/
theorem gravity_setter_arity (x y z : ℚ) (g : btVector3) :
    lua_SetGravity [z] g = { x := 0, y := 0, z := z } ∧
    lua_SetGravity [x, y, z] g = { x := x, y := y, z := z } :=
  ⟨rfl, rfl⟩

/-! ### Flip map -/

/-- The third argument of `lua_SetFlipMap` has no influence on the result: the
operation code read from it is overwritten (engine.cpp 3616) before it is used. -/
theorem lua_SetFlipMap_op_unused (OR XOR : Nat) (w : world_s) (g m op1 op2 : Int) :
    lua_SetFlipMap OR XOR w [g, m, op1] = lua_SetFlipMap OR XOR w [g, m, op2] := by
  simp only [lua_SetFlipMap]

/-- C7, as the code has it, with `AMASK_OP_OR = 0` and `AMASK_OP_XOR = 1`: on a flip
map of 1, the call `(group 0, mask 1, op XOR)` stores `1 OR 1 = 1` and not
`1 XOR 1 = 0`, and the call `(group 0, mask 3, op OR)` stores `1 XOR 3 = 2` and not
`1 OR 3 = 3`. -/
theorem flip_map_merge_by_mask :
    (lua_SetFlipMap 0 1 worldOneGroup [0, 1, 1]).flip_map = [1] ∧
    (lua_SetFlipMap 0 1 worldOneGroup [0, 3, 0]).flip_map = [2] := by
  constructor <;> decide

/-! ### Flip state -/

/-- For a fixed state, distinct rooms get distinct swap calls. -/
theorem swapRoom_inj (st a b : Nat) (h : swapRoom st a = swapRoom st b) : a = b := by
  unfold swapRoom at h
  split at h
  · exact RoomSwap.toAlternate.inj h
  · exact RoomSwap.toBase.inj h

/-- The swap calls of the per-group loop: one for each room of the group. -/
theorem mem_flipGroupRooms (G st : Nat) (x : RoomSwap) (rooms : List Room) :
    ∀ k : Nat, x ∈ flipGroupRooms G st rooms k ↔
      ∃ j r, rooms[j]? = some r ∧ r.alternate_group = G ∧ x = swapRoom st (k + j) := by
  induction rooms with
  | nil => intro k; simp [flipGroupRooms]
  | cons r rest ih =>
    intro k
    unfold flipGroupRooms
    constructor
    · intro hx
      have hrest : x ∈ flipGroupRooms G st rest (k + 1) →
          ∃ j r', (r :: rest)[j]? = some r' ∧ r'.alternate_group = G ∧
            x = swapRoom st (k + j) := by
        intro h
        obtain ⟨j, r', hj, hr', hx'⟩ := (ih (k + 1)).mp h
        refine ⟨j + 1, r', by simpa using hj, hr', ?_⟩
        rw [hx']
        congr 1
        omega
      by_cases hr : r.alternate_group = G
      · rw [if_pos hr] at hx
        rcases List.mem_cons.mp hx with h | h
        · exact ⟨0, r, by simp, hr, by simpa using h⟩
        · exact hrest h
      · rw [if_neg hr] at hx
        exact hrest hx
    · rintro ⟨j, r', hj, hr', hx⟩
      cases j with
      | zero =>
        simp only [List.getElem?_cons_zero, Option.some.injEq] at hj
        subst hj
        rw [if_pos hr']
        simp [hx]
      | succ j =>
        have hmem : x ∈ flipGroupRooms G st rest (k + 1) := by
          refine (ih (k + 1)).mpr ⟨j, r', by simpa using hj, hr', ?_⟩
          rw [hx]
          congr 1
          omega
        split
        · exact List.mem_cons_of_mem _ hmem
        · exact hmem

/-- The per-group loop swaps no room twice. -/
theorem nodup_flipGroupRooms (G st : Nat) (rooms : List Room) :
    ∀ k : Nat, (flipGroupRooms G st rooms k).Nodup := by
  induction rooms with
  | nil => intro k; simp [flipGroupRooms]
  | cons r rest ih =>
    intro k
    unfold flipGroupRooms
    split
    · refine List.nodup_cons.mpr ⟨?_, ih (k + 1)⟩
      intro hmem
      obtain ⟨j, _, _, _, hx⟩ := (mem_flipGroupRooms G st _ rest (k + 1)).mp hmem
      have := swapRoom_inj st _ _ hx
      omega
    · exact ih (k + 1)

/-- The global loop swaps the rooms one after the other, each once. -/
theorem flipAllRooms_eq (st : Nat) (rooms : List Room) :
    ∀ k : Nat, flipAllRooms st rooms k = (List.range' k rooms.length).map (swapRoom st) := by
  induction rooms with
  | nil => intro k; rfl
  | cons r rest ih =>
    intro k
    simp [flipAllRooms, ih (k + 1), List.range'_succ]

/-- C8: when the group is not below `flip_count`, or its flip map is not the
all-layers mask 0x1F, `lua_SetFlipState` makes no swap call and returns the world as
it was, every `flip_state` entry included. -/
theorem flip_gating (TR_III : Nat) (w : world_s) (g s : Int)
    (h : toUint32 g ≥ w.flip_count ∨ w.flip_map.getD (toUint32 g) 0 ≠ 0x1F) :
    lua_SetFlipState TR_III w [g, s] = (w, []) := by
  simp only [lua_SetFlipState]
  by_cases hg : toUint32 g ≥ w.flip_count
  · rw [if_pos hg]
  · rw [if_neg hg]
    rcases h with h | h
    · exact absurd h hg
    · rw [if_neg h]

/-- Witness for C8: group 2 of the four-room level has the mask 0x0F and group 7 does
not exist; setting their flip state swaps nothing and changes nothing. -/
theorem flip_gating_witness :
    lua_SetFlipState 5 worldNew [2, 1] = (worldNew, []) ∧
    lua_SetFlipState 5 worldNew [7, 1] = (worldNew, []) :=
  ⟨flip_gating 5 worldNew 2 1 (Or.inr (by decide)),
    flip_gating 5 worldNew 7 1 (Or.inl (by decide))⟩

/-- The normalisation `state = (state > 1) ? 1 : state` yields 0 for 0 and 1 otherwise. -/
theorem flip_state_normalised (v : Nat) :
    (if v > 1 then 1 else v) = (if v = 0 then 0 else 1) := by
  split <;> split <;> omega

/-- A group whose flip map reads 0x1F is a valid group, the flip map having
`flip_count` entries. -/
theorem group_valid_of_full_mask (w : world_s) (G : Nat)
    (hlen : w.flip_map.length = w.flip_count) (hmap : w.flip_map.getD G 0 = 0x1F) :
    G < w.flip_count := by
  rcases Nat.lt_or_ge G w.flip_count with h | h
  · exact h
  · rw [List.getD_eq_default _ _ (by omega)] at hmap
    cases hmap

/-- The result of `lua_SetFlipState` on a valid group with the full mask, for an
engine version above `TR_III`. -/
theorem lua_SetFlipState_new (TR_III : Nat) (w : world_s) (g s : Int)
    (hver : w.version > TR_III) (hg : toUint32 g < w.flip_count)
    (hmap : w.flip_map.getD (toUint32 g) 0 = 0x1F) :
    lua_SetFlipState TR_III w [g, s] =
      ({ w with flip_state :=
          w.flip_state.set (toUint32 g) (if toUint32 s = 0 then 0 else 1) },
        flipGroupRooms (toUint32 g) (if toUint32 s = 0 then 0 else 1) w.rooms 0) := by
  simp only [lua_SetFlipState, flip_state_normalised]
  rw [if_neg (Nat.not_le_of_lt hg), if_pos hmap, if_pos hver]

/-- The result of `lua_SetFlipState` on a valid group with the full mask, for an
engine version up to `TR_III`. -/
theorem lua_SetFlipState_old (TR_III : Nat) (w : world_s) (g s : Int)
    (hver : w.version ≤ TR_III) (hg : toUint32 g < w.flip_count)
    (hmap : w.flip_map.getD (toUint32 g) 0 = 0x1F) :
    lua_SetFlipState TR_III w [g, s] =
      ({ w with flip_state := w.flip_state.set 0 (if toUint32 s = 0 then 0 else 1) },
        flipAllRooms (if toUint32 s = 0 then 0 else 1) w.rooms 0) := by
  simp only [lua_SetFlipState, flip_state_normalised]
  rw [if_neg (Nat.not_le_of_lt hg), if_pos hmap, if_neg (Nat.not_lt_of_le hver)]

/-- C9: for an engine version above `TR_III` and a valid group whose flip map is 0x1F
(the flip arrays having `flip_count` entries), `lua_SetFlipState` calls
`Room_SwapToAlternate` (state non-zero) or `Room_SwapToBase` (state zero) on exactly
the rooms whose `alternate_group` is the group, once each, makes no swap call on any
other room, sets `flip_state[group]` to the state normalised to 0 or 1 and leaves
the flip state of every other group unchanged. -/
theorem per_group_flip (TR_III : Nat) (w : world_s) (g s : Int)
    (hver : w.version > TR_III)
    (hmaplen : w.flip_map.length = w.flip_count)
    (hlen : w.flip_state.length = w.flip_count)
    (hmap : w.flip_map.getD (toUint32 g) 0 = 0x1F) :
    (∀ i, RoomSwap.toAlternate i ∈ (lua_SetFlipState TR_III w [g, s]).2 ↔
      toUint32 s ≠ 0 ∧ ∃ r, w.rooms[i]? = some r ∧ r.alternate_group = toUint32 g) ∧
    (∀ i, RoomSwap.toBase i ∈ (lua_SetFlipState TR_III w [g, s]).2 ↔
      toUint32 s = 0 ∧ ∃ r, w.rooms[i]? = some r ∧ r.alternate_group = toUint32 g) ∧
    (lua_SetFlipState TR_III w [g, s]).2.Nodup ∧
    (lua_SetFlipState TR_III w [g, s]).1.flip_state[toUint32 g]? =
      some (if toUint32 s = 0 then 0 else 1) ∧
    (∀ h, h ≠ toUint32 g →
      (lua_SetFlipState TR_III w [g, s]).1.flip_state[h]? = w.flip_state[h]?) := by
  have hg : toUint32 g < w.flip_count := group_valid_of_full_mask w _ hmaplen hmap
  rw [lua_SetFlipState_new TR_III w g s hver hg hmap]
  refine ⟨?_, ?_, nodup_flipGroupRooms _ _ _ 0, ?_, ?_⟩
  · intro i
    simp only [mem_flipGroupRooms, Nat.zero_add]
    constructor
    · rintro ⟨j, r, hj, hr, hx⟩
      by_cases hs : toUint32 s = 0
      · simp [swapRoom, hs] at hx
      · simp only [swapRoom, if_neg hs] at hx
        simp only [ne_eq, one_ne_zero, not_false_eq_true, if_true,
          RoomSwap.toAlternate.injEq] at hx
        subst hx
        exact ⟨hs, r, hj, hr⟩
    · rintro ⟨hs, r, hi, hr⟩
      exact ⟨i, r, hi, hr, by simp [swapRoom, hs]⟩
  · intro i
    simp only [mem_flipGroupRooms, Nat.zero_add]
    constructor
    · rintro ⟨j, r, hj, hr, hx⟩
      by_cases hs : toUint32 s = 0
      · simp only [swapRoom, if_pos hs] at hx
        simp only [ne_eq, not_true_eq_false, if_false, RoomSwap.toBase.injEq] at hx
        subst hx
        exact ⟨hs, r, hj, hr⟩
      · simp [swapRoom, hs] at hx
    · rintro ⟨hs, r, hi, hr⟩
      exact ⟨i, r, hi, hr, by simp [swapRoom, hs]⟩
  · have hlt : toUint32 g < w.flip_state.length := by omega
    simp [hlt]
  · intro h hne
    simp [List.getElem?_set, Ne.symm hne]

/-- Witness for C9: on the four-room level under version 6, setting flip group 0 to
state 1 swaps rooms 0 and 2 to their alternates, swaps neither room 1 nor room 3,
and sets the flip state of group 0 to 1. -/
theorem per_group_flip_witness :
    RoomSwap.toAlternate 0 ∈ (lua_SetFlipState 5 worldNew [0, 1]).2 ∧
    RoomSwap.toAlternate 2 ∈ (lua_SetFlipState 5 worldNew [0, 1]).2 ∧
    RoomSwap.toAlternate 1 ∉ (lua_SetFlipState 5 worldNew [0, 1]).2 ∧
    RoomSwap.toBase 3 ∉ (lua_SetFlipState 5 worldNew [0, 1]).2 ∧
    (lua_SetFlipState 5 worldNew [0, 1]).1.flip_state[toUint32 0]? = some 1 := by
  have h := per_group_flip 5 worldNew 0 1 (by decide) rfl rfl (by decide)
  refine ⟨(h.1 0).mpr ⟨by decide, _, rfl, rfl⟩, (h.1 2).mpr ⟨by decide, _, rfl, rfl⟩, ?_, ?_,
    h.2.2.2.1⟩
  · intro hm
    obtain ⟨_, r, hr, hgrp⟩ := (h.1 1).mp hm
    cases hr
    exact absurd hgrp (by decide)
  · intro hm
    exact absurd ((h.2.1 3).mp hm).1 (by decide)

/-- C10: for an engine version up to `TR_III` and a valid group whose flip map is 0x1F
(the flip arrays having `flip_count` entries), `lua_SetFlipState` calls the swap (to
alternate when the state is non-zero, to base when it is zero) on every room of the
level, in order, once each and whatever its `alternate_group`, stores the normalised
state in `flip_state[0]`, the global flip state, and changes no other entry. -/
theorem global_flip (TR_III : Nat) (w : world_s) (g s : Int)
    (hver : w.version ≤ TR_III)
    (hmaplen : w.flip_map.length = w.flip_count)
    (hlen : w.flip_state.length = w.flip_count)
    (hmap : w.flip_map.getD (toUint32 g) 0 = 0x1F) :
    (lua_SetFlipState TR_III w [g, s]).2 =
      (List.range w.rooms.length).map
        (fun i => if toUint32 s ≠ 0 then RoomSwap.toAlternate i else RoomSwap.toBase i) ∧
    (lua_SetFlipState TR_III w [g, s]).1.flip_state[0]? =
      some (if toUint32 s = 0 then 0 else 1) ∧
    (∀ h, h ≠ 0 →
      (lua_SetFlipState TR_III w [g, s]).1.flip_state[h]? = w.flip_state[h]?) := by
  have hg : toUint32 g < w.flip_count := group_valid_of_full_mask w _ hmaplen hmap
  rw [lua_SetFlipState_old TR_III w g s hver hg hmap]
  refine ⟨?_, ?_, ?_⟩
  · simp only [flipAllRooms_eq, List.range_eq_range']
    apply List.map_congr_left
    intro i _
    by_cases hs : toUint32 s = 0 <;> simp [swapRoom, hs]
  · have hlt : 0 < w.flip_state.length := by omega
    simp [hlt]
  · intro h hne
    simp [List.getElem?_set, Ne.symm hne]

/-- Witness for C10: on the four-room level under version 3, setting flip group 1 to
state 1 swaps all four rooms to their alternates and sets `flip_state[0]` to 1;
setting it to state 0 swaps all four rooms to base. -/
theorem global_flip_witness :
    (lua_SetFlipState 5 worldOld [1, 1]).2 =
      [RoomSwap.toAlternate 0, RoomSwap.toAlternate 1, RoomSwap.toAlternate 2,
        RoomSwap.toAlternate 3] ∧
    (lua_SetFlipState 5 worldOld [1, 1]).1.flip_state[0]? = some 1 ∧
    (lua_SetFlipState 5 worldOld [1, 0]).2 =
      [RoomSwap.toBase 0, RoomSwap.toBase 1, RoomSwap.toBase 2, RoomSwap.toBase 3] :=
  ⟨(global_flip 5 worldOld 1 1 (by decide) rfl rfl (by decide)).1,
    (global_flip 5 worldOld 1 1 (by decide) rfl rfl (by decide)).2.1,
    (global_flip 5 worldOld 1 0 (by decide) rfl rfl (by decide)).1⟩

/-! ### Flip state: reading back and repeating -/

/-- C11, as the code has it: on the four-room level under engine version 3, group 1 is
valid and has the mask 0x1F, and `lua_GetFlipState(1)` right after
`lua_SetFlipState(1, 1)` returns 0, not the state 1 just set. -/
theorem flip_state_read_back_old :
    worldOld.version ≤ 5 ∧ toUint32 1 < worldOld.flip_count ∧
    worldOld.flip_map.getD (toUint32 1) 0 = 0x1F ∧
    lua_GetFlipState (lua_SetFlipState 5 worldOld [1, 1]).1 [1] = [0] := by
  decide

/-- C11, amended: for a valid group `g` whose flip map is 0x1F (the flip arrays having
`flip_count` entries) and every requested state `s`, on an engine version above
`TR_III` the call `lua_GetFlipState(g)` right after `lua_SetFlipState(g, s)` returns
the state just set (0 if `s` is 0, otherwise 1); on an engine version up to `TR_III`
the state just set is what `lua_GetFlipState(0)` returns, the state being stored as
the global flip state. -/
theorem flip_state_round_trip (TR_III : Nat) (w : world_s) (g s : Int)
    (hmaplen : w.flip_map.length = w.flip_count)
    (hlen : w.flip_state.length = w.flip_count)
    (hmap : w.flip_map.getD (toUint32 g) 0 = 0x1F) :
    (w.version > TR_III →
      lua_GetFlipState (lua_SetFlipState TR_III w [g, s]).1 [g] =
        [if toUint32 s = 0 then 0 else 1]) ∧
    (w.version ≤ TR_III →
      lua_GetFlipState (lua_SetFlipState TR_III w [g, s]).1 [0] =
        [if toUint32 s = 0 then 0 else 1]) := by
  have hg : toUint32 g < w.flip_count := group_valid_of_full_mask w _ hmaplen hmap
  constructor
  · intro hver
    rw [lua_SetFlipState_new TR_III w g s hver hg hmap]
    have hlt : toUint32 g < w.flip_state.length := by omega
    simp only [lua_GetFlipState]
    rw [if_neg (Nat.not_le_of_lt hg)]
    simp [List.getD_eq_getElem?_getD, hlt]
  · intro hver
    rw [lua_SetFlipState_old TR_III w g s hver hg hmap]
    have hlt : 0 < w.flip_state.length := by omega
    have h0 : toUint32 0 = 0 := rfl
    have hc : ¬ (toUint32 0 ≥ w.flip_count) := by omega
    simp only [lua_GetFlipState]
    rw [if_neg hc, h0]
    simp [List.getD_eq_getElem?_getD, hlt]

/-- Witness for C11 amended: on the four-room level, group 1 reads back 1 under
version 6, and group 0 reads back 1 under version 3 after group 1 was set. -/
theorem flip_state_round_trip_witness :
    lua_GetFlipState (lua_SetFlipState 5 worldNew [1, 1]).1 [1] = [1] ∧
    lua_GetFlipState (lua_SetFlipState 5 worldOld [1, 1]).1 [0] = [1] :=
  ⟨(flip_state_round_trip 5 worldNew 1 1 rfl rfl (by decide)).1 (by decide),
    (flip_state_round_trip 5 worldOld 1 1 rfl rfl (by decide)).2 (by decide)⟩

/-- C12, as the code has it: on the four-room level with flip group 0 already in
state 1, the call `lua_SetFlipState(0, 1)` requests the current state and still calls
`Room_SwapToAlternate` on rooms 0 and 2. -/
theorem flip_same_state_swaps_again :
    worldFlipped.flip_state.getD (toUint32 0) 0 = 1 ∧
    (lua_SetFlipState 5 worldFlipped [0, 1]).2 =
      [RoomSwap.toAlternate 0, RoomSwap.toAlternate 2] := by
  decide

/-- C12, amended: a second identical call of `lua_SetFlipState` right after a first
one leaves the world, the flip-state table included, as the first call left it, and
makes the same swap calls as the first call made: the current flip state is not
consulted. -/
theorem flip_repeat (TR_III : Nat) (w : world_s) (g s : Int) :
    lua_SetFlipState TR_III (lua_SetFlipState TR_III w [g, s]).1 [g, s] =
      lua_SetFlipState TR_III w [g, s] := by
  by_cases hg : toUint32 g ≥ w.flip_count
  · have h1 : lua_SetFlipState TR_III w [g, s] = (w, []) := by
      simp only [lua_SetFlipState]
      rw [if_pos hg]
    rw [h1]
    exact h1
  · have hg1 : toUint32 g < w.flip_count := Nat.lt_of_not_le hg
    by_cases hmap : w.flip_map.getD (toUint32 g) 0 = 0x1F
    · by_cases hver : w.version > TR_III
      · rw [lua_SetFlipState_new TR_III w g s hver hg1 hmap]
        have h2 := lua_SetFlipState_new TR_III
          { w with flip_state :=
              w.flip_state.set (toUint32 g) (if toUint32 s = 0 then 0 else 1) }
          g s hver hg1 hmap
        simp only [List.set_set] at h2
        exact h2
      · have hver1 : w.version ≤ TR_III := Nat.le_of_not_lt hver
        rw [lua_SetFlipState_old TR_III w g s hver1 hg1 hmap]
        have h2 := lua_SetFlipState_old TR_III
          { w with flip_state := w.flip_state.set 0 (if toUint32 s = 0 then 0 else 1) }
          g s hver1 hg1 hmap
        simp only [List.set_set] at h2
        exact h2
    · have h1 : lua_SetFlipState TR_III w [g, s] = (w, []) := by
        simp only [lua_SetFlipState]
        rw [if_neg hg, if_neg hmap]
      rw [h1]
      exact h1

/-! ### Room enabling -/

/-- C20: called with the two arguments `id` and `value`, `lua_SetRoomEnabled` calls
neither `Room_Enable` nor `Room_Disable` when `id` is not below the number of rooms;
otherwise it makes one call, on room `id`: `Room_Disable` when `value` is 0 and
`Room_Enable` for every other value. -/
theorem room_enable_reference_check (rooms_size : Nat) (a1 a2 : Int) :
    (toUint32 a1 ≥ rooms_size → lua_SetRoomEnabled rooms_size [a1, a2] = []) ∧
    (toUint32 a1 < rooms_size → a2 = 0 →
      lua_SetRoomEnabled rooms_size [a1, a2] = [RoomToggle.disable (toUint32 a1)]) ∧
    (toUint32 a1 < rooms_size → a2 ≠ 0 →
      lua_SetRoomEnabled rooms_size [a1, a2] = [RoomToggle.enable (toUint32 a1)]) := by
  refine ⟨?_, ?_, ?_⟩
  · intro h
    simp [lua_SetRoomEnabled, h]
  · intro h h2
    simp [lua_SetRoomEnabled, Nat.not_le_of_lt h, h2]
  · intro h h2
    simp [lua_SetRoomEnabled, Nat.not_le_of_lt h, h2]

/-- Witness for C20: with four rooms, room 9 is refused, room 2 is disabled by the
value 0 and enabled by the value 5. -/
theorem room_enable_reference_check_witness :
    lua_SetRoomEnabled 4 [9, 1] = [] ∧
    lua_SetRoomEnabled 4 [2, 0] = [RoomToggle.disable 2] ∧
    lua_SetRoomEnabled 4 [2, 5] = [RoomToggle.enable 2] :=
  ⟨(room_enable_reference_check 4 9 1).1 (by decide),
    (room_enable_reference_check 4 2 0).2.1 (by decide) rfl,
    (room_enable_reference_check 4 2 5).2.2 (by decide) (by decide)⟩

/-! ### Hair construction: preconditions -/

/-- The outcome of `Hair::create` when a precondition fails. -/
theorem Hair.create_of_precondition_failed (consts : HairConsts) (alloc : HairAlloc)
    (models : Nat → Option skeletal_model_s) (tex_count : Nat) (self : Hair)
    (setup : Option HairSetup) (parent : Option Entity)
    (h : parent = none ∨ setup = none ∨
      ∃ p s, parent = some p ∧ setup = some s ∧
        (s.m_linkBody ≥ p.bone_tag_count ∨ p.body s.m_linkBody = none ∨
          models s.m_model = none ∨ ∃ m, models s.m_model = some m ∧ m.mesh_count = 0)) :
    Hair.create consts alloc models tex_count self setup parent = (false, self, []) := by
  rcases h with h | h | ⟨p, s, hp, hs, h⟩
  · subst h
    rfl
  · subst h
    cases parent <;> rfl
  · subst hp hs
    simp only [Hair.create]
    by_cases hlink : s.m_linkBody ≥ p.bone_tag_count ∨ p.body s.m_linkBody = none
    · rw [if_pos hlink]
    · rw [if_neg hlink]
      rcases h with h | h | h | ⟨m, hm, h0⟩
      · exact absurd (Or.inl h) hlink
      · exact absurd (Or.inr h) hlink
      · rw [h]
      · rw [hm]
        simp only []
        rw [if_pos h0]

/-- The value returned by `Hair::create` when every precondition holds. -/
theorem Hair.create_of_preconditions (consts : HairConsts) (alloc : HairAlloc)
    (models : Nat → Option skeletal_model_s) (tex_count : Nat) (self : Hair)
    (s : HairSetup) (p : Entity) (m : skeletal_model_s)
    (hlink : s.m_linkBody < p.bone_tag_count) (hbody : p.body s.m_linkBody ≠ none)
    (hm : models s.m_model = some m) (hcount : m.mesh_count ≠ 0) :
    (Hair.create consts alloc models tex_count self (some s) (some p)).1 = true := by
  have hl : ¬ (s.m_linkBody ≥ p.bone_tag_count ∨ p.body s.m_linkBody = none) := by
    rintro (h | h)
    · omega
    · exact hbody h
  simp only [Hair.create]
  rw [if_neg hl, hm]
  simp only []
  rw [if_neg hcount]

/-- C13: `Hair::create` returns false exactly when the parent entity is null, the
setup is null, the link body index of the setup is not below the parent's
`bone_tag_count`, the parent has no rigid body for that bone, the model id of the
setup resolves to no model, or the model has no mesh; in every other case it
returns true. -/
theorem create_false_iff (consts : HairConsts) (alloc : HairAlloc)
    (models : Nat → Option skeletal_model_s) (tex_count : Nat) (self : Hair)
    (setup : Option HairSetup) (parent : Option Entity) :
    (Hair.create consts alloc models tex_count self setup parent).1 = false ↔
      (parent = none ∨ setup = none ∨
        ∃ p s, parent = some p ∧ setup = some s ∧
          (s.m_linkBody ≥ p.bone_tag_count ∨ p.body s.m_linkBody = none ∨
            models s.m_model = none ∨
            ∃ m, models s.m_model = some m ∧ m.mesh_count = 0)) := by
  constructor
  · intro hfalse
    cases parent with
    | none => exact Or.inl rfl
    | some p =>
      cases setup with
      | none => exact Or.inr (Or.inl rfl)
      | some s =>
        refine Or.inr (Or.inr ⟨p, s, rfl, rfl, ?_⟩)
        by_cases hlink : s.m_linkBody ≥ p.bone_tag_count
        · exact Or.inl hlink
        · by_cases hbody : p.body s.m_linkBody = none
          · exact Or.inr (Or.inl hbody)
          · cases hm : models s.m_model with
            | none => exact Or.inr (Or.inr (Or.inl rfl))
            | some m =>
              by_cases hcount : m.mesh_count = 0
              · exact Or.inr (Or.inr (Or.inr ⟨m, rfl, hcount⟩))
              · have htrue := Hair.create_of_preconditions consts alloc models tex_count self
                  s p m (Nat.lt_of_not_le hlink) hbody hm hcount
                rw [htrue] at hfalse
                cases hfalse
  · intro h
    rw [Hair.create_of_precondition_failed consts alloc models tex_count self setup parent h]

/-- C14: whenever `Hair::create` returns false, it has made no operation on the
physics world (no rigid body and no constraint added) and the `Hair` instance is as
it was before the call. -/
theorem create_failure_atomic (consts : HairConsts) (alloc : HairAlloc)
    (models : Nat → Option skeletal_model_s) (tex_count : Nat) (self : Hair)
    (setup : Option HairSetup) (parent : Option Entity)
    (hfalse : (Hair.create consts alloc models tex_count self setup parent).1 = false) :
    (Hair.create consts alloc models tex_count self setup parent).2.1 = self ∧
    (Hair.create consts alloc models tex_count self setup parent).2.2 = [] := by
  cases parent with
  | none => exact ⟨rfl, rfl⟩
  | some p =>
    cases setup with
    | none => exact ⟨rfl, rfl⟩
    | some s =>
      simp only [Hair.create] at hfalse ⊢
      by_cases hlink : s.m_linkBody ≥ p.bone_tag_count ∨ p.body s.m_linkBody = none
      · rw [if_pos hlink]
        exact ⟨rfl, rfl⟩
      · rw [if_neg hlink] at hfalse ⊢
        cases hm : models s.m_model with
        | none => exact ⟨rfl, rfl⟩
        | some m =>
          rw [hm] at hfalse
          simp only [] at hfalse ⊢
          by_cases hcount : m.mesh_count = 0
          · rw [if_pos hcount]
            exact ⟨rfl, rfl⟩
          · rw [if_neg hcount] at hfalse
            cases hfalse

/-- Witness for C14: with the link body index 5 on a character of three bones,
`Hair::create` returns false, leaves the hair as it was and touches no world. -/
theorem create_failure_atomic_witness :
    (Hair.create hairConsts hairAlloc hairModels 4 Hair.fresh
      (some { hairSetup with m_linkBody := 5 }) (some hairOwner)).1 = false ∧
    (Hair.create hairConsts hairAlloc hairModels 4 Hair.fresh
      (some { hairSetup with m_linkBody := 5 }) (some hairOwner)).2.1 = Hair.fresh ∧
    (Hair.create hairConsts hairAlloc hairModels 4 Hair.fresh
      (some { hairSetup with m_linkBody := 5 }) (some hairOwner)).2.2 = [] :=
  ⟨by decide,
    create_failure_atomic hairConsts hairAlloc hairModels 4 Hair.fresh
      (some { hairSetup with m_linkBody := 5 }) (some hairOwner) (by decide)⟩

/-! ### Hair construction: the element loop -/

/-- The element loop keeps the number of elements. -/
theorem createElements_length (c : HairConsts) (a : HairAlloc) (s : HairSetup)
    (m : skeletal_model_s) (step : ℚ) (k : Nat) :
    ∀ (i : Nat) (w : ℚ) (elems : List HairElement),
      (createElements c a s m step k i w elems).1.length = elems.length := by
  induction k with
  | zero => intro i w elems; rfl
  | succ k ih =>
    intro i w elems
    simp only [createElements]
    rw [ih]
    exact List.length_set ..

/-- The element loop started at `i` leaves the elements below `i` alone. -/
theorem createElements_below (c : HairConsts) (a : HairAlloc) (s : HairSetup)
    (m : skeletal_model_s) (step : ℚ) (k : Nat) :
    ∀ (i : Nat) (w : ℚ) (elems : List HairElement) (j : Nat), j < i →
      (createElements c a s m step k i w elems).1[j]? = elems[j]? := by
  induction k with
  | zero => intro i w elems j _; rfl
  | succ k ih =>
    intro i w elems j hj
    simp only [createElements]
    rw [ih (i + 1) _ _ j (Nat.lt_succ_of_lt hj)]
    exact List.getElem?_set_ne (Nat.ne_of_gt hj)

/-- The element built by pass `i + t` of the element loop started at `i` with the
weight `w`: its body has the address given by the allocator, the mass
`w - (t + 1) * step` and an inertia computed from the weight `w - t * step`. -/
theorem createElements_at (c : HairConsts) (a : HairAlloc) (s : HairSetup)
    (m : skeletal_model_s) (step : ℚ) (k : Nat) :
    ∀ (i : Nat) (w : ℚ) (elems : List HairElement) (t : Nat), t < k →
      i + t < elems.length →
      ∃ e b, (createElements c a s m step k i w elems).1[i + t]? = some e ∧
        e.body = some b ∧ b.address = a.body (i + t) ∧
        b.mass = w - ((t : ℚ) + 1) * step ∧
        b.inertiaMass = (w - (t : ℚ) * step) * s.m_hairInertia ∧
        e.mesh = (m.mesh_tree[i + t]?).map (fun part => part.mesh_base) := by
  induction k with
  | zero => intro i w elems t ht; exact absurd ht (Nat.not_lt_zero t)
  | succ k ih =>
    intro i w elems t ht hlen
    simp only [createElements]
    cases t with
    | zero =>
      have hi : i < elems.length := by omega
      simp only [Nat.add_zero]
      rw [createElements_below c a s m step k (i + 1) _ _ i (Nat.lt_succ_self i)]
      exact ⟨_, _, List.getElem?_set_eq_of_lt _ hi, rfl, rfl, by simp, by simp, rfl⟩
    | succ t =>
      have hlen2 : i + 1 + t < (elems.set i
          { elems.getD i HairElement.empty with
            mesh := (m.mesh_tree[i]?).map (fun part => part.mesh_base)
            body := some
              { address := a.body i, mass := w - step, inertiaMass := w * s.m_hairInertia,
                linearDamping := s.m_hairDamping.1, angularDamping := s.m_hairDamping.2,
                restitution := s.m_hairRestitution, friction := s.m_hairFriction,
                activationState := DISABLE_DEACTIVATION,
                userPointer := some a.container } }).length := by
        rw [List.length_set]
        omega
      obtain ⟨e, b, he, hb, haddr, hmass, hinertia, hmesh⟩ :=
        ih (i + 1) (w - step) _ t (Nat.lt_of_succ_lt_succ ht) hlen2
      have hidx : i + (t + 1) = i + 1 + t := by omega
      refine ⟨e, b, ?_, hb, ?_, ?_, ?_, ?_⟩
      · rw [hidx]
        exact he
      · rw [hidx]
        exact haddr
      · rw [hmass]
        push_cast
        ring
      · rw [hinertia]
        push_cast
        ring
      · rw [hidx]
        exact hmesh

/-- The element loop adds the bodies to the world one after the other. -/
theorem createElements_ops (c : HairConsts) (a : HairAlloc) (s : HairSetup)
    (m : skeletal_model_s) (step : ℚ) (k : Nat) :
    ∀ (i : Nat) (w : ℚ) (elems : List HairElement),
      (createElements c a s m step k i w elems).2 =
        (List.range' i k).map (fun j =>
          PhysicsOp.addRigidBody (a.body j) c.COLLISION_GROUP_CHARACTERS
            c.COLLISION_GROUP_KINEMATIC) := by
  induction k with
  | zero => intro i w elems; rfl
  | succ k ih =>
    intro i w elems
    simp only [createElements, List.range'_succ, List.map_cons]
    rw [ih]

/-! ### Hair construction: the joint loop -/

/-- The joint loop keeps the number of joints. -/
theorem createJoints_length (a : HairAlloc) (s : HairSetup) (pb : Option BodyPtr)
    (elems : List HairElement) (k : Nat) :
    ∀ (i : Nat) (joints : List (Option btGeneric6DofConstraint)),
      (createJoints a s pb elems k i joints).1.length = joints.length := by
  induction k with
  | zero => intro i joints; rfl
  | succ k ih =>
    intro i joints
    simp only [createJoints]
    rw [ih]
    exact List.length_set ..

/-- The joint loop started at `i` leaves the joints below `i` alone. -/
theorem createJoints_below (a : HairAlloc) (s : HairSetup) (pb : Option BodyPtr)
    (elems : List HairElement) (k : Nat) :
    ∀ (i : Nat) (joints : List (Option btGeneric6DofConstraint)) (j : Nat), j < i →
      (createJoints a s pb elems k i joints).1[j]? = joints[j]? := by
  induction k with
  | zero => intro i joints j _; rfl
  | succ k ih =>
    intro i joints j hj
    simp only [createJoints]
    rw [ih (i + 1) _ j (Nat.lt_succ_of_lt hj)]
    exact List.getElem?_set_ne (Nat.ne_of_gt hj)

/-- Pass `i + t` of the joint loop started at `i` stores the constraint built for
joint `i + t`. -/
theorem createJoints_at (a : HairAlloc) (s : HairSetup) (pb : Option BodyPtr)
    (elems : List HairElement) (k : Nat) :
    ∀ (i : Nat) (joints : List (Option btGeneric6DofConstraint)) (t : Nat), t < k →
      i + t < joints.length →
      (createJoints a s pb elems k i joints).1[i + t]? =
        some (some (makeJoint a s pb elems (i + t))) := by
  induction k with
  | zero => intro i joints t ht; exact absurd ht (Nat.not_lt_zero t)
  | succ k ih =>
    intro i joints t ht hlen
    simp only [createJoints]
    cases t with
    | zero =>
      have hi : i < joints.length := by omega
      simp only [Nat.add_zero]
      rw [createJoints_below a s pb elems k (i + 1) _ i (Nat.lt_succ_self i)]
      exact List.getElem?_set_eq_of_lt _ hi
    | succ t =>
      have hidx : i + (t + 1) = i + 1 + t := by omega
      rw [hidx]
      apply ih (i + 1) _ t (Nat.lt_of_succ_lt_succ ht)
      rw [List.length_set]
      omega

/-- The joint loop adds the constraints to the world one after the other. -/
theorem createJoints_ops (a : HairAlloc) (s : HairSetup) (pb : Option BodyPtr)
    (elems : List HairElement) (k : Nat) :
    ∀ (i : Nat) (joints : List (Option btGeneric6DofConstraint)),
      (createJoints a s pb elems k i joints).2 =
        (List.range' i k).map (fun j => PhysicsOp.addConstraint (a.joint j) true) := by
  induction k with
  | zero => intro i joints; rfl
  | succ k ih =>
    intro i joints
    simp only [createJoints, List.range'_succ, List.map_cons]
    rw [ih]
    congr 1
    unfold makeJoint
    split <;> rfl

/-- The address and the two bodies of the constraint built for joint `i`. -/
theorem makeJoint_links (a : HairAlloc) (s : HairSetup) (pb : Option BodyPtr)
    (elems : List HairElement) (i : Nat) :
    (makeJoint a s pb elems i).address = a.joint i ∧
    (makeJoint a s pb elems i).rbB = elementBody elems i ∧
    (i = 0 → (makeJoint a s pb elems i).rbA = pb) ∧
    (i ≠ 0 → (makeJoint a s pb elems i).rbA = elementBody elems (i - 1)) := by
  unfold makeJoint
  by_cases hi : i = 0
  · simp [hi]
  · simp [hi]

/-! ### Hair construction: the combined mesh keeps bodies and joints -/

/-- Writing the resting position of an element leaves every body as it is. -/
theorem set_position_bodies (p : btVector3) (l : List HairElement) :
    ∀ i : Nat,
      (l.set i { l.getD i HairElement.empty with position := p }).map (fun e => e.body) =
        l.map (fun e => e.body) := by
  induction l with
  | nil => intro i; rfl
  | cons e rest ih =>
    intro i
    cases i with
    | zero => rfl
    | succ i =>
      simp only [List.set_cons_succ, List.map_cons, List.getD_cons_succ]
      rw [ih i]

/-- The copy loop of `Hair::createHairMesh` leaves every body as it is. -/
theorem copyParts_bodies (model : skeletal_model_s) (k : Nat) :
    ∀ (i : Nat) (st : HairMeshCopy),
      (copyParts model k i st).m_elements.map (fun e => e.body) =
        st.m_elements.map (fun e => e.body) := by
  induction k with
  | zero => intro i st; rfl
  | succ k ih =>
    intro i st
    simp only [copyParts]
    cases model.mesh_tree[i]? with
    | none => exact ih (i + 1) st
    | some part =>
      simp only []
      rw [ih (i + 1)]
      exact set_position_bodies _ _ i

/-- `Hair::createHairMesh` leaves every body of the hair as it is. -/
theorem createHairMesh_bodies (tex_count : Nat) (h : Hair) (model : skeletal_model_s) :
    (h.createHairMesh tex_count model).m_elements.map (fun e => e.body) =
      h.m_elements.map (fun e => e.body) := by
  simp only [Hair.createHairMesh]
  exact copyParts_bodies model model.mesh_count 0 _

/-- The body of element `i`, read off the list of bodies. -/
theorem body_of_bodies (l : List HairElement) (i : Nat) :
    (l.getD i HairElement.empty).body = (l.map (fun e => e.body)).getD i none := by
  have h := List.getD_map (l := l) (d := HairElement.empty) (n := i) (fun e => e.body)
  exact h.symm

/-- Lists of elements with the same bodies have the same body addresses. -/
theorem elementBody_congr (l1 l2 : List HairElement)
    (h : l1.map (fun e => e.body) = l2.map (fun e => e.body)) (i : Nat) :
    elementBody l1 i = elementBody l2 i := by
  unfold elementBody
  rw [body_of_bodies l1 i, body_of_bodies l2 i, h]

/-! ### Hair construction: the built hair -/

/-- The call `resize(n)` yields a vector of `n` entries. -/
theorem vectorResize_length {α : Type} (v : List α) (n : Nat) (fill : α) :
    (vectorResize v n fill).length = n := by
  unfold vectorResize
  rw [List.length_append, List.length_take, List.length_replicate]
  omega

/-- The body address of an element, from the element. -/
theorem elementBody_of_getElem (l : List HairElement) (i : Nat) (e : HairElement)
    (b : btRigidBody) (he : l[i]? = some e) (hb : e.body = some b) :
    elementBody l i = some b.address := by
  unfold elementBody
  rw [List.getD_eq_getElem?_getD, he]
  simp [hb]

/-- An element of a list with given bodies. -/
theorem getElem_of_bodies (l1 l2 : List HairElement)
    (h : l1.map (fun e => e.body) = l2.map (fun e => e.body)) (i : Nat) (e : HairElement)
    (he : l2[i]? = some e) :
    ∃ e1, l1[i]? = some e1 ∧ e1.body = e.body := by
  have h1 : (l1.map (fun e => e.body))[i]? = (l2.map (fun e => e.body))[i]? := by rw [h]
  rw [List.getElem?_map, List.getElem?_map, he] at h1
  cases h1e : l1[i]? with
  | none => rw [h1e] at h1; cases h1
  | some e1 =>
    rw [h1e] at h1
    exact ⟨e1, rfl, Option.some.inj h1⟩

/-- The preconditions of `Hair::create`, from a successful call. -/
theorem Hair.create_true_preconditions (consts : HairConsts) (alloc : HairAlloc)
    (models : Nat → Option skeletal_model_s) (tex_count : Nat) (self : Hair)
    (s : HairSetup) (p : Entity)
    (htrue : (Hair.create consts alloc models tex_count self (some s) (some p)).1 = true) :
    s.m_linkBody < p.bone_tag_count ∧ p.body s.m_linkBody ≠ none ∧
      ∃ m, models s.m_model = some m ∧ m.mesh_count ≠ 0 := by
  have hfail := Hair.create_of_precondition_failed consts alloc models tex_count self
    (some s) (some p)
  by_cases hlink : s.m_linkBody ≥ p.bone_tag_count
  · rw [hfail (Or.inr (Or.inr ⟨p, s, rfl, rfl, Or.inl hlink⟩))] at htrue
    cases htrue
  · by_cases hbody : p.body s.m_linkBody = none
    · rw [hfail (Or.inr (Or.inr ⟨p, s, rfl, rfl, Or.inr (Or.inl hbody)⟩))] at htrue
      cases htrue
    · cases hm : models s.m_model with
      | none =>
        rw [hfail (Or.inr (Or.inr ⟨p, s, rfl, rfl, Or.inr (Or.inr (Or.inl hm))⟩))] at htrue
        cases htrue
      | some m =>
        by_cases hcount : m.mesh_count = 0
        · rw [hfail (Or.inr (Or.inr ⟨p, s, rfl, rfl,
            Or.inr (Or.inr (Or.inr ⟨m, hm, hcount⟩))⟩))] at htrue
          cases htrue
        · exact ⟨Nat.lt_of_not_le hlink, hbody, m, rfl, hcount⟩

/-- The hair built by a successful `Hair::create` on a model of `N` meshes: `N`
elements and `N` joints, root index 0 and tail index `N - 1`; the world operations
are the `N` bodies added in order, then the `N` constraints added in order; the
body of element `i` has the mass `root - (i + 1) * (root - tail) / N` and an inertia
computed from the weight `root - i * (root - tail) / N`; joint `i` links the body
of element `i - 1`, or the parent body for `i = 0`, to the body of element `i`. -/
theorem Hair.create_built (consts : HairConsts) (alloc : HairAlloc)
    (models : Nat → Option skeletal_model_s) (tex_count : Nat) (self : Hair)
    (s : HairSetup) (p : Entity) (m : skeletal_model_s)
    (hlink : s.m_linkBody < p.bone_tag_count) (hbody : p.body s.m_linkBody ≠ none)
    (hm : models s.m_model = some m) (hcount : m.mesh_count ≠ 0)
    (r : Bool × Hair × List PhysicsOp)
    (hr : r = Hair.create consts alloc models tex_count self (some s) (some p)) :
    r.1 = true ∧
    r.2.1.m_elements.length = m.mesh_count ∧
    r.2.1.m_joints.length = m.mesh_count ∧
    r.2.1.m_rootIndex = 0 ∧
    r.2.1.m_tailIndex = m.mesh_count - 1 ∧
    r.2.2 =
      (List.range m.mesh_count).map (fun i =>
        PhysicsOp.addRigidBody (alloc.body i) consts.COLLISION_GROUP_CHARACTERS
          consts.COLLISION_GROUP_KINEMATIC) ++
      (List.range m.mesh_count).map (fun i => PhysicsOp.addConstraint (alloc.joint i) true) ∧
    (∀ i, i < m.mesh_count →
      ∃ e b, r.2.1.m_elements[i]? = some e ∧ e.body = some b ∧
        b.address = alloc.body i ∧
        b.mass = s.m_rootWeight -
          ((i : ℚ) + 1) * ((s.m_rootWeight - s.m_tailWeight) / (m.mesh_count : ℚ)) ∧
        b.inertiaMass = (s.m_rootWeight -
          (i : ℚ) * ((s.m_rootWeight - s.m_tailWeight) / (m.mesh_count : ℚ))) *
            s.m_hairInertia) ∧
    (∀ i, i < m.mesh_count →
      ∃ j, r.2.1.m_joints[i]? = some (some j) ∧ j.address = alloc.joint i ∧
        j.rbB = some (alloc.body i) ∧
        (i = 0 → j.rbA = p.body s.m_linkBody) ∧
        (i ≠ 0 → j.rbA = some (alloc.body (i - 1)))) := by
  have hl : ¬ (s.m_linkBody ≥ p.bone_tag_count ∨ p.body s.m_linkBody = none) := by
    rintro (h | h)
    · omega
    · exact hbody h
  have hN : (vectorResize ([] : List HairElement) m.mesh_count HairElement.empty).length =
      m.mesh_count := vectorResize_length _ _ _
  subst hr
  simp only [Hair.create]
  rw [if_neg hl, hm]
  simp only []
  rw [if_neg hcount]
  simp only [hN]
  have hM := createElements_length consts alloc s m
    ((s.m_rootWeight - s.m_tailWeight) / (m.mesh_count : ℚ)) m.mesh_count 0 s.m_rootWeight
    (vectorResize ([] : List HairElement) m.mesh_count HairElement.empty)
  rw [hN] at hM
  simp only [hM]
  have hat : ∀ i, i < m.mesh_count → ∃ e b,
      (createElements consts alloc s m
        ((s.m_rootWeight - s.m_tailWeight) / (m.mesh_count : ℚ)) m.mesh_count 0 s.m_rootWeight
        (vectorResize ([] : List HairElement) m.mesh_count HairElement.empty)).1[i]? = some e ∧
      e.body = some b ∧ b.address = alloc.body i ∧
      b.mass = s.m_rootWeight -
        ((i : ℚ) + 1) * ((s.m_rootWeight - s.m_tailWeight) / (m.mesh_count : ℚ)) ∧
      b.inertiaMass = (s.m_rootWeight -
        (i : ℚ) * ((s.m_rootWeight - s.m_tailWeight) / (m.mesh_count : ℚ))) *
          s.m_hairInertia := by
    intro i hi
    obtain ⟨e, b, he, hb, ha, hmass, hin, _⟩ := createElements_at consts alloc s m
      ((s.m_rootWeight - s.m_tailWeight) / (m.mesh_count : ℚ)) m.mesh_count 0 s.m_rootWeight
      (vectorResize ([] : List HairElement) m.mesh_count HairElement.empty) i hi
      (by rw [hN]; omega)
    rw [Nat.zero_add] at he ha
    exact ⟨e, b, he, hb, ha, hmass, hin⟩
  refine ⟨trivial, ?_, ?_, rfl, rfl, ?_, ?_, ?_⟩
  · have h := congrArg List.length (createHairMesh_bodies tex_count
      { self with
        m_container := some { object_type := consts.OBJECT_HAIR, room := p.self_room }
        m_ownerChar := some p
        m_ownerBody := s.m_linkBody
        m_ownerBodyHairRoot := s.m_headOffset.add { x := 0, y := 0, z := 0 }
        m_rootIndex := 0
        m_tailIndex := m.mesh_count - 1
        m_elements := (createElements consts alloc s m
          ((s.m_rootWeight - s.m_tailWeight) / (m.mesh_count : ℚ)) m.mesh_count 0
          s.m_rootWeight
          (vectorResize ([] : List HairElement) m.mesh_count HairElement.empty)).1
        m_joints := (createJoints alloc s (p.body s.m_linkBody)
          (createElements consts alloc s m
            ((s.m_rootWeight - s.m_tailWeight) / (m.mesh_count : ℚ)) m.mesh_count 0
            s.m_rootWeight
            (vectorResize ([] : List HairElement) m.mesh_count HairElement.empty)).1
          m.mesh_count 0 (vectorResize self.m_joints m.mesh_count none)).1 } m)
    simp only [List.length_map] at h
    rw [h]
    exact hM
  · simp only [Hair.createHairMesh]
    rw [createJoints_length, vectorResize_length]
  · rw [createElements_ops, createJoints_ops, List.range_eq_range']
  · intro i hi
    obtain ⟨e, b, he, hb, ha, hmass, hin⟩ := hat i hi
    obtain ⟨e1, he1, hb1⟩ := getElem_of_bodies _ _ (createHairMesh_bodies tex_count
      { self with
        m_container := some { object_type := consts.OBJECT_HAIR, room := p.self_room }
        m_ownerChar := some p
        m_ownerBody := s.m_linkBody
        m_ownerBodyHairRoot := s.m_headOffset.add { x := 0, y := 0, z := 0 }
        m_rootIndex := 0
        m_tailIndex := m.mesh_count - 1
        m_elements := (createElements consts alloc s m
          ((s.m_rootWeight - s.m_tailWeight) / (m.mesh_count : ℚ)) m.mesh_count 0
          s.m_rootWeight
          (vectorResize ([] : List HairElement) m.mesh_count HairElement.empty)).1
        m_joints := (createJoints alloc s (p.body s.m_linkBody)
          (createElements consts alloc s m
            ((s.m_rootWeight - s.m_tailWeight) / (m.mesh_count : ℚ)) m.mesh_count 0
            s.m_rootWeight
            (vectorResize ([] : List HairElement) m.mesh_count HairElement.empty)).1
          m.mesh_count 0 (vectorResize self.m_joints m.mesh_count none)).1 } m) i e he
    exact ⟨e1, b, he1, hb1.trans hb, ha, hmass, hin⟩
  · intro i hi
    have hj := createJoints_at alloc s (p.body s.m_linkBody)
      (createElements consts alloc s m
        ((s.m_rootWeight - s.m_tailWeight) / (m.mesh_count : ℚ)) m.mesh_count 0
        s.m_rootWeight
        (vectorResize ([] : List HairElement) m.mesh_count HairElement.empty)).1
      m.mesh_count 0 (vectorResize self.m_joints m.mesh_count none) i hi
      (by rw [vectorResize_length]; omega)
    rw [Nat.zero_add] at hj
    obtain ⟨hja, hjb, hj0, hjn⟩ := makeJoint_links alloc s (p.body s.m_linkBody)
      (createElements consts alloc s m
        ((s.m_rootWeight - s.m_tailWeight) / (m.mesh_count : ℚ)) m.mesh_count 0
        s.m_rootWeight
        (vectorResize ([] : List HairElement) m.mesh_count HairElement.empty)).1 i
    obtain ⟨e, b, he, hb, ha, _, _⟩ := hat i hi
    refine ⟨_, hj, hja, ?_, hj0, ?_⟩
    · rw [hjb, elementBody_of_getElem _ i e b he hb, ha]
    · intro hi0
      obtain ⟨e', b', he', hb', ha', _, _⟩ := hat (i - 1) (by omega)
      rw [hjn hi0, elementBody_of_getElem _ (i - 1) e' b' he' hb', ha']

/-! ### Hair construction: parity and weights -/

/-- C15: after a successful `Hair::create` on a model of `N` meshes, `N` is at least 1,
the hair has `N` elements and `N` joints; the world operations are exactly the `N`
bodies of the elements added in order followed by the `N` constraints added in
order; joint 0 links the parent entity's body for the link bone to the body of
element 0, joint `i` for `1 ≤ i < N` links the body of element `i - 1` to the body
of element `i`; the root index is 0 and the tail index is `N - 1`. -/
theorem hair_element_joint_parity (consts : HairConsts) (alloc : HairAlloc)
    (models : Nat → Option skeletal_model_s) (tex_count : Nat) (self : Hair)
    (s : HairSetup) (p : Entity) (m : skeletal_model_s)
    (hm : models s.m_model = some m)
    (htrue : (Hair.create consts alloc models tex_count self (some s) (some p)).1 = true) :
    1 ≤ m.mesh_count ∧
    (Hair.create consts alloc models tex_count self (some s) (some p)).2.1.m_elements.length =
      m.mesh_count ∧
    (Hair.create consts alloc models tex_count self (some s) (some p)).2.1.m_joints.length =
      m.mesh_count ∧
    (Hair.create consts alloc models tex_count self (some s) (some p)).2.2 =
      (List.range m.mesh_count).map (fun i =>
        PhysicsOp.addRigidBody (alloc.body i) consts.COLLISION_GROUP_CHARACTERS
          consts.COLLISION_GROUP_KINEMATIC) ++
      (List.range m.mesh_count).map (fun i => PhysicsOp.addConstraint (alloc.joint i) true) ∧
    (∀ i, i < m.mesh_count →
      elementBody
        (Hair.create consts alloc models tex_count self (some s) (some p)).2.1.m_elements i =
          some (alloc.body i)) ∧
    (∃ j0 b, (Hair.create consts alloc models tex_count self (some s) (some p)).2.1.m_joints[0]? =
        some (some j0) ∧ p.body s.m_linkBody = some b ∧ j0.rbA = some b ∧
      j0.rbB = elementBody
        (Hair.create consts alloc models tex_count self (some s) (some p)).2.1.m_elements 0) ∧
    (∀ i, 1 ≤ i → i < m.mesh_count →
      ∃ j, (Hair.create consts alloc models tex_count self (some s) (some p)).2.1.m_joints[i]? =
          some (some j) ∧
        j.rbA = elementBody
          (Hair.create consts alloc models tex_count self (some s) (some p)).2.1.m_elements
          (i - 1) ∧
        j.rbB = elementBody
          (Hair.create consts alloc models tex_count self (some s) (some p)).2.1.m_elements i) ∧
    (Hair.create consts alloc models tex_count self (some s) (some p)).2.1.m_rootIndex = 0 ∧
    (Hair.create consts alloc models tex_count self (some s) (some p)).2.1.m_tailIndex =
      m.mesh_count - 1 := by
  obtain ⟨hlink, hbody, m', hm', hcount⟩ :=
    Hair.create_true_preconditions consts alloc models tex_count self s p htrue
  rw [hm] at hm'
  cases hm'
  obtain ⟨_, hel, hjl, hroot, htail, hops, helems, hjoints⟩ :=
    Hair.create_built consts alloc models tex_count self s p m hlink hbody hm hcount _ rfl
  have hbodies : ∀ i, i < m.mesh_count →
      elementBody
        (Hair.create consts alloc models tex_count self (some s) (some p)).2.1.m_elements i =
          some (alloc.body i) := by
    intro i hi
    obtain ⟨e, b, he, hb, ha, _, _⟩ := helems i hi
    rw [elementBody_of_getElem _ i e b he hb, ha]
  have hpos : 1 ≤ m.mesh_count := Nat.one_le_iff_ne_zero.mpr hcount
  refine ⟨hpos, hel, hjl, hops, hbodies, ?_, ?_, hroot, htail⟩
  · obtain ⟨j, hj, _, hjb, hja, _⟩ := hjoints 0 hpos
    cases hpb : p.body s.m_linkBody with
    | none => exact absurd hpb hbody
    | some b =>
      refine ⟨j, b, hj, rfl, ?_, ?_⟩
      · rw [hja rfl, hpb]
      · rw [hjb, hbodies 0 hpos]
  · intro i hi1 hi
    obtain ⟨j, hj, _, hjb, _, hja⟩ := hjoints i hi
    refine ⟨j, hj, ?_, ?_⟩
    · rw [hja (by omega), hbodies (i - 1) (by omega)]
    · rw [hjb, hbodies i hi]

/-- Witness for C15: the hair of two parts linked to bone 1 of the owner has two
elements and two joints; joint 0 links the owner's body 11 to the body of element
0, joint 1 links the body of element 0 to the body of element 1; the tail index
is 1. -/
theorem hair_element_joint_parity_witness :
    (Hair.create hairConsts hairAlloc hairModels 4 Hair.fresh (some hairSetup)
      (some hairOwner)).2.1.m_elements.length = 2 ∧
    (Hair.create hairConsts hairAlloc hairModels 4 Hair.fresh (some hairSetup)
      (some hairOwner)).2.1.m_joints.length = 2 ∧
    (Hair.create hairConsts hairAlloc hairModels 4 Hair.fresh (some hairSetup)
      (some hairOwner)).2.2 =
      [PhysicsOp.addRigidBody 100 4 8, PhysicsOp.addRigidBody 101 4 8,
        PhysicsOp.addConstraint 200 true, PhysicsOp.addConstraint 201 true] ∧
    (Hair.create hairConsts hairAlloc hairModels 4 Hair.fresh (some hairSetup)
      (some hairOwner)).2.1.m_tailIndex = 1 ∧
    (∃ j0, (Hair.create hairConsts hairAlloc hairModels 4 Hair.fresh (some hairSetup)
        (some hairOwner)).2.1.m_joints[0]? = some (some j0) ∧
      j0.rbA = some 11 ∧ j0.rbB = some 100) ∧
    (∃ j1, (Hair.create hairConsts hairAlloc hairModels 4 Hair.fresh (some hairSetup)
        (some hairOwner)).2.1.m_joints[1]? = some (some j1) ∧
      j1.rbA = some 100 ∧ j1.rbB = some 101) := by
  have h := hair_element_joint_parity hairConsts hairAlloc hairModels 4 Hair.fresh hairSetup
    hairOwner hairModel rfl rfl
  obtain ⟨_, hel, hjl, hops, hbodies, ⟨j0, b, hj0, hpb, ha0, hb0⟩, hjoints, _, htail⟩ := h
  refine ⟨hel, hjl, hops, htail, ⟨j0, hj0, ?_, ?_⟩, ?_⟩
  · have hb : b = 11 := (Option.some.inj hpb).symm
    rw [ha0, hb]
  · rw [hb0]
    exact hbodies 0 (by decide)
  · obtain ⟨j1, hj1, ha1, hb1⟩ := hjoints 1 (by decide) (by decide)
    refine ⟨j1, hj1, ?_, ?_⟩
    · rw [ha1]
      exact hbodies 0 (by decide)
    · rw [hb1]
      exact hbodies 1 (by decide)

/-- C16, as the code has it: for the hair of two parts with root weight 10 and tail
weight 4, the weight step is 3; the body of element 0 is given the mass 7, not the
root weight 10, and the body of element 1 the mass 4, not 7: the weight is decreased
(hair.cpp 73) between its use for the local inertia, which is computed from 10 and
from 7, and its use as the mass of the body (hair.cpp 82). -/
theorem hair_mass_one_step_light :
    ∃ e0 b0 e1 b1,
      (Hair.create hairConsts hairAlloc hairModels 4 Hair.fresh (some hairSetup)
        (some hairOwner)).2.1.m_elements[0]? = some e0 ∧ e0.body = some b0 ∧
      (Hair.create hairConsts hairAlloc hairModels 4 Hair.fresh (some hairSetup)
        (some hairOwner)).2.1.m_elements[1]? = some e1 ∧ e1.body = some b1 ∧
      b0.mass = 7 ∧ b0.inertiaMass = 10 ∧ b1.mass = 4 ∧ b1.inertiaMass = 7 := by
  obtain ⟨_, _, _, _, _, _, helems, _⟩ :=
    Hair.create_built hairConsts hairAlloc hairModels 4 Hair.fresh hairSetup hairOwner
      hairModel (by decide) (by decide) rfl (by decide) _ rfl
  obtain ⟨e0, b0, he0, hb0, _, hm0, hi0⟩ := helems 0 (by decide)
  obtain ⟨e1, b1, he1, hb1, _, hm1, hi1⟩ := helems 1 (by decide)
  refine ⟨e0, b0, e1, b1, he0, hb0, he1, hb1, ?_, ?_, ?_, ?_⟩
  · rw [hm0]
    norm_num [hairSetup, hairModel]
  · rw [hi0]
    norm_num [hairSetup, hairModel]
  · rw [hm1]
    norm_num [hairSetup, hairModel]
  · rw [hi1]
    norm_num [hairSetup, hairModel]

/-- C17: after a successful `Hair::create` with root weight above tail weight on a
model of `N` meshes, the mass of the body of element `i + 1` is strictly below the
mass of the body of element `i` for every `i` with `i + 1 < N`; for `N = 1` the hair
has a single element, hence a single weight. -/
theorem hair_weight_decreasing (consts : HairConsts) (alloc : HairAlloc)
    (models : Nat → Option skeletal_model_s) (tex_count : Nat) (self : Hair)
    (s : HairSetup) (p : Entity) (m : skeletal_model_s)
    (hm : models s.m_model = some m)
    (htrue : (Hair.create consts alloc models tex_count self (some s) (some p)).1 = true)
    (hweights : s.m_rootWeight > s.m_tailWeight) :
    (∀ i, i + 1 < m.mesh_count →
      ∃ e1 b1 e2 b2,
        (Hair.create consts alloc models tex_count self (some s) (some p)).2.1.m_elements[i]? =
          some e1 ∧ e1.body = some b1 ∧
        (Hair.create consts alloc models tex_count self (some s)
          (some p)).2.1.m_elements[i + 1]? = some e2 ∧ e2.body = some b2 ∧
        b2.mass < b1.mass) ∧
    (m.mesh_count = 1 →
      (Hair.create consts alloc models tex_count self (some s)
        (some p)).2.1.m_elements.length = 1) := by
  obtain ⟨hlink, hbody, m', hm', hcount⟩ :=
    Hair.create_true_preconditions consts alloc models tex_count self s p htrue
  rw [hm] at hm'
  cases hm'
  obtain ⟨_, hel, _, _, _, _, helems, _⟩ :=
    Hair.create_built consts alloc models tex_count self s p m hlink hbody hm hcount _ rfl
  constructor
  · intro i hi
    obtain ⟨e1, b1, he1, hb1, _, hm1, _⟩ := helems i (by omega)
    obtain ⟨e2, b2, he2, hb2, _, hm2, _⟩ := helems (i + 1) hi
    refine ⟨e1, b1, e2, b2, he1, hb1, he2, hb2, ?_⟩
    have hN : (0 : ℚ) < (m.mesh_count : ℚ) := by
      exact_mod_cast Nat.pos_of_ne_zero hcount
    have hstep : 0 < (s.m_rootWeight - s.m_tailWeight) / (m.mesh_count : ℚ) :=
      div_pos (sub_pos.mpr hweights) hN
    rw [hm1, hm2]
    push_cast
    linarith
  · intro h1
    rw [hel, h1]

/-- Witness for C17: in the hair of two parts with root weight 10 and tail weight 4,
the body of element 1 is lighter than the body of element 0. -/
theorem hair_weight_decreasing_witness :
    ∃ e1 b1 e2 b2,
      (Hair.create hairConsts hairAlloc hairModels 4 Hair.fresh (some hairSetup)
        (some hairOwner)).2.1.m_elements[0]? = some e1 ∧ e1.body = some b1 ∧
      (Hair.create hairConsts hairAlloc hairModels 4 Hair.fresh (some hairSetup)
        (some hairOwner)).2.1.m_elements[0 + 1]? = some e2 ∧ e2.body = some b2 ∧
      b2.mass < b1.mass :=
  (hair_weight_decreasing hairConsts hairAlloc hairModels 4 Hair.fresh hairSetup hairOwner
    hairModel rfl rfl (by norm_num [hairSetup])).1 0 (by decide)

/-! ### Hair destruction -/

/-- The constraints removed by the destructor: the non-null joints, in order. -/
theorem removeJoints_eq (joints : List (Option btGeneric6DofConstraint)) :
    removeJoints joints =
      (joints.filterMap (fun j => j.map (fun j => j.address))).map
        PhysicsOp.removeConstraint := by
  induction joints with
  | nil => rfl
  | cons j rest ih =>
    cases j with
    | none => simpa [removeJoints] using ih
    | some j => simp [removeJoints, ih]

/-- The bodies removed by the destructor: the non-null bodies, in order, each after
its user pointer was cleared. -/
theorem removeBodies_eq (elems : List HairElement) :
    removeBodies elems =
      (elems.filterMap (fun e => e.body.map (fun b => b.address))).flatMap
        (fun b => [PhysicsOp.setUserPointer b none, PhysicsOp.removeRigidBody b]) := by
  induction elems with
  | nil => rfl
  | cons e rest ih =>
    cases hb : e.body with
    | none => simp [removeBodies, hb, ih]
    | some b => simp [removeBodies, hb, ih]

/-- A list is the image of `0, ..., N - 1` when it is so entry by entry. -/
theorem eq_map_range_of_getElem {α : Type} (l : List α) (N : Nat) (f : Nat → α)
    (hlen : l.length = N) (h : ∀ i, i < N → l[i]? = some (f i)) :
    l = (List.range N).map f := by
  apply List.ext_getElem?
  intro i
  by_cases hi : i < N
  · rw [h i hi]
    simp [hi]
  · have h1 : l[i]? = none := List.getElem?_eq_none (by omega)
    have h2 : ((List.range N).map f)[i]? = none :=
      List.getElem?_eq_none (by rw [List.length_map, List.length_range]; omega)
    rw [h1, h2]

/-- The entries selected by `filterMap`, when every entry is selected. -/
theorem filterMap_eq_map_range {α β : Type} (l : List α) (g : α → Option β) (N : Nat)
    (f : Nat → β) (hlen : l.length = N) (h : ∀ i, i < N → ∃ x, l[i]? = some x ∧ g x = some (f i)) :
    l.filterMap g = (List.range N).map f := by
  have hmap : l.map g = (List.range N).map (fun i => some (f i)) := by
    apply eq_map_range_of_getElem
    · rw [List.length_map, hlen]
    · intro i hi
      obtain ⟨x, hx, hg⟩ := h i hi
      rw [List.getElem?_map, hx]
      simp [hg]
  have hfm : l.filterMap g = (l.map g).filterMap id := by
    rw [List.filterMap_map]
    rfl
  rw [hfm, hmap, List.filterMap_map]
  exact congrFun (List.filterMap_eq_map f) (List.range N)

/-- The destructor's operations on a list of addresses: what is removed. -/
theorem teardown_removed (joints : List JointPtr) (bodies : List BodyPtr) :
    (joints.map PhysicsOp.removeConstraint ++
      bodies.flatMap (fun b => [PhysicsOp.setUserPointer b none,
        PhysicsOp.removeRigidBody b])).filterMap PhysicsOp.removedJoint = joints ∧
    (joints.map PhysicsOp.removeConstraint ++
      bodies.flatMap (fun b => [PhysicsOp.setUserPointer b none,
        PhysicsOp.removeRigidBody b])).filterMap PhysicsOp.removedBody = bodies := by
  have h1 : ∀ js : List JointPtr,
      (js.map PhysicsOp.removeConstraint).filterMap PhysicsOp.removedJoint = js := by
    intro js
    induction js with
    | nil => rfl
    | cons j rest ih => simp [PhysicsOp.removedJoint, ih]
  have h2 : ∀ js : List JointPtr,
      (js.map PhysicsOp.removeConstraint).filterMap PhysicsOp.removedBody = [] := by
    intro js
    induction js with
    | nil => rfl
    | cons j rest ih => simp [PhysicsOp.removedBody, ih]
  have h3 : ∀ bs : List BodyPtr,
      (bs.flatMap (fun b => [PhysicsOp.setUserPointer b none,
        PhysicsOp.removeRigidBody b])).filterMap PhysicsOp.removedJoint = [] := by
    intro bs
    induction bs with
    | nil => rfl
    | cons b rest ih =>
      rw [List.flatMap_cons, List.filterMap_append, ih]
      rfl
  have h4 : ∀ bs : List BodyPtr,
      (bs.flatMap (fun b => [PhysicsOp.setUserPointer b none,
        PhysicsOp.removeRigidBody b])).filterMap PhysicsOp.removedBody = bs := by
    intro bs
    induction bs with
    | nil => rfl
    | cons b rest ih =>
      rw [List.flatMap_cons, List.filterMap_append, ih]
      rfl
  constructor
  · rw [List.filterMap_append, h1, h3, List.append_nil]
  · rw [List.filterMap_append, h2, h4, List.nil_append]

/-- The operations of a successful `Hair::create`, given by addresses: what is
added. -/
theorem buildup_added (bodies : List BodyPtr) (joints : List JointPtr) (g k : Nat) :
    (bodies.map (fun b => PhysicsOp.addRigidBody b g k) ++
      joints.map (fun j => PhysicsOp.addConstraint j true)).filterMap
        PhysicsOp.addedJoint = joints ∧
    (bodies.map (fun b => PhysicsOp.addRigidBody b g k) ++
      joints.map (fun j => PhysicsOp.addConstraint j true)).filterMap
        PhysicsOp.addedBody = bodies := by
  have h1 : ∀ bs : List BodyPtr,
      (bs.map (fun b => PhysicsOp.addRigidBody b g k)).filterMap PhysicsOp.addedJoint = [] := by
    intro bs
    induction bs with
    | nil => rfl
    | cons b rest ih => simp [PhysicsOp.addedJoint, ih]
  have h2 : ∀ bs : List BodyPtr,
      (bs.map (fun b => PhysicsOp.addRigidBody b g k)).filterMap PhysicsOp.addedBody = bs := by
    intro bs
    induction bs with
    | nil => rfl
    | cons b rest ih => simp [PhysicsOp.addedBody, ih]
  have h3 : ∀ js : List JointPtr,
      (js.map (fun j => PhysicsOp.addConstraint j true)).filterMap PhysicsOp.addedJoint =
        js := by
    intro js
    induction js with
    | nil => rfl
    | cons j rest ih => simp [PhysicsOp.addedJoint, ih]
  have h4 : ∀ js : List JointPtr,
      (js.map (fun j => PhysicsOp.addConstraint j true)).filterMap PhysicsOp.addedBody =
        [] := by
    intro js
    induction js with
    | nil => rfl
    | cons j rest ih => simp [PhysicsOp.addedBody, ih]
  constructor
  · rw [List.filterMap_append, h1, h3, List.nil_append]
  · rw [List.filterMap_append, h2, h4, List.append_nil]

/-- C18: for every `Hair` instance the destructor's operations are, in this order, a
`removeConstraint` for each non-null joint and then, for each element with a
non-null body, `setUserPointer(nullptr)` on that body followed by `removeRigidBody`
of it; so every `removeConstraint` precedes every `removeRigidBody` and each body's
user pointer is cleared right before the body is removed. After a successful
`Hair::create` on a model of `N` meshes the destructor removes exactly the `N`
constraints and the `N` bodies that `create` added. -/
theorem ordered_teardown :
    (∀ h : Hair, h.destroy =
      (h.m_joints.filterMap (fun j => j.map (fun j => j.address))).map
        PhysicsOp.removeConstraint ++
      (h.m_elements.filterMap (fun e => e.body.map (fun b => b.address))).flatMap
        (fun b => [PhysicsOp.setUserPointer b none, PhysicsOp.removeRigidBody b])) ∧
    (∀ (consts : HairConsts) (alloc : HairAlloc) (models : Nat → Option skeletal_model_s)
      (tex_count : Nat) (self : Hair) (s : HairSetup) (p : Entity) (m : skeletal_model_s),
      models s.m_model = some m →
      (Hair.create consts alloc models tex_count self (some s) (some p)).1 = true →
      (Hair.create consts alloc models tex_count self (some s)
          (some p)).2.1.destroy.filterMap PhysicsOp.removedJoint =
        (Hair.create consts alloc models tex_count self (some s)
          (some p)).2.2.filterMap PhysicsOp.addedJoint ∧
      (Hair.create consts alloc models tex_count self (some s)
          (some p)).2.1.destroy.filterMap PhysicsOp.removedBody =
        (Hair.create consts alloc models tex_count self (some s)
          (some p)).2.2.filterMap PhysicsOp.addedBody ∧
      ((Hair.create consts alloc models tex_count self (some s)
          (some p)).2.2.filterMap PhysicsOp.addedJoint).length = m.mesh_count ∧
      ((Hair.create consts alloc models tex_count self (some s)
          (some p)).2.2.filterMap PhysicsOp.addedBody).length = m.mesh_count) := by
  have hform : ∀ h : Hair, h.destroy =
      (h.m_joints.filterMap (fun j => j.map (fun j => j.address))).map
        PhysicsOp.removeConstraint ++
      (h.m_elements.filterMap (fun e => e.body.map (fun b => b.address))).flatMap
        (fun b => [PhysicsOp.setUserPointer b none, PhysicsOp.removeRigidBody b]) := by
    intro h
    unfold Hair.destroy
    rw [removeJoints_eq, removeBodies_eq]
  refine ⟨hform, ?_⟩
  intro consts alloc models tex_count self s p m hm htrue
  obtain ⟨hlink, hbody, m', hm', hcount⟩ :=
    Hair.create_true_preconditions consts alloc models tex_count self s p htrue
  rw [hm] at hm'
  cases hm'
  obtain ⟨_, hel, hjl, _, _, hops, helems, hjoints⟩ :=
    Hair.create_built consts alloc models tex_count self s p m hlink hbody hm hcount _ rfl
  have hjs := filterMap_eq_map_range _ (fun j : Option btGeneric6DofConstraint =>
      j.map (fun j => j.address)) m.mesh_count alloc.joint hjl
    (fun i hi => by
      obtain ⟨j, hj, ha, _⟩ := hjoints i hi
      exact ⟨some j, hj, by simp [ha]⟩)
  have hbs := filterMap_eq_map_range _ (fun e : HairElement =>
      e.body.map (fun b => b.address)) m.mesh_count alloc.body hel
    (fun i hi => by
      obtain ⟨e, b, he, hb, ha, _⟩ := helems i hi
      exact ⟨e, he, by simp [hb, ha]⟩)
  have hadded : (Hair.create consts alloc models tex_count self (some s) (some p)).2.2 =
      ((List.range m.mesh_count).map alloc.body).map (fun b =>
        PhysicsOp.addRigidBody b consts.COLLISION_GROUP_CHARACTERS
          consts.COLLISION_GROUP_KINEMATIC) ++
      ((List.range m.mesh_count).map alloc.joint).map (fun j =>
        PhysicsOp.addConstraint j true) := by
    rw [hops, List.map_map, List.map_map]
    rfl
  obtain ⟨hrj, hrb⟩ := teardown_removed ((List.range m.mesh_count).map alloc.joint)
    ((List.range m.mesh_count).map alloc.body)
  obtain ⟨haj, hab⟩ := buildup_added ((List.range m.mesh_count).map alloc.body)
    ((List.range m.mesh_count).map alloc.joint) consts.COLLISION_GROUP_CHARACTERS
    consts.COLLISION_GROUP_KINEMATIC
  rw [hform, hjs, hbs, hadded, hrj, hrb, haj, hab]
  simp

/-- Witness for C18: destroying the hair of two parts removes the constraints 200 and
201 and then the bodies 100 and 101, each after its user pointer was cleared; these
are the constraints and bodies its creation added. -/
theorem ordered_teardown_witness :
    (Hair.create hairConsts hairAlloc hairModels 4 Hair.fresh (some hairSetup)
      (some hairOwner)).2.1.destroy.filterMap PhysicsOp.removedJoint = [200, 201] ∧
    (Hair.create hairConsts hairAlloc hairModels 4 Hair.fresh (some hairSetup)
      (some hairOwner)).2.1.destroy.filterMap PhysicsOp.removedBody = [100, 101] := by
  have h := ordered_teardown.2 hairConsts hairAlloc hairModels 4 Hair.fresh hairSetup
    hairOwner hairModel rfl rfl
  exact ⟨h.1.trans (by decide), h.2.1.trans (by decide)⟩

/-! ### Moving entities -/

/-- C21, as the code has it: a kinematic rigid body with a motion state whose
container is tagged 0x7FFF is not static, and the tick moves its container from
room 0 to room 10. -/
theorem kinematic_body_re_resolved :
    (kinematicBody 0).isKinematicObject = true ∧
    (kinematicBody 0).isStaticObject = false ∧
    (heapTagged 0).room = some 0 ∧
    (Engine_InternalTickCallback 0x7FFF findRoomShift [kinematicBody 0] heapTagged 0).room =
      some 10 := by
  decide

/-- C21, amended: let the container at `p` be carried by the object at index `i`
only. When that object is static, `Engine_InternalTickCallback` leaves the container
unchanged; when it is a kinematic rigid body that is not static, has a motion state
and a container tagged `OBJECT_BULLET_MISC`, the container's room is re-resolved as
for a dynamic body. -/
theorem tick_skips_static_only (M : Nat) (F : btVector3 → Option RoomPtr → Option RoomPtr)
    (objs : List btCollisionObject) (heap : ContainerHeap) (i : Nat)
    (obj : btCollisionObject) (p : ContainerPtr)
    (hi : objs[i]? = some obj) (hp : obj.getUserPointer = some p)
    (huniq : ∀ j o, j ≠ i → objs[j]? = some o → o.getUserPointer ≠ some p) :
    (obj.isStaticObject = true → Engine_InternalTickCallback M F objs heap p = heap p) ∧
    (∀ t, (btRigidBody.upcast obj).isSome = true → obj.isKinematicObject = true →
        obj.isStaticObject = false → obj.getMotionState = some t →
        (heap p).object_type = M →
        (Engine_InternalTickCallback M F objs heap p).room = F t.m_origin (heap p).room) := by
  have hlt : i < objs.length := by
    rcases Nat.lt_or_ge i objs.length with h | h
    · exact h
    · rw [List.getElem?_eq_none h] at hi
      cases hi
  have hloop : Engine_InternalTickCallback M F objs heap p = tickObject M F heap obj p :=
    tickLoop_at M F objs i obj p hi hp huniq objs.length heap hlt
  rw [hloop]
  obtain ⟨hdyn, hskip⟩ := tickObject_self M F heap obj p hp
  exact ⟨fun hst => hskip (Or.inr (Or.inl hst)),
    fun t hrb _ hst hms hty => hdyn t hrb hst hms hty⟩

/-- Witness for C21 amended: in a world of a static and a kinematic body, both with
containers tagged 0x7FFF, the tick leaves the container of the static body alone and
moves the container of the kinematic body from room 0 to room 10. -/
theorem tick_skips_static_only_witness :
    Engine_InternalTickCallback 0x7FFF findRoomShift [kinematicBody 0, staticBody 1]
      heapTagged 1 = heapTagged 1 ∧
    (Engine_InternalTickCallback 0x7FFF findRoomShift [kinematicBody 0, staticBody 1]
      heapTagged 0).room = some 10 := by
  constructor
  · refine (tick_skips_static_only 0x7FFF findRoomShift [kinematicBody 0, staticBody 1]
      heapTagged 1 (staticBody 1) 1 rfl rfl ?_).1 rfl
    intro j o hj ho
    match j, hj, ho with
    | 0, _, ho => simp at ho; subst ho; decide
    | 1, hj, _ => exact absurd rfl hj
    | j + 2, _, ho => simp at ho
  · refine (tick_skips_static_only 0x7FFF findRoomShift [kinematicBody 0, staticBody 1]
      heapTagged 0 (kinematicBody 0) 0 rfl rfl ?_).2 _ rfl rfl rfl rfl rfl
    intro j o hj ho
    match j, hj, ho with
    | 0, hj, _ => exact absurd rfl hj
    | 1, _, ho => simp at ho; subst ho; decide
    | j + 2, _, ho => simp at ho

/-! ### Collision filtering: order of the proxies -/

/-- C25: when the near-room relation is symmetric, `Engine_RoomNearCallback` takes the
same decision on a pair and on the pair with its two proxies exchanged. -/
theorem near_callback_symmetric (near : RoomPtr → RoomPtr → Bool)
    (hsym : ∀ a b, near a b = near b a) (heap : ContainerHeap)
    (obj0 obj1 : btCollisionObject) :
    Engine_RoomNearCallback near heap obj0 obj1 =
      Engine_RoomNearCallback near heap obj1 obj0 := by
  unfold Engine_RoomNearCallback
  cases h0 : obj0.getUserPointer with
  | none =>
    cases h1 : obj1.getUserPointer with
    | none => simp [containerRoom]
    | some q =>
      cases hq : (heap q).room <;> simp [containerRoom, hq]
  | some p =>
    cases h1 : obj1.getUserPointer with
    | none =>
      cases hp : (heap p).room <;> simp [containerRoom, hp]
    | some q =>
      by_cases hpq : p = q
      · subst hpq
        simp [Bool.or_comm]
      · have hqp : ¬ q = p := fun h => hpq h.symm
        cases hp : (heap p).room <;> cases hq : (heap q).room <;>
          simp [containerRoom, hp, hq, hpq, hqp, hsym]

/-- The near-room relation of the three-room level is symmetric. -/
theorem nearRooms012_symm (a b : Nat) : nearRooms012 a b = nearRooms012 b a := by
  rw [Bool.eq_iff_iff]
  simp only [nearRooms012, Bool.or_eq_true, Bool.and_eq_true, beq_iff_eq]
  constructor <;>
    rintro ((((h | ⟨h1, h2⟩) | ⟨h1, h2⟩) | ⟨h1, h2⟩) | ⟨h1, h2⟩) <;> simp_all

/-- Witness for C25: in the three-room level the bodies in rooms 0 and 2 are rejected
in either order. -/
theorem near_callback_symmetric_witness :
    Engine_RoomNearCallback nearRooms012 heap012 (dynamicBody 0) (dynamicBody 2) =
      Engine_RoomNearCallback nearRooms012 heap012 (dynamicBody 2) (dynamicBody 0) :=
  near_callback_symmetric nearRooms012 nearRooms012_symm heap012 (dynamicBody 0)
    (dynamicBody 2)

/-! ### Hair construction: masses stay positive -/

/-- C26: after a successful `Hair::create` with positive root weight and positive tail
weight on a model of `N` meshes, the body of every element has a mass that is
strictly positive and lies between the smaller and the larger of the two weights,
both included; so no hair body is created with mass zero. -/
theorem hair_mass_positive (consts : HairConsts) (alloc : HairAlloc)
    (models : Nat → Option skeletal_model_s) (tex_count : Nat) (self : Hair)
    (s : HairSetup) (p : Entity) (m : skeletal_model_s)
    (hm : models s.m_model = some m)
    (htrue : (Hair.create consts alloc models tex_count self (some s) (some p)).1 = true)
    (hroot : 0 < s.m_rootWeight) (htail : 0 < s.m_tailWeight) :
    ∀ i, i < m.mesh_count →
      ∃ e b,
        (Hair.create consts alloc models tex_count self (some s) (some p)).2.1.m_elements[i]? =
          some e ∧ e.body = some b ∧
        0 < b.mass ∧ min s.m_rootWeight s.m_tailWeight ≤ b.mass ∧
        b.mass ≤ max s.m_rootWeight s.m_tailWeight := by
  obtain ⟨hlink, hbody, m', hm', hcount⟩ :=
    Hair.create_true_preconditions consts alloc models tex_count self s p htrue
  rw [hm] at hm'
  cases hm'
  obtain ⟨_, _, _, _, _, _, helems, _⟩ :=
    Hair.create_built consts alloc models tex_count self s p m hlink hbody hm hcount _ rfl
  intro i hi
  obtain ⟨e, b, he, hb, _, hmass, _⟩ := helems i hi
  have hN : (0 : ℚ) < (m.mesh_count : ℚ) := by
    exact_mod_cast Nat.pos_of_ne_zero hcount
  have hc0 : (0 : ℚ) < (i : ℚ) + 1 := by positivity
  have hcN : (i : ℚ) + 1 ≤ (m.mesh_count : ℚ) := by
    exact_mod_cast hi
  have hNd : (m.mesh_count : ℚ) * ((s.m_rootWeight - s.m_tailWeight) / (m.mesh_count : ℚ)) =
      s.m_rootWeight - s.m_tailWeight := by
    field_simp
  have hbounds : min s.m_rootWeight s.m_tailWeight ≤ b.mass ∧
      b.mass ≤ max s.m_rootWeight s.m_tailWeight := by
    rw [hmass]
    rcases le_total s.m_tailWeight s.m_rootWeight with hle | hle
    · have hd : 0 ≤ (s.m_rootWeight - s.m_tailWeight) / (m.mesh_count : ℚ) :=
        div_nonneg (sub_nonneg.mpr hle) (le_of_lt hN)
      have h1 : ((i : ℚ) + 1) * ((s.m_rootWeight - s.m_tailWeight) / (m.mesh_count : ℚ)) ≤
          (m.mesh_count : ℚ) * ((s.m_rootWeight - s.m_tailWeight) / (m.mesh_count : ℚ)) :=
        mul_le_mul_of_nonneg_right hcN hd
      have h2 : 0 ≤ ((i : ℚ) + 1) *
          ((s.m_rootWeight - s.m_tailWeight) / (m.mesh_count : ℚ)) :=
        mul_nonneg (le_of_lt hc0) hd
      rw [min_eq_right hle, max_eq_left hle]
      constructor <;> linarith
    · have hd : (s.m_rootWeight - s.m_tailWeight) / (m.mesh_count : ℚ) ≤ 0 :=
        div_nonpos_of_nonpos_of_nonneg (sub_nonpos.mpr hle) (le_of_lt hN)
      have h1 : (m.mesh_count : ℚ) * ((s.m_rootWeight - s.m_tailWeight) / (m.mesh_count : ℚ)) ≤
          ((i : ℚ) + 1) * ((s.m_rootWeight - s.m_tailWeight) / (m.mesh_count : ℚ)) :=
        mul_le_mul_of_nonpos_right hcN hd
      have h2 : ((i : ℚ) + 1) *
          ((s.m_rootWeight - s.m_tailWeight) / (m.mesh_count : ℚ)) ≤ 0 :=
        mul_nonpos_of_nonneg_of_nonpos (le_of_lt hc0) hd
      rw [min_eq_left hle, max_eq_right hle]
      constructor <;> linarith
  refine ⟨e, b, he, hb, ?_, hbounds.1, hbounds.2⟩
  exact lt_of_lt_of_le (lt_min hroot htail) hbounds.1

/-- Witness for C26: in the hair of two parts with root weight 10 and tail weight 4
the body of element 0 has a positive mass between 4 and 10. -/
theorem hair_mass_positive_witness :
    ∃ e b,
      (Hair.create hairConsts hairAlloc hairModels 4 Hair.fresh (some hairSetup)
        (some hairOwner)).2.1.m_elements[0]? = some e ∧ e.body = some b ∧
      0 < b.mass ∧ min hairSetup.m_rootWeight hairSetup.m_tailWeight ≤ b.mass ∧
      b.mass ≤ max hairSetup.m_rootWeight hairSetup.m_tailWeight :=
  hair_mass_positive hairConsts hairAlloc hairModels 4 Hair.fresh hairSetup hairOwner
    hairModel rfl rfl (by norm_num [hairSetup]) (by norm_num [hairSetup]) 0 (by decide)

/-! ### Moving entities: the sink index -/

/-- A sink index equal to the number of sinks passes the guard of engine.cpp 1707 and
`cameras_sinks[sink_index]` is taken outside the vector. -/
theorem lua_MoveEntityToSink_at_size (TR_II : Nat) (btSqrt : ℚ → ℚ)
    (World_GetEntityByID : Int → Option EntityPtr) (version : Nat)
    (cameras_sinks : List StatCameraSink) (origins : EntityPtr → btVector3)
    (a1 a2 : LuaSlot) (rest : List LuaSlot)
    (hidx : toUint32 a2.tointeger = cameras_sinks.length) :
    lua_MoveEntityToSink TR_II btSqrt World_GetEntityByID version cameras_sinks origins
      (a1 :: a2 :: rest) = none := by
  simp only [lua_MoveEntityToSink]
  rw [if_neg (by omega), hidx, List.getElem?_eq_none (Nat.le_refl _)]

/-- C29, as the code has it: with one camera sink, the sink index 1 equals the number
of sinks, passes the guard `sink_index > size` and `cameras_sinks[1]` is accessed
outside the vector (the model yields no result); the index 2 is refused by the
guard and the origins stay as they are. -/
theorem sink_index_at_size_accessed :
    toUint32 1 = [sinkBelow].length ∧
    lua_MoveEntityToSink 3 sqrtFloor entityTable 6 [sinkBelow] originsSame
      [{ tointeger := 1, tonumber := 1 }, { tointeger := 1, tonumber := 1 }] = none ∧
    lua_MoveEntityToSink 3 sqrtFloor entityTable 6 [sinkBelow] originsSame
      [{ tointeger := 1, tonumber := 1 }, { tointeger := 2, tonumber := 2 }] =
        some originsSame :=
  ⟨rfl, rfl, rfl⟩

/-! ### The combined hair mesh: buffers -/

/-- The matrix index buffer of the combined mesh is allocated with no entry, whatever
the model is: its size is taken from the vertices of the new mesh before any vertex
is copied (hair.cpp 246). -/
theorem createHairMesh_matrix_indices_size (tex_count : Nat) (h : Hair)
    (model : skeletal_model_s) :
    ((h.createHairMesh tex_count model).m_mesh.map (fun mesh => mesh.matrix_indices_size)) =
      some 0 := by
  simp [Hair.createHairMesh]

/-- C27, as the code has it: for the hair model of two parts with two vertices each,
the matrix index buffer is allocated with 0 entries, and the copy loop writes the
entries 0 to 7 of it. -/
theorem matrix_index_writes_out_of_bounds :
    ((hairTwoElements.createHairMesh 4 hairModel).m_mesh.map
      (fun mesh => mesh.matrix_indices_size)) = some 0 ∧
    ((hairTwoElements.createHairMesh 4 hairModel).m_mesh.map
      (fun mesh => mesh.matrix_indices.map (fun w => w.1))) =
        some [0, 1, 2, 3, 4, 5, 6, 7] := by
  decide

/-- C24, as the code has it: for the model of two parts with two texture pages of one
element each, the combined element array has four entries, and the copy loop leaves
it as 1, 3, 0, 0: the page 1 elements are written over the page 0 elements, since
every page starts at entry 0. Concatenated page by page it would be 0, 2, 1, 3. -/
theorem combined_elements_overwritten :
    ((hairTwoElements.createHairMesh 4 twoPageModel).m_mesh.map
      (fun mesh => mesh.element_count_per_texture)) = some [2, 2, 0, 0] ∧
    ((hairTwoElements.createHairMesh 4 twoPageModel).m_mesh.map
      (fun mesh => mesh.elements)) = some [1, 3, 0, 0] := by
  decide

/-! ### Hair attachment -/

/-- The call of `Hair::create` through a null pointer returns false exactly when the
call on an object returns false, whatever the object is; when the call on an object
returns true, the call through the null pointer has no outcome. -/
theorem Hair.createThrough_null (consts : HairConsts) (alloc : HairAlloc)
    (models : Nat → Option skeletal_model_s) (tex_count : Nat) (self : Hair)
    (setup : Option HairSetup) (parent : Option Entity) :
    Hair.createThrough consts alloc models tex_count none setup parent =
      if (Hair.create consts alloc models tex_count self setup parent).1 = true then none
      else some (false, none, []) := by
  cases parent with
  | none => rfl
  | some p =>
    cases setup with
    | none => rfl
    | some s =>
      simp only [Hair.createThrough, Hair.create]
      by_cases hlink : s.m_linkBody ≥ p.bone_tag_count ∨ p.body s.m_linkBody = none
      · simp [hlink]
      · rw [if_neg hlink, if_neg hlink]
        cases models s.m_model with
        | none => simp
        | some m =>
          by_cases hcount : m.mesh_count = 0
          · simp [hcount]
          · simp [hcount]

/-- The outcome of `lua_AddCharacterHair` on a character whose setup loads: when
`Hair::create` returns false, the hair list of the character is the list before the
call followed by a null pointer, the other hair lists are as before and no world
operation is made; when the tests of `Hair::create` pass, the call has no outcome,
`create` being run on the null pointer. -/
theorem lua_AddCharacterHair_on_character (consts : HairConsts) (alloc : HairAlloc)
    (models : Nat → Option skeletal_model_s) (tex_count : Nat)
    (World_GetEntityByID : Int → Option EntityPtr) (IsCharacter : EntityPtr → Bool)
    (entities : EntityPtr → Entity) (getSetup : Nat → Bool × HairSetup)
    (m_hairs : EntityPtr → List (Option Hair)) (a1 a2 : Int) (ent : EntityPtr)
    (self : Hair)
    (hent : World_GetEntityByID (toInt32 a1) = some ent)
    (hchar : IsCharacter ent = true)
    (hsetup : (getSetup (toUint32 (toInt32 a2))).1 = true) :
    lua_AddCharacterHair consts alloc models tex_count World_GetEntityByID IsCharacter
        entities getSetup m_hairs [a1, a2] =
      if (Hair.create consts alloc models tex_count self
          (some (getSetup (toUint32 (toInt32 a2))).2) (some (entities ent))).1 = true then
        none
      else
        some (fun e => if e = ent then m_hairs ent ++ [none] else m_hairs e, []) := by
  simp only [lua_AddCharacterHair, hent, hchar, hsetup, List.getLastD_concat,
    Hair.createThrough_null consts alloc models tex_count self]
  by_cases hc : (Hair.create consts alloc models tex_count self
      (some (getSetup (toUint32 (toInt32 a2))).2) (some (entities ent))).1 = true
  · simp [hc]
  · simp [hc]

/-- C28, as the code has it: for a character without hair and a setup that loads but
whose link body index is out of range, `Hair::create` returns false, and after the
call the hair list of the character has one entry, a null pointer, where it had none
before; no world operation is made. With the setup whose link body exists the call
has no outcome, `create` being run on the null pointer. -/
theorem failed_hair_attach_null_entry :
    (Hair.create hairConsts hairAlloc hairModels 4 Hair.fresh (some hairSetupBadLink)
      (some hairOwner)).1 = false ∧
    (lua_AddCharacterHair hairConsts hairAlloc hairModels 4 entityTable (fun _ => true)
      (fun _ => hairOwner) (fun _ => (true, hairSetupBadLink)) (fun _ => [])
      [1, 0]).map (fun r => (r.1 1, r.2)) = some ([none], []) ∧
    lua_AddCharacterHair hairConsts hairAlloc hairModels 4 entityTable (fun _ => true)
      (fun _ => hairOwner) (fun _ => (true, hairSetup)) (fun _ => []) [1, 0] = none := by
  refine ⟨by decide, by decide, ?_⟩
  rfl

/-! ### Level names -/

/-- A character is a path separator exactly when the scan loop takes it for one. -/
theorem isPathSeparator_iff (c : Char) :
    isPathSeparator c = true ↔ (c = '\\' ∨ c = '/') := by
  simp [isPathSeparator]

/-- The last segment of a path that ends with a separator followed by characters
that are no separators. -/
theorem lastPathSegment_of_separator (pre suf : List Char) (c : Char)
    (hc : isPathSeparator c = true) (hsuf : ∀ x ∈ suf, isPathSeparator x = false) :
    lastPathSegment (pre ++ c :: suf) = suf := by
  unfold lastPathSegment
  have hrev : (pre ++ c :: suf).reverse = suf.reverse ++ (c :: pre.reverse) := by
    simp
  rw [hrev, List.takeWhile_append_of_pos, List.takeWhile_cons_of_neg]
  · simp
  · simp [hc]
  · intro a ha
    simp [hsuf a (List.mem_reverse.mp ha)]

/-- The last segment of a path without separators is the path. -/
theorem lastPathSegment_of_no_separator (path : List Char)
    (h : ∀ x ∈ path, isPathSeparator x = false) : lastPathSegment path = path := by
  unfold lastPathSegment
  have hall : path.reverse.takeWhile (fun c => !isPathSeparator c) = path.reverse := by
    rw [List.takeWhile_eq_self_iff]
    intro x hx
    simp [h x (List.mem_reverse.mp hx)]
  rw [hall, List.reverse_reverse]

/-- The last segment is not longer than the path. -/
theorem lastPathSegment_length_le (path : List Char) :
    (lastPathSegment path).length ≤ path.length := by
  unfold lastPathSegment
  rw [List.length_reverse]
  have h := (List.takeWhile_sublist (l := path.reverse)
    (fun c => !isPathSeparator c)).length_le
  rw [List.length_reverse] at h
  exact h

/-- The last segment is the end of the path. -/
theorem drop_lastPathSegment (path : List Char) :
    path.drop (path.length - (lastPathSegment path).length) = lastPathSegment path := by
  have key : ∀ pre seg : List Char,
      (pre ++ seg).drop ((pre ++ seg).length - seg.length) = seg := by
    intro pre seg
    rw [List.length_append, Nat.add_sub_cancel]
    exact List.drop_left _ _
  have hsplit : (path.reverse.dropWhile (fun c => !isPathSeparator c)).reverse ++
      lastPathSegment path = path := by
    unfold lastPathSegment
    rw [← List.reverse_append, List.takeWhile_append_dropWhile, List.reverse_reverse]
  have h := key (path.reverse.dropWhile (fun c => !isPathSeparator c)).reverse
    (lastPathSegment path)
  rw [hsplit] at h
  exact h

/-- The last segment holds no separator. -/
theorem lastPathSegment_no_separator (path : List Char) (x : Char)
    (hx : x ∈ lastPathSegment path) : isPathSeparator x = false := by
  unfold lastPathSegment at hx
  have h := List.mem_takeWhile_imp (List.mem_reverse.mp hx)
  simpa using h

/-- Taking as many entries as `takeWhile` keeps yields what `takeWhile` keeps. -/
theorem take_length_takeWhile {α : Type} (p : α → Bool) (l : List α) :
    l.take (l.takeWhile p).length = l.takeWhile p := by
  induction l with
  | nil => rfl
  | cons a rest ih =>
    by_cases ha : p a = true
    · rw [List.takeWhile_cons_of_pos ha, List.length_cons, List.take_succ_cons, ih]
    · rw [List.takeWhile_cons_of_neg ha]
      rfl

/-- The scan loop, entered at `k` with no separator from `k` on and with `ext` at the
first dot from `k` on (or at the end of the path), ends with `start` at the last
segment of the path and `ext` at the first dot of that segment (or at the end). -/
theorem levelPathScan_eq (path : List Char) (k : Nat) :
    ∀ ext : Nat, k ≤ path.length →
      (∀ x ∈ path.drop k, isPathSeparator x = false) →
      ext = k + ((path.drop k).takeWhile (fun c => c != '.')).length →
      levelPathScan path k ext =
        (path.length - (lastPathSegment path).length,
          path.length - (lastPathSegment path).length +
            ((lastPathSegment path).takeWhile (fun c => c != '.')).length) := by
  induction k with
  | zero =>
    intro ext _ hsep hext
    rw [List.drop_zero] at hsep hext
    rw [lastPathSegment_of_no_separator path hsep]
    simp only [levelPathScan, Nat.sub_self]
    rw [hext]
  | succ k ih =>
    intro ext hk hsep hext
    have hklt : k < path.length := hk
    have hget : path.getD k NUL = path[k] := List.getD_eq_getElem _ _ hklt
    have hdrop : path.drop k = path[k] :: path.drop (k + 1) := List.drop_eq_getElem_cons hklt
    simp only [levelPathScan, hget]
    by_cases hc : path[k] = '\\' ∨ path[k] = '/'
    · have hcsep : isPathSeparator path[k] = true := (isPathSeparator_iff _).mpr hc
      have hnotdot : ¬ path[k] = '.' := by
        intro h
        rw [h] at hcsep
        exact absurd hcsep (by decide)
      rw [if_pos hc, if_neg hnotdot]
      have hpath : path = path.take k ++ path[k] :: path.drop (k + 1) := by
        rw [← hdrop, List.take_append_drop]
      have hseg : lastPathSegment path = path.drop (k + 1) := by
        conv_lhs => rw [hpath]
        exact lastPathSegment_of_separator _ _ _ hcsep hsep
      have hstart : path.length - (path.drop (k + 1)).length = k + 1 := by
        rw [List.length_drop]
        omega
      rw [hseg, hstart, hext]
    · rw [if_neg hc]
      have hcsep : isPathSeparator path[k] = false := by
        cases h : isPathSeparator path[k] with
        | false => rfl
        | true => exact absurd ((isPathSeparator_iff _).mp h) hc
      apply ih _ (Nat.le_of_lt hklt)
      · intro x hx
        rw [hdrop] at hx
        rcases List.mem_cons.mp hx with h | h
        · rw [h]
          exact hcsep
        · exact hsep x h
      · rw [hdrop]
        by_cases hdot : path[k] = '.'
        · rw [if_pos hdot, List.takeWhile_cons_of_neg (by simp [hdot])]
          rfl
        · rw [if_neg hdot, List.takeWhile_cons_of_pos (by simp [hdot]), hext,
            List.length_cons]
          omega

/-- The copy loop, given enough passes, writes the characters from `i` up to `ext`,
at most `LEVEL_NAME_MAX_LEN - 1` of them counted from `start`. -/
theorem levelNameCopy_eq (M : Nat) (path : List Char) (start ext : Nat)
    (hext : ext ≤ path.length) (fuel : Nat) :
    ∀ i : Nat, start ≤ i → ext - i ≤ fuel →
      levelNameCopy M path start ext fuel i =
        ((path.drop i).take (ext - i)).take (M - 1 - (i - start)) := by
  induction fuel with
  | zero =>
    intro i _ hfuel
    have h0 : ext - i = 0 := Nat.le_zero.mp hfuel
    simp [levelNameCopy, h0]
  | succ fuel ih =>
    intro i hi hfuel
    simp only [levelNameCopy]
    by_cases hcond : i < ext ∧ (i : Int) - (start : Int) < (M : Int) - 1
    · rw [if_pos hcond]
      obtain ⟨hlt, hmax⟩ := hcond
      have hilen : i < path.length := Nat.lt_of_lt_of_le hlt hext
      have h1 : ext - i = (ext - (i + 1)) + 1 := by omega
      have h2 : M - 1 - (i - start) = (M - 1 - (i + 1 - start)) + 1 := by omega
      rw [ih (i + 1) (by omega) (by omega), List.drop_eq_getElem_cons hilen, h1, h2,
        List.take_succ_cons, List.take_succ_cons, List.getD_eq_getElem _ _ hilen]
    · rw [if_neg hcond]
      by_cases hlt : i < ext
      · have h2 : M - 1 - (i - start) = 0 := by
          have : ¬ ((i : Int) - (start : Int) < (M : Int) - 1) := fun h => hcond ⟨hlt, h⟩
          omega
        rw [h2, List.take_zero]
      · have h1 : ext - i = 0 := by omega
        rw [h1, List.take_zero, List.take_nil]

/-- The first pass of the scan loop reads the terminating NUL and changes nothing. -/
theorem levelPathScan_end (path : List Char) (ext : Nat) :
    levelPathScan path (path.length + 1) ext = levelPathScan path path.length ext := by
  have hnul : path.getD path.length NUL = NUL :=
    List.getD_eq_default _ _ (Nat.le_refl _)
  have h1 : ¬ (NUL = '.') := by decide
  have h2 : ¬ (NUL = '\\' ∨ NUL = '/') := by decide
  simp only [levelPathScan, hnul]
  rw [if_neg h1, if_neg h2]

/-- The code computes the level name of the specification. -/
theorem Engine_GetLevelName_eq_spec (M : Nat) (path : Option (List Char)) :
    Engine_GetLevelName M path = levelNameSpec M path := by
  cases path with
  | none => rfl
  | some p =>
    cases p with
    | nil => simp [Engine_GetLevelName, levelNameSpec, lastPathSegment]
    | cons c rest =>
      have hscan := levelPathScan_eq (c :: rest) (c :: rest).length (c :: rest).length
        (Nat.le_refl _) (by simp) (by simp)
      have hseg := lastPathSegment_length_le (c :: rest)
      have htw := (List.takeWhile_sublist (l := lastPathSegment (c :: rest))
        (fun c => c != '.')).length_le
      simp only [Engine_GetLevelName, levelNameSpec]
      rw [levelPathScan_end, hscan]
      rw [levelNameCopy_eq M (c :: rest) _ _ (by omega) (c :: rest).length _ (Nat.le_refl _)
        (by omega)]
      rw [drop_lastPathSegment, Nat.add_sub_cancel_left, Nat.sub_self, Nat.sub_zero,
        take_length_takeWhile]

/-- C30: for a positive `LEVEL_NAME_MAX_LEN`, the name written by `Engine_GetLevelName`
is empty for a null or empty path; for every path it is the segment that starts
after the last `/` or `\` (at the start of the path when there is none) and ends
before the first `.` of that segment (at the end of the path when there is none),
cut to `LEVEL_NAME_MAX_LEN - 1` characters; it holds no `/`, `\` or `.` and is
shorter than `LEVEL_NAME_MAX_LEN`. -/
theorem level_name_segment (M : Nat) (hM : 0 < M) (path : Option (List Char)) :
    ((path = none ∨ path = some []) → Engine_GetLevelName M path = []) ∧
    Engine_GetLevelName M path = levelNameSpec M path ∧
    (∀ c ∈ Engine_GetLevelName M path, c ≠ '/' ∧ c ≠ '\\' ∧ c ≠ '.') ∧
    (Engine_GetLevelName M path).length < M := by
  refine ⟨?_, Engine_GetLevelName_eq_spec M path, ?_, ?_⟩
  · rintro (h | h) <;> subst h <;> rfl
  · rw [Engine_GetLevelName_eq_spec]
    cases path with
    | none => intro c hc; cases hc
    | some p =>
      intro c hc
      simp only [levelNameSpec] at hc
      have h1 := List.mem_of_mem_take hc
      have hdot := List.mem_takeWhile_imp h1
      have hseg := lastPathSegment_no_separator p c
        ((List.takeWhile_sublist (fun c => c != '.')).subset h1)
      have hnot : ¬ (c = '\\' ∨ c = '/') := by
        intro h
        rw [(isPathSeparator_iff c).mpr h] at hseg
        cases hseg
      refine ⟨fun h => hnot (Or.inr h), fun h => hnot (Or.inl h), ?_⟩
      simpa using hdot
  · rw [Engine_GetLevelName_eq_spec]
    cases path with
    | none => exact hM
    | some p =>
      simp only [levelNameSpec]
      have h := List.length_take_le (M - 1)
        ((lastPathSegment p).takeWhile (fun c => c != '.'))
      omega

/-- Witness for C30: with `LEVEL_NAME_MAX_LEN` 64 the path `d.x/ab.c.d` gives the name
`ab`, and with `LEVEL_NAME_MAX_LEN` 3 the path `abcd` gives `ab`. -/
theorem level_name_segment_witness :
    Engine_GetLevelName 64 (some ['d', '.', 'x', '/', 'a', 'b', '.', 'c', '.', 'd']) =
      ['a', 'b'] ∧
    Engine_GetLevelName 3 (some ['a', 'b', 'c', 'd']) = ['a', 'b'] :=
  ⟨(level_name_segment 64 (by decide) _).2.1.trans (by decide),
    (level_name_segment 3 (by decide) _).2.1.trans (by decide)⟩

/-! ### The combined hair mesh: the vertex loop -/

/-- Writing the entry right after a prefix. -/
theorem set_append_cons {α : Type} (A : List α) (b x : α) (R : List α) :
    (A ++ b :: R).set A.length x = A ++ x :: R := by
  induction A with
  | nil => rfl
  | cons a rest ih => simp [ih]

/-- Reading the entry right after a prefix. -/
theorem getD_append_cons {α : Type} (A : List α) (b d : α) (R : List α) :
    (A ++ b :: R).getD A.length d = b := by
  induction A with
  | nil => rfl
  | cons a rest ih => simpa using ih

/-- The vertex loop translates the vertices it visits and no other. -/
theorem placeVertices_vertices (original : base_mesh_s) (N i vs : Nat) (pos : btVector3)
    (k : Nat) :
    ∀ (j : Nat) (A B C : List vertex_s) (W : List (Nat × Int)),
      A.length = vs + j → B.length = k →
      (placeVertices original N i vs pos k j (A ++ B ++ C, W)).1 =
        A ++ B.map (fun v => { position := v.position.add pos }) ++ C := by
  induction k with
  | zero =>
    intro j A B C W _ hB
    have hnil : B = [] := List.length_eq_zero.mp hB
    subst hnil
    rfl
  | succ k ih =>
    intro j A B C W hA hB
    cases B with
    | nil => cases hB
    | cons b rest =>
      simp only [placeVertices]
      have hshape : A ++ b :: rest ++ C = A ++ b :: (rest ++ C) := by simp
      rw [hshape, ← hA, getD_append_cons, set_append_cons]
      have hnext : A ++ ({ position := b.position.add pos } : vertex_s) :: (rest ++ C) =
          (A ++ [({ position := b.position.add pos } : vertex_s)]) ++ rest ++ C := by simp
      rw [hnext, ih (j + 1) _ rest C _ (by simp [hA]; omega)
        (Nat.succ.inj hB)]
      simp

/-- The vertex loop appends the matrix index writes of the vertices it visits. -/
theorem placeVertices_writes (original : base_mesh_s) (N i vs : Nat) (pos : btVector3)
    (k : Nat) :
    ∀ (j : Nat) (V : List vertex_s) (W : List (Nat × Int)),
      (placeVertices original N i vs pos k j (V, W)).2 =
        W ++ (List.range' j k).flatMap (fun jj => matrixIndexWrites original N i vs jj) := by
  induction k with
  | zero => intro j V W; simp [placeVertices]
  | succ k ih =>
    intro j V W
    simp only [placeVertices]
    rw [ih, List.range'_succ, List.flatMap_cons, List.append_assoc]

/-! ### The combined hair mesh: the loop over the parts -/

/-- One round of the copy loop on a part that exists: the vertices of the part are
appended, each translated by the position given to the element; the element gets the
offset of the part, added to the position of the element before it when there is
one; the matrix index writes of the part are appended. -/
theorem copyParts_step (model : skeletal_model_s) (k i : Nat) (st : HairMeshCopy)
    (part : mesh_tree_tag_s) (hpart : model.mesh_tree[i]? = some part) :
    ∃ st1 : HairMeshCopy,
      copyParts model (k + 1) i st = copyParts model k (i + 1) st1 ∧
      st1.m_elements = st.m_elements.set i
        { st.m_elements.getD i HairElement.empty with
          position :=
            if i > 0 then
              part.offset.add (st.m_elements.getD (i - 1) HairElement.empty).position
            else part.offset } ∧
      st1.vertices = st.vertices ++ part.mesh_base.vertices.map (fun v =>
        { position := v.position.add
            (if i > 0 then
              part.offset.add (st.m_elements.getD (i - 1) HairElement.empty).position
            else part.offset) }) ∧
      st1.matrix_indices = st.matrix_indices ++
        (List.range part.mesh_base.vertices.length).flatMap
          (fun j => matrixIndexWrites part.mesh_base model.mesh_count i st.vertices.length j) := by
  let position : btVector3 :=
    if i > 0 then part.offset.add (st.m_elements.getD (i - 1) HairElement.empty).position
    else part.offset
  let pages := copyPages part.mesh_base st.vertices.length part.mesh_base.num_texture_pages 0
    (st.elements, st.elementsStartPerTexture, 0)
  let placed := placeVertices part.mesh_base model.mesh_count i st.vertices.length position
    part.mesh_base.vertices.length 0 (st.vertices ++ part.mesh_base.vertices, st.matrix_indices)
  refine ⟨
    { vertices := placed.1, elements := pages.1, matrix_indices := placed.2,
      elementsStartPerTexture := pages.2.1,
      m_elements := st.m_elements.set i
        { st.m_elements.getD i HairElement.empty with position := position } },
    ?heq, rfl, ?hv, ?hw⟩
  case heq =>
    simp only [copyParts, hpart]
  case hv =>
    show (placeVertices part.mesh_base model.mesh_count i st.vertices.length
      (if i > 0 then
        part.offset.add (st.m_elements.getD (i - 1) HairElement.empty).position
      else part.offset) part.mesh_base.vertices.length 0
      (st.vertices ++ part.mesh_base.vertices, st.matrix_indices)).1 = _
    have h := placeVertices_vertices part.mesh_base model.mesh_count i st.vertices.length
      (if i > 0 then
        part.offset.add (st.m_elements.getD (i - 1) HairElement.empty).position
      else part.offset) part.mesh_base.vertices.length 0 st.vertices part.mesh_base.vertices []
      st.matrix_indices rfl rfl
    simpa using h
  case hw =>
    show placed.2 = _
    rw [placeVertices_writes, List.range_eq_range']

/-- A part inside the part table exists. -/
theorem mesh_tree_some (model : skeletal_model_s) (i : Nat) (h : i < model.mesh_tree.length) :
    ∃ part, model.mesh_tree[i]? = some part :=
  ⟨_, List.getElem?_eq_getElem h⟩

/-- The copy loop keeps the number of elements. -/
theorem copyParts_m_elements_length (model : skeletal_model_s) (k : Nat) :
    ∀ (i : Nat) (st : HairMeshCopy),
      (copyParts model k i st).m_elements.length = st.m_elements.length := by
  induction k with
  | zero => intro i st; rfl
  | succ k ih =>
    intro i st
    cases hpart : model.mesh_tree[i]? with
    | none =>
      simp only [copyParts, hpart]
      exact ih (i + 1) st
    | some part =>
      obtain ⟨st1, hstep, hm, _, _⟩ := copyParts_step model k i st part hpart
      rw [hstep, ih (i + 1) st1, hm, List.length_set]

/-- The copy loop from part `i` on leaves the elements before `i` as they are. -/
theorem copyParts_m_elements_below (model : skeletal_model_s) (d : HairElement) (k : Nat) :
    ∀ (i : Nat) (st : HairMeshCopy) (p : Nat), p < i →
      (copyParts model k i st).m_elements.getD p d = st.m_elements.getD p d := by
  induction k with
  | zero => intro i st p _; rfl
  | succ k ih =>
    intro i st p hp
    cases hpart : model.mesh_tree[i]? with
    | none =>
      simp only [copyParts, hpart]
      exact ih (i + 1) st p (by omega)
    | some part =>
      obtain ⟨st1, hstep, hm, _, _⟩ := copyParts_step model k i st part hpart
      rw [hstep, ih (i + 1) st1 p (by omega), hm]
      simp only [List.getD_eq_getElem?_getD]
      rw [List.getElem?_set_ne (by omega)]

/-- Reading back the element written by `set`. -/
theorem getD_set_self {α : Type} (l : List α) (i : Nat) (x d : α) (h : i < l.length) :
    (l.set i x).getD i d = x := by
  simp [List.getD_eq_getElem?_getD, List.getElem?_set_self, h]

/-- The copy loop gives every element it visits the offset of its part, added to the
final position of the element before it when there is one. -/
theorem copyParts_position (model : skeletal_model_s) (k : Nat) :
    ∀ (i : Nat) (st : HairMeshCopy),
      i + k ≤ model.mesh_tree.length → i + k ≤ st.m_elements.length →
      ∀ (p : Nat) (part : mesh_tree_tag_s), i ≤ p → p < i + k →
        model.mesh_tree[p]? = some part →
        ((copyParts model k i st).m_elements.getD p HairElement.empty).position =
          if p > 0 then
            part.offset.add
              ((copyParts model k i st).m_elements.getD (p - 1) HairElement.empty).position
          else part.offset := by
  induction k with
  | zero => intro i st _ _ p part h1 h2; omega
  | succ k ih =>
    intro i st ht he p part h1 h2 hp
    obtain ⟨part_i, hpart⟩ := mesh_tree_some model i (by omega)
    obtain ⟨st1, hstep, hm, _, _⟩ := copyParts_step model k i st part_i hpart
    have hlen : st1.m_elements.length = st.m_elements.length := by
      rw [hm, List.length_set]
    rw [hstep]
    by_cases hpi : p = i
    · subst hpi
      rw [hp] at hpart
      cases hpart
      rw [copyParts_m_elements_below model _ k (p + 1) st1 p (by omega), hm,
        getD_set_self _ _ _ _ (by omega)]
      by_cases h0 : p > 0
      · rw [copyParts_m_elements_below model _ k (p + 1) st1 (p - 1) (by omega), hm]
        simp only [h0, if_true]
        congr 2
        simp only [List.getD_eq_getElem?_getD]
        rw [List.getElem?_set_ne (by omega)]
      · simp only [h0, if_false]
    · exact ih (i + 1) st1 (by omega) (by omega) p part (by omega) (by omega) hp

/-- The copy loop appends the vertices of the parts it visits, in part order, each
translated by the final position of the element of its part. -/
theorem copyParts_vertices (model : skeletal_model_s) (k : Nat) :
    ∀ (i : Nat) (st : HairMeshCopy),
      i + k ≤ model.mesh_tree.length → i + k ≤ st.m_elements.length →
      (copyParts model k i st).vertices =
        st.vertices ++ (List.range' i k).flatMap (fun p =>
          match model.mesh_tree[p]? with
          | none => []
          | some part => part.mesh_base.vertices.map (fun v =>
              { position := v.position.add
                  ((copyParts model k i st).m_elements.getD p HairElement.empty).position })) := by
  induction k with
  | zero => intro i st _ _; simp [copyParts]
  | succ k ih =>
    intro i st ht he
    obtain ⟨part, hpart⟩ := mesh_tree_some model i (by omega)
    obtain ⟨st1, hstep, hm, hv, _⟩ := copyParts_step model k i st part hpart
    have hlen : st1.m_elements.length = st.m_elements.length := by
      rw [hm, List.length_set]
    rw [hstep, ih (i + 1) st1 (by omega) (by omega), hv, List.range'_succ,
      List.flatMap_cons, List.append_assoc]
    simp only [hpart]
    rw [copyParts_m_elements_below model _ k (i + 1) st1 i (by omega), hm,
      getD_set_self _ _ _ _ (by omega)]

/-- The first vertex of the part after part `i`. -/
theorem verticesBefore_succ (model : skeletal_model_s) (i : Nat) (part : mesh_tree_tag_s)
    (hpart : model.mesh_tree[i]? = some part) :
    verticesBefore model (i + 1) = verticesBefore model i + part.mesh_base.vertices.length := by
  simp [verticesBefore, List.take_succ, hpart]

/-- The copy loop ends with as many vertices as the parts before the end have. -/
theorem copyParts_vertices_length (model : skeletal_model_s) (k : Nat) :
    ∀ (i : Nat) (st : HairMeshCopy),
      i + k ≤ model.mesh_tree.length → st.vertices.length = verticesBefore model i →
      (copyParts model k i st).vertices.length = verticesBefore model (i + k) := by
  induction k with
  | zero => intro i st _ h; exact h
  | succ k ih =>
    intro i st ht hs
    obtain ⟨part, hpart⟩ := mesh_tree_some model i (by omega)
    obtain ⟨st1, hstep, _, hv, _⟩ := copyParts_step model k i st part hpart
    rw [hstep, ih (i + 1) st1 (by omega)
      (by rw [hv, List.length_append, List.length_map, hs,
        verticesBefore_succ model i part hpart])]
    congr 1
    omega

/-- The copy loop appends the matrix index writes of the parts it visits, in part
order, the vertices of part `p` starting at vertex `verticesBefore model p`. -/
theorem copyParts_matrix_indices (model : skeletal_model_s) (k : Nat) :
    ∀ (i : Nat) (st : HairMeshCopy),
      i + k ≤ model.mesh_tree.length → st.vertices.length = verticesBefore model i →
      (copyParts model k i st).matrix_indices =
        st.matrix_indices ++ (List.range' i k).flatMap (fun p =>
          match model.mesh_tree[p]? with
          | none => []
          | some part => (List.range part.mesh_base.vertices.length).flatMap (fun j =>
              matrixIndexWrites part.mesh_base model.mesh_count p (verticesBefore model p) j)) := by
  induction k with
  | zero => intro i st _ _; simp [copyParts]
  | succ k ih =>
    intro i st ht hs
    obtain ⟨part, hpart⟩ := mesh_tree_some model i (by omega)
    obtain ⟨st1, hstep, _, hv, hw⟩ := copyParts_step model k i st part hpart
    rw [hstep, ih (i + 1) st1 (by omega)
      (by rw [hv, List.length_append, List.length_map, hs,
        verticesBefore_succ model i part hpart]), hw, List.range'_succ,
      List.flatMap_cons, List.append_assoc]
    simp only [hpart, hs]

/-! ### The combined hair mesh: resting positions, vertices and matrix indices -/

/-- Vector addition commutes. -/
theorem btVector3.add_swap (a b : btVector3) : a.add b = b.add a := by
  simp [btVector3.add, add_comm]

/-- Maps that agree on the entries of a list give the same concatenation. -/
theorem flatMap_congr_mem {α β : Type} (l : List α) (f g : α → List β)
    (h : ∀ x ∈ l, f x = g x) : l.flatMap f = l.flatMap g := by
  induction l with
  | nil => rfl
  | cons a rest ih =>
    rw [List.flatMap_cons, List.flatMap_cons, h a (List.mem_cons_self a rest),
      ih (fun x hx => h x (List.mem_cons_of_mem a hx))]

/-- The cast `(int8_t)` keeps the values of the range of `int8_t`. -/
theorem toInt8_of_small (v : Int) (h1 : -128 ≤ v) (h2 : v ≤ 127) : toInt8 v = v := by
  unfold toInt8
  omega

/-- For a model of at most 126 parts the two writes made for a vertex of part `i`
store the pair of the specification. -/
theorem matrixIndexWrites_pair (original : base_mesh_s) (N i vs j : Nat) (hN : N ≤ 126)
    (hi : i < N) :
    matrixIndexWrites original N i vs j =
      [((vs + j) * 2 + 0, (skinningPair N i
          (original.vertices.getD j { position := { x := 0, y := 0, z := 0 } }).position.y).1),
        ((vs + j) * 2 + 1, (skinningPair N i
          (original.vertices.getD j { position := { x := 0, y := 0, z := 0 } }).position.y).2)] := by
  have e0 : toInt8 (i : Int) = (i : Int) := toInt8_of_small _ (by omega) (by omega)
  have e1 : toInt8 ((i : Int) + 1) = (i : Int) + 1 := toInt8_of_small _ (by omega) (by omega)
  have e2 : toInt8 ((i : Int) + 2) = (i : Int) + 2 := toInt8_of_small _ (by omega) (by omega)
  have eN : toInt8 (N : Int) = (N : Int) := toInt8_of_small _ (by omega) (by omega)
  unfold matrixIndexWrites skinningPair
  by_cases hy :
      (original.vertices.getD j { position := { x := 0, y := 0, z := 0 } }).position.y ≤ 0
  · simp only [hy, if_true]
    rw [e0, e1]
  · simp only [hy, if_false]
    rw [e1, e2, eN]

/-- The pair of the specification lies between 0 and the number of parts, in order,
its entries at most one apart. -/
theorem skinningPair_bounds (N i : Nat) (y : ℚ) (hi : i < N) :
    0 ≤ (skinningPair N i y).1 ∧ (skinningPair N i y).1 ≤ (skinningPair N i y).2 ∧
      (skinningPair N i y).2 ≤ (N : Int) ∧
      (skinningPair N i y).2 - (skinningPair N i y).1 ≤ 1 := by
  unfold skinningPair
  by_cases hy : y ≤ 0
  · simp only [hy, if_true]
    omega
  · simp only [hy, if_false]
    rcases le_total ((i : Int) + 2) (N : Int) with h | h
    · rw [min_eq_left h]
      omega
    · rw [min_eq_right h]
      omega

/-- `Hair::createHairMesh` is the copy loop over all parts, started without vertices
and without matrix index writes on the elements of the hair. -/
theorem createHairMesh_copy (tex_count : Nat) (h : Hair) (model : skeletal_model_s) :
    ∃ st0 : HairMeshCopy,
      st0.vertices = [] ∧ st0.matrix_indices = [] ∧ st0.m_elements = h.m_elements ∧
      (h.createHairMesh tex_count model).m_elements =
        (copyParts model model.mesh_count 0 st0).m_elements ∧
      (h.createHairMesh tex_count model).m_mesh.map (fun mesh => mesh.vertices) =
        some (copyParts model model.mesh_count 0 st0).vertices ∧
      (h.createHairMesh tex_count model).m_mesh.map (fun mesh => mesh.matrix_indices) =
        some (copyParts model model.mesh_count 0 st0).matrix_indices :=
  ⟨
    { vertices := [],
      elements := List.replicate
        (gatherSizes model model.mesh_count 0 0 (List.replicate tex_count 0) 0).2.2 0,
      matrix_indices := [],
      elementsStartPerTexture := List.replicate
        (gatherSizes model model.mesh_count 0 0 (List.replicate tex_count 0) 0).1 0,
      m_elements := h.m_elements },
    rfl, rfl, rfl, rfl, rfl, rfl⟩

/-- C22: after `Hair::createHairMesh` on a model of `N` parts, all of them in the part
table and the hair holding an element for each, element 0 rests at the offset of
part 0; element `i`, for `1 ≤ i < N`, rests at the resting position of element
`i - 1` plus the offset of part `i`; the vertices of the combined mesh are the
vertices of the parts in part order, each translated by the resting position of the
element of its part, so the mesh has as many vertices as all the parts together. -/
theorem resting_offsets_cumulative (tex_count : Nat) (h : Hair) (model : skeletal_model_s)
    (hparts : model.mesh_count ≤ model.mesh_tree.length)
    (helems : model.mesh_count ≤ h.m_elements.length) :
    (∀ part, 0 < model.mesh_count → model.mesh_tree[0]? = some part →
      ((h.createHairMesh tex_count model).m_elements.getD 0 HairElement.empty).position =
        part.offset) ∧
    (∀ i part, 1 ≤ i → i < model.mesh_count → model.mesh_tree[i]? = some part →
      ((h.createHairMesh tex_count model).m_elements.getD i HairElement.empty).position =
        ((h.createHairMesh tex_count model).m_elements.getD (i - 1)
          HairElement.empty).position.add part.offset) ∧
    (h.createHairMesh tex_count model).m_mesh.map (fun mesh => mesh.vertices) =
      some ((List.range model.mesh_count).flatMap (fun i =>
        match model.mesh_tree[i]? with
        | none => []
        | some part => part.mesh_base.vertices.map (fun v =>
            { position := v.position.add
                ((h.createHairMesh tex_count model).m_elements.getD i
                  HairElement.empty).position }))) ∧
    (h.createHairMesh tex_count model).m_mesh.map (fun mesh => mesh.vertices.length) =
      some (verticesBefore model model.mesh_count) := by
  obtain ⟨st0, hv0, _, he0, hE, hV, _⟩ := createHairMesh_copy tex_count h model
  have hlen : 0 + model.mesh_count ≤ st0.m_elements.length := by
    rw [he0]
    omega
  have hstart : st0.vertices.length = verticesBefore model 0 := by
    rw [hv0]
    simp [verticesBefore]
  refine ⟨?_, ?_, ?_, ?_⟩
  · intro part hN hpart
    rw [hE]
    exact copyParts_position model model.mesh_count 0 st0 (by omega) hlen 0 part
      (le_refl 0) (by omega) hpart
  · intro i part h1 hi hpart
    have hpos := copyParts_position model model.mesh_count 0 st0 (by omega) hlen i part
      (Nat.zero_le i) (by omega) hpart
    have hgt : i > 0 := h1
    simp only [hgt, if_true] at hpos
    rw [hE, hpos, btVector3.add_swap]
  · rw [hV, hE, copyParts_vertices model model.mesh_count 0 st0 (by omega) hlen, hv0,
      List.nil_append, ← List.range_eq_range']
  · have hl := copyParts_vertices_length model model.mesh_count 0 st0 (by omega) hstart
    rw [Nat.zero_add] at hl
    rw [← hl]
    have hmap := congrArg (Option.map List.length) hV
    simpa [Option.map_map, Function.comp_def] using hmap

/-- Witness for C22: in the hair model of two parts, element 1 rests at the resting
position of element 0 plus the offset of part 1. -/
theorem resting_offsets_cumulative_witness :
    ((hairTwoElements.createHairMesh 4 hairModel).m_elements.getD 1
        HairElement.empty).position =
      ((hairTwoElements.createHairMesh 4 hairModel).m_elements.getD (1 - 1)
        HairElement.empty).position.add { x := 0, y := 2, z := 0 } :=
  (resting_offsets_cumulative 4 hairTwoElements hairModel (by decide) (by decide)).2.1 1
    { mesh_base := strandMesh, offset := { x := 0, y := 2, z := 0 } } (by decide) (by decide) rfl

/-- C23: for a model of `N ≤ 126` parts, all of them in the part table, the matrix
index writes of `Hair::createHairMesh` are, part after part and vertex after vertex,
the two entries of the vertex: the pair `(i, i + 1)` for a vertex of part `i` whose
local y coordinate is at most 0, and `(i + 1, min (i + 2) N)` for a vertex with
positive y; every such pair `(a, b)` has `0 ≤ a ≤ b ≤ N` and `b - a ≤ 1`. -/
theorem skinning_index_pairs (tex_count : Nat) (h : Hair) (model : skeletal_model_s)
    (hN : model.mesh_count ≤ 126) (hparts : model.mesh_count ≤ model.mesh_tree.length) :
    (h.createHairMesh tex_count model).m_mesh.map (fun mesh => mesh.matrix_indices) =
      some ((List.range model.mesh_count).flatMap (fun i =>
        match model.mesh_tree[i]? with
        | none => []
        | some part => (List.range part.mesh_base.vertices.length).flatMap (fun j =>
            [((verticesBefore model i + j) * 2 + 0, (skinningPair model.mesh_count i
                (part.mesh_base.vertices.getD j
                  { position := { x := 0, y := 0, z := 0 } }).position.y).1),
              ((verticesBefore model i + j) * 2 + 1, (skinningPair model.mesh_count i
                (part.mesh_base.vertices.getD j
                  { position := { x := 0, y := 0, z := 0 } }).position.y).2)]))) ∧
    (∀ i y, i < model.mesh_count →
      skinningPair model.mesh_count i y =
        (if y ≤ 0 then ((i : Int), (i : Int) + 1)
          else ((i : Int) + 1, min ((i : Int) + 2) (model.mesh_count : Int))) ∧
      0 ≤ (skinningPair model.mesh_count i y).1 ∧
      (skinningPair model.mesh_count i y).1 ≤ (skinningPair model.mesh_count i y).2 ∧
      (skinningPair model.mesh_count i y).2 ≤ (model.mesh_count : Int) ∧
      (skinningPair model.mesh_count i y).2 - (skinningPair model.mesh_count i y).1 ≤ 1) := by
  refine ⟨?_, fun i y hi => ⟨rfl, skinningPair_bounds model.mesh_count i y hi⟩⟩
  obtain ⟨st0, hv0, hw0, _, _, _, hM⟩ := createHairMesh_copy tex_count h model
  have hstart : st0.vertices.length = verticesBefore model 0 := by
    rw [hv0]
    simp [verticesBefore]
  rw [hM, copyParts_matrix_indices model model.mesh_count 0 st0 (by omega) hstart, hw0,
    List.nil_append, ← List.range_eq_range']
  congr 1
  apply flatMap_congr_mem
  intro i hi
  have hlt : i < model.mesh_count := List.mem_range.mp hi
  cases model.mesh_tree[i]? with
  | none => rfl
  | some part =>
    simp only []
    apply flatMap_congr_mem
    intro j _
    exact matrixIndexWrites_pair part.mesh_base model.mesh_count i (verticesBefore model i) j
      hN hlt

/-- Witness for C23: the matrix index writes made for the hair model of two parts,
whose parts have a vertex below and a vertex above the origin each. -/
theorem skinning_index_pairs_witness :
    (hairTwoElements.createHairMesh 4 hairModel).m_mesh.map
        (fun mesh => mesh.matrix_indices) =
      some [(0, 0), (1, 1), (2, 1), (3, 2), (4, 1), (5, 2), (6, 2), (7, 2)] :=
  (skinning_index_pairs 4 hairTwoElements hairModel (by decide) (by decide)).1.trans
    (by decide)

end OpenTomb
